import Mathlib

/-!
# Retrieval market: provider environments, client handlers and wire structs

A shallow embedding of `retrievalmarket/impl/provider_environments.go`
(deal-parameter validation, piece lookup, storage deals of a payload, deal
tracking, deal decision, transfer close, store release and the lazy
blockstore), of the client
handlers exercised by
`retrievalmarket/impl/clientstates/client_states_test.go`, and of the
generated CBOR code of `piecestore/types_cbor_gen.go` and
`discovery/types_cbor_gen.go`.

Conventions of the embedding:

* a Go `error` result is an `Option String`: `none` is `nil`, `some m` is an
  error whose message is `m`; `xerrors.Errorf("p: %w", e)` is the message
  `"p: " ++ e`; a function that returns only an error next to a state or a
  value it produces returns an `Except String` of that state or value;
* `uint64` values that are only compared or copied are natural numbers; where
  they are encoded, the theorems assume them below `2 ^ 64`;
* `abi.TokenAmount` (a big integer) is an `Int`; an amount that the code
  tests for nil is an `Option Int`;
* the piece store and the sector oracle are functions, so that asking the
  same question twice gives the same answer;
* a decoder takes the receiver as it is before the call and the bytes to
  read (`cbg.GetPeeker` only wraps the reader), and on success returns the
  receiver as it is afterwards and the bytes left.
-/

set_option autoImplicit false

/-! ## Content identifiers -/

/-- The go-cid `Cid`: a wrapper around the binary string form of the
identifier. The zero value is the undefined CID. -/
structure Cid where
  str : List Nat
  deriving DecidableEq, Repr

namespace Cid

/-- The go-cid `cid.Undef`, the zero value. -/
def Undef : Cid := ⟨[]⟩

/-- The go-cid `Defined`: the wrapped string is not empty. -/
def Defined (c : Cid) : Bool := c.str != []

/-- The go-cid `Equals`: equality of the wrapped strings. -/
def Equals (c o : Cid) : Bool := c == o

end Cid

/-! ## Piece store types -/

namespace piecestore

/-- One storage deal holding a piece: `DealInfo` of the piece store. -/
structure DealInfo where
  DealID : Nat
  SectorID : Nat
  Offset : Nat
  Length : Nat
  deriving DecidableEq, Repr

/-- Position of a block inside a piece. -/
structure BlockLocation where
  RelOffset : Nat
  BlockSize : Nat
  deriving DecidableEq, Repr

/-- A block location together with the piece it lies in. -/
structure PieceBlockLocation where
  BlockLocation : BlockLocation
  PieceCID : Cid
  deriving DecidableEq, Repr

/-- All the pieces known to contain a payload CID. -/
structure CIDInfo where
  CID : Cid
  PieceBlockLocations : List PieceBlockLocation
  deriving DecidableEq, Repr

/-- A piece and the deals that store it, as used by
`provider_environments.go` (`PieceCID` is compared with `Equals`). -/
structure PieceInfo where
  PieceCID : Cid
  Deals : List DealInfo
  deriving DecidableEq, Repr

/-- The zero `PieceInfo`, returned together with an error. -/
def PieceInfoUndefined : PieceInfo := ⟨Cid.Undef, []⟩

/-- The two queries of the `PieceStore` interface used by the provider. -/
structure PieceStore where
  GetPieceInfo : Cid → Except String PieceInfo
  GetCIDInfo : Cid → Except String CIDInfo

end piecestore

/-! ## Retrieval market types -/

namespace retrievalmarket

/-- Modelled from the spec: the declaration of `retrievalmarket.Ask` is not
among the sources. Section 4.2 and the glossary give the provider's posted
pricing: price per byte, payment interval, payment interval increase and an
unseal price that the ask may leave undefined (`none` is the nil amount
tested by `ask.UnsealPrice.Nil()`). -/
structure Ask where
  PricePerByte : Int
  UnsealPrice : Option Int
  PaymentInterval : Nat
  PaymentIntervalIncrease : Nat
  deriving DecidableEq, Repr

/-- The sector oracle of `RetrievalProviderNode`:
`IsUnsealed(sectorID, offset, length)` answers or fails. -/
structure RetrievalProviderNode where
  IsUnsealed : Nat → Nat → Nat → Except String Bool

end retrievalmarket

/-- The go-state-types method `PaddedPieceSize.Unpadded` (an external
library): `s - s / 128`. -/
def abi.PaddedPieceSize.Unpadded (s : Nat) : Nat := s - s / 128

namespace retrievalimpl

open piecestore retrievalmarket

/-! ## Deal-parameter validation -/

/-- The method `providerValidationEnvironment.CheckDealParams`
(provider_environments.go, lines 63-77). -/
def CheckDealParams (ask : Ask) (pricePerByte : Int) (paymentInterval : Nat)
    (paymentIntervalIncrease : Nat) (unsealPrice : Int) : Option String :=
  if pricePerByte < ask.PricePerByte then
    some "Price per byte too low"
  else if paymentInterval > ask.PaymentInterval then
    some "Payment interval too large"
  else if paymentIntervalIncrease > ask.PaymentIntervalIncrease then
    some "Payment interval increase too large"
  else
    match ask.UnsealPrice with
    | some askUnseal =>
      if unsealPrice < askUnseal then some "Unseal price too small" else none
    | none => none

/-! ## Piece lookup -/

/-- The `for _, di := range pieceInfo.Deals` loop of `pieceInUnsealedSector`
(lines 180-189): an oracle error is logged and the scan goes on; the first
deal answered `true` ends it. -/
def pieceInUnsealedSector.loop (n : RetrievalProviderNode) : List DealInfo → Bool
  | [] => false
  | di :: rest =>
    match n.IsUnsealed di.SectorID (abi.PaddedPieceSize.Unpadded di.Offset) di.Length with
    | .error _ => pieceInUnsealedSector.loop n rest
    | .ok isUnsealed => if isUnsealed then true else pieceInUnsealedSector.loop n rest

/-- The function `pieceInUnsealedSector` (lines 179-192). -/
def pieceInUnsealedSector (n : RetrievalProviderNode) (pieceInfo : PieceInfo) : Bool :=
  pieceInUnsealedSector.loop n pieceInfo.Deals

/-- The loop of `getPieceInfoFromCid` (lines 257-281) followed by the code
after it (lines 283-291). `lastErr` and `sealedPieceInfo` are the two local
variables of the function; `cidStr` is the go-cid `String` method. -/
def getPieceInfoFromCid.loop (cidStr : Cid → String) (n : RetrievalProviderNode)
    (pieceStore : PieceStore) (pieceCID : Cid) :
    List PieceBlockLocation → Option String → Option PieceInfo →
      PieceInfo × Bool × Option String
  | [], lastErr, sealedPieceInfo =>
    match sealedPieceInfo with
    | some p => (p, false, none)
    | none =>
      let lastErr := match lastErr with
        | some e => e
        | none => "unknown pieceCID " ++ cidStr pieceCID
      (PieceInfoUndefined, false, some ("could not locate piece: " ++ lastErr))
  | pieceBlockLocation :: rest, lastErr, sealedPieceInfo =>
    match pieceStore.GetPieceInfo pieceBlockLocation.PieceCID with
    | .error err => loop cidStr n pieceStore pieceCID rest (some err) sealedPieceInfo
    | .ok pieceInfo =>
      if pieceCID.Defined && pieceInfo.PieceCID.Equals pieceCID then
        (pieceInfo, pieceInUnsealedSector n pieceInfo, none)
      else if pieceCID.Equals Cid.Undef then
        if pieceInUnsealedSector n pieceInfo then
          (pieceInfo, true, none)
        else
          loop cidStr n pieceStore pieceCID rest lastErr
            (match sealedPieceInfo with
             | none => some pieceInfo
             | some p => some p)
      else
        loop cidStr n pieceStore pieceCID rest lastErr sealedPieceInfo

/-- The function `getPieceInfoFromCid` (lines 249-292). The result is the Go triple
`(piecestore.PieceInfo, bool, error)`. -/
def getPieceInfoFromCid (cidStr : Cid → String) (n : RetrievalProviderNode)
    (pieceStore : PieceStore) (payloadCID pieceCID : Cid) :
    PieceInfo × Bool × Option String :=
  match pieceStore.GetCIDInfo payloadCID with
  | .error err => (PieceInfoUndefined, false, some ("get cid info: " ++ err))
  | .ok cidInfo =>
    getPieceInfoFromCid.loop cidStr n pieceStore pieceCID cidInfo.PieceBlockLocations none none

/-- The method `providerValidationEnvironment.GetPiece` (lines 53-60): a nil piece
pointer becomes the undefined CID. -/
def GetPiece (cidStr : Cid → String) (n : RetrievalProviderNode) (pieceStore : PieceStore)
    (c : Cid) (pieceCID : Option Cid) : PieceInfo × Bool × Option String :=
  let inPieceCid := match pieceCID with
    | some p => p
    | none => Cid.Undef
  getPieceInfoFromCid cidStr n pieceStore c inPieceCid

end retrievalimpl

/-! ## Deal states -/

namespace retrievalmarket

/-- Modelled from the spec: the declaration of `retrievalmarket.DealStatus` is
not among the sources. The statuses are those named in sections 4.1 and 4.2
and in `client_states_test.go`. -/
inductive DealStatus where
  | DealStatusNew
  | DealStatusWaitForAcceptance
  | DealStatusAccepted
  | DealStatusRejected
  | DealStatusPaymentChannelCreating
  | DealStatusPaymentChannelAddingFunds
  | DealStatusOngoing
  | DealStatusFundsNeeded
  | DealStatusFundsNeededLastPayment
  | DealStatusSendFunds
  | DealStatusSendFundsLastPayment
  | DealStatusFinalizing
  | DealStatusCheckComplete
  | DealStatusCompleted
  | DealStatusFailing
  | DealStatusErrored
  | DealStatusDealOpen
  | DealStatusUnsealing
  | DealStatusUnsealComplete
  deriving DecidableEq, Repr

/-- Modelled from the spec: the declaration of `retrievalmarket.Params` is not
among the sources. Section 3 gives `params = { selector, price-per-byte,
payment-interval, payment-interval-increase, unseal-price }`; the optional
piece CID of the proposal travels with them. The selector is kept as its
encoded bytes. -/
structure Params where
  Selector : List Nat
  PieceCID : Option Cid
  PricePerByte : Int
  PaymentInterval : Nat
  PaymentIntervalIncrease : Nat
  UnsealPrice : Int
  deriving DecidableEq, Repr

/-- Modelled from the spec: the declaration of `retrievalmarket.DealProposal`
is not among the sources. Section 3 gives `{ deal-id, payload-cid, optional
piece-cid, params }`; the parameters are embedded, as the source reads
`pds.UnsealPrice` directly. -/
structure DealProposal extends Params where
  PayloadCID : Cid
  ID : Nat
  deriving DecidableEq, Repr

/-- The data-transfer `ChannelID{ID, Responder, Initiator}` built in
`client_states_test.go`, line 46. -/
structure ChannelID where
  Initiator : String
  Responder : String
  ID : Nat
  deriving DecidableEq, Repr

/-- The key of a provider deal, `ProviderDealIdentifier{Receiver, DealID}`
(provider_environments.go, line 302). -/
structure ProviderDealIdentifier where
  Receiver : String
  DealID : Nat
  deriving DecidableEq, Repr

/-- Modelled from the spec: the declaration of
`retrievalmarket.ProviderDealState` is not among the sources. Section 3 gives
the deal proposal together with `{ status, receiver-peer, total-sent,
funds-received, current-interval, current-interval-low-water,
unseal-price-paid, legal-payment-channel?, message, piece-info?,
channel-id? }`. -/
structure ProviderDealState extends DealProposal where
  Status : DealStatus
  Receiver : String
  TotalSent : Nat
  FundsReceived : Int
  CurrentInterval : Nat
  CurrentIntervalLowWater : Nat
  UnsealPricePaid : Int
  LegalPaymentChannel : Option String
  Message : String
  PieceInfo : Option piecestore.PieceInfo
  ChannelID : Option ChannelID
  deriving DecidableEq, Repr

/-- The method `ProviderDealState.Identifier`: the receiving peer and the deal id. -/
def ProviderDealState.Identifier (pds : ProviderDealState) : ProviderDealIdentifier :=
  ⟨pds.Receiver, pds.ID⟩

/-- The provider events named in `provider_environments.go` and in section 4.3. -/
inductive ProviderEvent where
  | ProviderEventOpen
  | ProviderEventPaymentRequested
  | ProviderEventPaymentFailed
  deriving DecidableEq, Repr

/-- One call of `stateMachines.Send(id, evt, args...)`. -/
structure SentEvent where
  id : ProviderDealIdentifier
  evt : ProviderEvent
  args : List Nat
  deriving DecidableEq, Repr

/-- The two operations of the state-machine group (go-statemachine, an
external library) that `BeginTracking` calls, as functions of the state `σ`
of the group: each returns the new state and the Go `error`. -/
structure StateMachines (σ : Type) where
  Begin : σ → ProviderDealIdentifier → ProviderDealState → σ × Option String
  Send : σ → ProviderDealIdentifier → ProviderEvent → List Nat → σ × Option String

/-- The same group with a log of the calls of `Send`: every call appends its
event to the log, whatever the group answers; `Begin` leaves the log alone. -/
def StateMachines.logged {σ : Type} (sm : StateMachines σ) :
    StateMachines (σ × List SentEvent) where
  Begin := fun st id pds =>
    (((sm.Begin st.1 id pds).1, st.2), (sm.Begin st.1 id pds).2)
  Send := fun st id evt args =>
    (((sm.Send st.1 id evt args).1, st.2 ++ [⟨id, evt, args⟩]), (sm.Send st.1 id evt args).2)

/-- Modelled from the spec: the declaration of `retrievalmarket.PaymentInfo` is
not among the sources. Section 3 gives the payment channel address, absent
until the channel is set up, and the lane. -/
structure PaymentInfo where
  PayCh : Option String
  Lane : Nat
  deriving DecidableEq, Repr

/-- Modelled from the spec: the declaration of
`retrievalmarket.ClientDealState` is not among the sources. Section 3 gives
the deal proposal together with `{ status, sender-peer, total-funds,
funds-spent, unseal-funds-paid, payment-requested, bytes-paid-for,
total-received, current-interval, last-payment-requested,
all-blocks-received, channel-id?, payment-info, message, wait-msg-id? }`;
the two wallets are set by `makeDealState` in `client_states_test.go`. Token
amounts are integers and byte counts are natural numbers, as in that test. -/
structure ClientDealState extends DealProposal where
  Status : DealStatus
  Sender : String
  TotalFunds : Int
  FundsSpent : Int
  UnsealFundsPaid : Int
  PaymentRequested : Int
  BytesPaidFor : Nat
  TotalReceived : Nat
  CurrentInterval : Nat
  LastPaymentRequested : Bool
  AllBlocksReceived : Bool
  ChannelID : Option ChannelID
  PaymentInfo : PaymentInfo
  Message : String
  WaitMsgCID : Option Cid
  ClientWallet : String
  MinerWallet : String
  deriving DecidableEq, Repr

/-- Modelled from the spec: the payment voucher is declared outside the
sources. Section 3 gives `{ amount, nonce, lane }`. -/
structure Voucher where
  Amount : Int
  Nonce : Nat
  Lane : Nat
  deriving DecidableEq, Repr

end retrievalmarket

namespace retrievalimpl

open retrievalmarket

/-! ## Deal tracking -/

/-- The method `providerValidationEnvironment.BeginTracking`
(provider_environments.go, lines 88-99), run from the state `s` of the
group: the result is the state of the group afterwards and the returned
error. -/
def BeginTracking {σ : Type} (stateMachines : StateMachines σ) (s : σ)
    (pds : ProviderDealState) : σ × Option String :=
  match stateMachines.Begin s pds.Identifier pds with
  | (s1, some err) => (s1, some err)
  | (s1, none) =>
    if pds.UnsealPrice > 0 then
      stateMachines.Send s1 pds.Identifier ProviderEvent.ProviderEventPaymentRequested [0]
    else
      stateMachines.Send s1 pds.Identifier ProviderEvent.ProviderEventOpen []

/-- A group that keeps the list of tracked deals: `Begin` refuses an
identifier that is already tracked, `Send` refuses one that is not. -/
def exampleStateMachines :
    StateMachines (List (ProviderDealIdentifier × ProviderDealState)) where
  Begin := fun st id pds =>
    if st.any (fun e => e.1 == id) then (st, some "already tracking identifier")
    else (st ++ [(id, pds)], none)
  Send := fun st id _ _ =>
    if st.any (fun e => e.1 == id) then (st, none)
    else (st, some "not tracking identifier")

/-- A provider deal for peer `"client"` with deal id `10` and the given
unseal price. -/
def exampleProviderDeal (unsealPrice : Int) : ProviderDealState where
  Selector := []
  PieceCID := none
  PricePerByte := 500
  PaymentInterval := 1000
  PaymentIntervalIncrease := 500
  UnsealPrice := unsealPrice
  PayloadCID := ⟨[9]⟩
  ID := 10
  Status := DealStatus.DealStatusNew
  Receiver := "client"
  TotalSent := 0
  FundsReceived := 0
  CurrentInterval := 1000
  CurrentIntervalLowWater := 0
  UnsealPricePaid := 0
  LegalPaymentChannel := none
  Message := ""
  PieceInfo := none
  ChannelID := none

end retrievalimpl

/-! ## Example data for the piece lookup -/

namespace retrievalimpl

open piecestore retrievalmarket

/-- A piece stored in sector 1, which the example oracle reports unsealed. -/
def examplePieceA : PieceInfo := ⟨⟨[1]⟩, [⟨10, 1, 0, 100⟩]⟩

/-- A piece stored in sector 2, sealed. -/
def examplePieceB : PieceInfo := ⟨⟨[2]⟩, [⟨11, 2, 0, 100⟩]⟩

/-- A piece stored in sector 3, sealed. -/
def examplePieceC : PieceInfo := ⟨⟨[3]⟩, [⟨12, 3, 128, 100⟩]⟩

/-- Sector 1 is unsealed, sector 4 makes the oracle fail, the others are sealed. -/
def exampleNode : RetrievalProviderNode where
  IsUnsealed := fun sectorID _ _ =>
    if sectorID = 1 then .ok true
    else if sectorID = 4 then .error "sector lookup failed"
    else .ok false

/-- A location in the piece with the given CID. -/
def exampleLocation (c : Cid) : PieceBlockLocation := ⟨⟨0, 32⟩, c⟩

/-- A store with three pieces and four payloads; the piece `[5]` is listed by
some payloads but its info cannot be fetched. -/
def exampleStore : PieceStore where
  GetPieceInfo := fun c =>
    if c = ⟨[1]⟩ then .ok examplePieceA
    else if c = ⟨[2]⟩ then .ok examplePieceB
    else if c = ⟨[3]⟩ then .ok examplePieceC
    else .error "piece not found"
  GetCIDInfo := fun c =>
    if c = ⟨[9]⟩ then .ok ⟨c, [exampleLocation ⟨[1]⟩, exampleLocation ⟨[2]⟩]⟩
    else if c = ⟨[8]⟩ then
      .ok ⟨c, [exampleLocation ⟨[2]⟩, exampleLocation ⟨[5]⟩, exampleLocation ⟨[1]⟩]⟩
    else if c = ⟨[7]⟩ then
      .ok ⟨c, [exampleLocation ⟨[5]⟩, exampleLocation ⟨[2]⟩, exampleLocation ⟨[3]⟩]⟩
    else if c = ⟨[6]⟩ then .ok ⟨c, [exampleLocation ⟨[5]⟩]⟩
    else .error "cid info not found"

/-- A stand-in for the textual form of a CID. -/
def exampleCidStr (c : Cid) : String := toString c.str

/-- A store in which the payload `[9]` lies in the pieces `[4]`, `[2]` and
`[5]`, of which only `[2]` can be fetched; each failed lookup names its
piece. -/
def exampleFailingStore : PieceStore where
  GetPieceInfo := fun c =>
    if c = ⟨[2]⟩ then .ok examplePieceB
    else .error ("piece not found: " ++ exampleCidStr c)
  GetCIDInfo := fun c =>
    if c = ⟨[9]⟩ then
      .ok ⟨c, [exampleLocation ⟨[4]⟩, exampleLocation ⟨[2]⟩, exampleLocation ⟨[5]⟩]⟩
    else .error "cid info not found"

/-- A piece with three deals: the oracle fails for the first (sector 4),
answers `false` for the second (sector 2) and `true` for the third
(sector 1). -/
def examplePieceD : PieceInfo := ⟨⟨[4]⟩, [⟨13, 4, 0, 100⟩, ⟨14, 2, 256, 100⟩, ⟨15, 1, 512, 100⟩]⟩

end retrievalimpl

/-! ## Client payment handler -/

namespace clientstates

open retrievalmarket

/-- Modelled from the spec: the client deal environment is declared outside
the sources. Section 4.1 has `SendFunds` call
`PaymentGateway.createVoucher(channel, lane, amount)`, which yields a voucher
or fails, and `DataTransferAdapter.sendVoucher`, which may fail (the
`SendDataTransferVoucher` of the fake environment in
`client_states_test.go`). -/
structure ClientDealEnvironment where
  CreateVoucher : Option String → Nat → Int → Except String Voucher
  SendDataTransferVoucher : Option ChannelID → Voucher → Option String

/-- Modelled from the spec: section 4.1, `SendFunds`,
`owed = (total-received − bytes-paid-for) · price-per-byte`, computed over the
integers. -/
def owed (deal : ClientDealState) : Int :=
  ((deal.TotalReceived : Int) - (deal.BytesPaidFor : Int)) * deal.PricePerByte

/-- Modelled from the spec: the body of the client handler `SendFunds`, which
is not among the sources (only its test `TestSendFunds` is). Steps 1 to 7 of
section 4.1; `next` is the status of step 8.

1. `payment-requested > owed` fails the deal ("provider requested more than
   owed").
2. `pay = min(payment-requested, owed)`.
3. `funds-spent + pay > total-funds` fails the deal ("insufficient funds").
4. The voucher is created for `funds-spent + pay`; a failure fails the deal
   with the cause as message (section 7).
5. The voucher is transmitted; a failure moves the deal to `Errored` with the
   cause as message.
6. `funds-spent += pay`; `bytes-paid-for` becomes `total-received` if
   `pay == owed` and `bytes-paid-for + pay/price-per-byte` otherwise (the
   integer quotient, the sum stored as a byte count);
   `payment-requested = 0`. The message is not part of the update.
7. The interval advances "only when the full requested amount was paid"
   (`pay == owed`; the under-request of scenario S3 and of the test "too
   little payment requested" leaves it) and, by core invariant 4, "only when
   a payment at or above the interval boundary is fully settled": the bytes
   the payment settles, `total-received − bytes-paid-for`, reach
   `current-interval`. When both hold it advances by the interval increase
   (scenario S1, the tests "it works", "last payment" and "more bytes since
   last payment than interval"); otherwise it is unchanged, as for the final
   payment of 500 bytes under an interval of 1000 or for a payment of no
   bytes. -/
def SendFunds.run (environment : ClientDealEnvironment) (deal : ClientDealState)
    (next : DealStatus) : ClientDealState :=
  if deal.PaymentRequested > owed deal then
    { deal with
      Status := DealStatus.DealStatusFailing
      Message := "provider requested more than owed" }
  else
    let pay := min deal.PaymentRequested (owed deal)
    if deal.FundsSpent + pay > deal.TotalFunds then
      { deal with
        Status := DealStatus.DealStatusFailing
        Message := "insufficient funds" }
    else
      match environment.CreateVoucher deal.PaymentInfo.PayCh deal.PaymentInfo.Lane
          (deal.FundsSpent + pay) with
      | .error err =>
        { deal with
          Status := DealStatus.DealStatusFailing
          Message := err }
      | .ok voucher =>
        match environment.SendDataTransferVoucher deal.ChannelID voucher with
        | some err =>
          { deal with
            Status := DealStatus.DealStatusErrored
            Message := err }
        | none =>
          { deal with
            Status := next
            FundsSpent := deal.FundsSpent + pay
            BytesPaidFor :=
              if pay = owed deal then deal.TotalReceived
              else Int.toNat ((deal.BytesPaidFor : Int) + pay / deal.PricePerByte)
            PaymentRequested := 0
            CurrentInterval :=
              if pay = owed deal ∧
                  deal.CurrentInterval ≤ deal.TotalReceived - deal.BytesPaidFor then
                deal.CurrentInterval + deal.PaymentIntervalIncrease
              else deal.CurrentInterval }

/-- Modelled from the spec: the client handler `SendFunds` of section 4.1,
which is not among the sources. It runs from `SendFunds` and from
`SendFundsLastPayment` (step 8: the first succeeds into `Ongoing`, the second
into `Finalizing`); from any other status the handler has no contract and the
result is `none`. -/
def SendFunds (environment : ClientDealEnvironment) (deal : ClientDealState) :
    Option ClientDealState :=
  match deal.Status with
  | DealStatus.DealStatusSendFunds =>
    some (SendFunds.run environment deal DealStatus.DealStatusOngoing)
  | DealStatus.DealStatusSendFundsLastPayment =>
    some (SendFunds.run environment deal DealStatus.DealStatusFinalizing)
  | _ => none

/-- The helper `makeDealState` of `client_states_test.go` (lines 531-559) with its
default values. -/
def makeDealState (status : DealStatus) : ClientDealState where
  Selector := []
  PieceCID := none
  PricePerByte := 500
  PaymentInterval := 0
  PaymentIntervalIncrease := 500
  UnsealPrice := 0
  PayloadCID := Cid.Undef
  ID := 10
  Status := status
  Sender := ""
  TotalFunds := 4000000
  FundsSpent := 2500000
  UnsealFundsPaid := 0
  PaymentRequested := 500000
  BytesPaidFor := 5000
  TotalReceived := 6000
  CurrentInterval := 1000
  LastPaymentRequested := false
  AllBlocksReceived := false
  ChannelID := none
  PaymentInfo := ⟨none, 0⟩
  Message := ""
  WaitMsgCID := none
  ClientWallet := "t02"
  MinerWallet := "t01"

/-- The voucher of `TestSendFunds` (line 353), the zero `SignedVoucher`. -/
def testVoucher : Voucher := ⟨0, 0, 0⟩

/-- The environment of `runSendFunds` in `TestSendFunds` (lines 341-351): the
test node answers `CreatePaymentVoucher` with `voucherError` when it is set
and with `testVoucher` otherwise, and sending the voucher answers
`sendError`. -/
def fakeEnvironment (voucherError sendError : Option String) : ClientDealEnvironment where
  CreateVoucher := fun _ _ _ =>
    match voucherError with
    | some err => .error err
    | none => .ok testVoucher
  SendDataTransferVoucher := fun _ _ => sendError

/-- A deal at its final payment (the "final payment for the last 500 B" of
scenario S1): the byte counts are those of the second case of
`TestProcessPaymentRequested` (lines 321-327), all blocks received, 5500
bytes in all, of which 5000 are paid for; the deal is in
`SendFundsLastPayment` and the payment requested is the 250000 owed for the
last 500 bytes. The current interval is 1000 bytes. -/
def finalPaymentDeal : ClientDealState :=
  { makeDealState DealStatus.DealStatusSendFundsLastPayment with
    TotalReceived := 5000 + 500
    AllBlocksReceived := true
    PaymentRequested := 250000 }

end clientstates

/-! ## Client decision handlers -/

namespace clientstates

open retrievalmarket

/-- Modelled from the spec: the client handler `Ongoing` of section 4.1, which
is not among the sources (only its test `TestOngoing` is). "Decision-only: if
`payment-requested == 0`, stay `Ongoing`; else if `last-payment-requested`,
advance to `FundsNeededLastPayment`; otherwise `FundsNeeded`." The handler
runs from `Ongoing`; from any other status it has no contract and the result
is `none`. -/
def Ongoing (deal : ClientDealState) : Option ClientDealState :=
  match deal.Status with
  | DealStatus.DealStatusOngoing =>
    if deal.PaymentRequested = 0 then
      some deal
    else if deal.LastPaymentRequested then
      some { deal with Status := DealStatus.DealStatusFundsNeededLastPayment }
    else
      some { deal with Status := DealStatus.DealStatusFundsNeeded }
  | _ => none

end clientstates

/-! ## Byte streams

The writers and readers of the generated CBOR code. A writer is an
`io.Writer`: `Write` takes the bytes and answers with the new state of the
writer or with an error. A reader is the list of the bytes still to be read;
a decoding function answers with the decoded value and the bytes left, or
with an error. Bytes are natural numbers below 256. -/

namespace gio

/-- The Go interface `io.Writer`, over the state `σ` of the writer. -/
structure Writer (σ : Type) where
  Write : σ → List Nat → Except String σ

/-- A byte buffer (`bytes.Buffer`): every write succeeds and appends. -/
def bufferWriter : Writer (List Nat) where
  Write := fun s p => .ok (s ++ p)

/-- The Go function `io.WriteString`: the bytes of the string are written;
the strings written here are ASCII. -/
def WriteString {σ : Type} (w : Writer σ) (s : σ) (str : String) : Except String σ :=
  w.Write s (str.toList.map Char.toNat)

/-- The Go function `io.ReadFull` with a buffer of `n` bytes: exactly `n`
bytes are read; the error is `EOF` when no byte is left and
`unexpected EOF` when fewer than `n` are. -/
def ReadFull (br : List Nat) (n : Nat) : Except String (List Nat × List Nat) :=
  if n ≤ br.length then .ok (br.take n, br.drop n)
  else if br.length = 0 then .error "EOF"
  else .error "unexpected EOF"

end gio

/-! ## The cbor-gen helpers

The functions and constants of the external library cbor-gen that the
generated code calls. -/

namespace cbg

open gio

/-- The major type of unsigned integers. -/
def MajUnsignedInt : Nat := 0

/-- The major type of byte strings. -/
def MajByteString : Nat := 2

/-- The major type of text strings. -/
def MajTextString : Nat := 3

/-- The major type of arrays. -/
def MajArray : Nat := 4

/-- The major type of maps. -/
def MajMap : Nat := 5

/-- The constant `cbg.MaxLength`. -/
def MaxLength : Nat := 8192

/-- The constant `cbg.ByteArrayMaxLen`, `2 << 20`. -/
def ByteArrayMaxLen : Nat := 2097152

/-- The encoding of the CBOR null value, `cbg.CborNull`. -/
def CborNull : List Nat := [246]

/-- The cbor-gen function `CborEncodeMajorType(t, l)`: the header of major
type `t` carrying the `uint64` value `l`, in the shortest of the five forms.
The first byte is `(t << 5) | low` computed on bytes, that is
`t * 32 % 256 + low`. -/
def CborEncodeMajorType (t l : Nat) : List Nat :=
  if l < 24 then
    [t * 32 % 256 + l]
  else if l < 256 then
    [t * 32 % 256 + 24, l]
  else if l < 65536 then
    [t * 32 % 256 + 25, l / 256 % 256, l % 256]
  else if l < 4294967296 then
    [t * 32 % 256 + 26, l / 16777216 % 256, l / 65536 % 256, l / 256 % 256, l % 256]
  else
    [t * 32 % 256 + 27, l / 72057594037927936 % 256, l / 281474976710656 % 256,
      l / 1099511627776 % 256, l / 4294967296 % 256, l / 16777216 % 256, l / 65536 % 256,
      l / 256 % 256, l % 256]

/-- The cbor-gen function `WriteMajorTypeHeaderBuf(buf, w, t, l)`: the same
header written to `w` in one write. -/
def WriteMajorTypeHeaderBuf {σ : Type} (w : Writer σ) (s : σ) (t l : Nat) : Except String σ :=
  w.Write s (CborEncodeMajorType t l)

/-- The cbor-gen function `CborReadHeader`: the major type
`(first & 0xe0) >> 5`, the value carried by the header and the bytes left. A
value that a shorter form could carry is refused as not canonical. -/
def CborReadHeader (br : List Nat) : Except String (Nat × Nat × List Nat) :=
  match br with
  | [] => .error "EOF"
  | first :: br =>
    let maj := first / 32 % 8
    let low := first % 32
    if low < 24 then
      .ok (maj, low, br)
    else if low = 24 then
      match br with
      | next :: br =>
        if next < 24 then
          .error "cbor input was not canonical (lval 24 with value < 24)"
        else .ok (maj, next, br)
      | _ => .error "unexpected EOF"
    else if low = 25 then
      match br with
      | b1 :: b2 :: br =>
        let val := b1 * 256 + b2
        if val ≤ 255 then
          .error "cbor input was not canonical (lval 25 with value <= MaxUint8)"
        else .ok (maj, val, br)
      | _ => .error "unexpected EOF"
    else if low = 26 then
      match br with
      | b1 :: b2 :: b3 :: b4 :: br =>
        let val := ((b1 * 256 + b2) * 256 + b3) * 256 + b4
        if val ≤ 65535 then
          .error "cbor input was not canonical (lval 26 with value <= MaxUint16)"
        else .ok (maj, val, br)
      | _ => .error "unexpected EOF"
    else if low = 27 then
      match br with
      | b1 :: b2 :: b3 :: b4 :: b5 :: b6 :: b7 :: b8 :: br =>
        let val := ((((((b1 * 256 + b2) * 256 + b3) * 256 + b4) * 256 + b5) * 256 + b6) * 256
          + b7) * 256 + b8
        if val ≤ 4294967295 then
          .error "cbor input was not canonical (lval 27 with value <= MaxUint32)"
        else .ok (maj, val, br)
      | _ => .error "unexpected EOF"
    else
      .error "invalid header"

end cbg

/-! ## The wire format in the words of the specification

Section 6 gives the wire structs as CBOR arrays and maps. These definitions
spell the CBOR items out (RFC 8949, shortest form) without reference to the
code, to be compared with what the generated code writes. -/

namespace cborspec

/-- The `k` low bytes of `n`, most significant first. -/
def bigEndian : Nat → Nat → List Nat
  | 0, _ => []
  | k + 1, n => n / 256 ^ k % 256 :: bigEndian k n

/-- The head of a CBOR item: the major type in the three high bits of the
first byte, and the argument `n` either in its five low bits (below 24) or in
the 1, 2, 4 or 8 bytes that follow, whichever is shortest. -/
def head (major n : Nat) : List Nat :=
  if n < 24 then [major * 32 + n]
  else if n < 2 ^ 8 then (major * 32 + 24) :: bigEndian 1 n
  else if n < 2 ^ 16 then (major * 32 + 25) :: bigEndian 2 n
  else if n < 2 ^ 32 then (major * 32 + 26) :: bigEndian 4 n
  else (major * 32 + 27) :: bigEndian 8 n

/-- An unsigned integer (major type 0). -/
def unsignedInt (n : Nat) : List Nat := head 0 n

/-- A byte string (major type 2): the head carries the length, the bytes follow. -/
def byteString (bs : List Nat) : List Nat := head 2 bs.length ++ bs

/-- An ASCII text string (major type 3): the head carries the length, the
characters follow. -/
def textString (s : String) : List Nat := head 3 s.length ++ s.toList.map Char.toNat

/-- The head of an array of `n` items (major type 4). -/
def arrayHead (n : Nat) : List Nat := head 4 n

/-- The head of a map of `n` entries (major type 5). -/
def mapHead (n : Nat) : List Nat := head 5 n

end cborspec

/-! ## Piece store: generated CBOR code -/

namespace piecestore

open cbg gio

namespace cbor

/-- The `PieceBlockLocation` of `types_cbor_gen.go`, where `PieceCID` is a
byte slice (`t.PieceCID ([]uint8) (slice)`, line 276). -/
structure PieceBlockLocation where
  BlockLocation : BlockLocation
  PieceCID : List Nat
  deriving DecidableEq, Repr

/-- The `CIDInfo` of `types_cbor_gen.go`. -/
structure CIDInfo where
  CID : Cid
  PieceBlockLocations : List PieceBlockLocation
  deriving DecidableEq, Repr

/-- The `PieceInfo` of `types_cbor_gen.go`, where `PieceCID` is a byte slice
(`t.PieceCID ([]uint8) (slice)`, line 24). -/
structure PieceInfo where
  PieceCID : List Nat
  Deals : List DealInfo
  deriving DecidableEq, Repr

end cbor

/-- The four fields of a `DealInfo` are `uint64` values. -/
def DealInfo.isUint64 (d : DealInfo) : Prop :=
  d.DealID < 18446744073709551616 ∧ d.SectorID < 18446744073709551616 ∧
    d.Offset < 18446744073709551616 ∧ d.Length < 18446744073709551616

/-- The two fields of a `BlockLocation` are `uint64` values. -/
def BlockLocation.isUint64 (b : BlockLocation) : Prop :=
  b.RelOffset < 18446744073709551616 ∧ b.BlockSize < 18446744073709551616

/-- The method `DealInfo.MarshalCBOR` (types_cbor_gen.go, lines 114-143);
`none` is the nil receiver. -/
def DealInfo.MarshalCBOR {σ : Type} (t : Option DealInfo) (w : Writer σ) (s : σ) :
    Except String σ :=
  match t with
  | none => w.Write s CborNull
  | some t => do
    let s ← w.Write s [132]
    let s ← w.Write s (CborEncodeMajorType MajUnsignedInt t.DealID)
    let s ← w.Write s (CborEncodeMajorType MajUnsignedInt t.SectorID)
    let s ← w.Write s (CborEncodeMajorType MajUnsignedInt t.Offset)
    let s ← w.Write s (CborEncodeMajorType MajUnsignedInt t.Length)
    return s

/-- The method `DealInfo.UnmarshalCBOR` (lines 145-201): `t` is the receiver
before the call; on success the result is the receiver afterwards and the
bytes left. -/
def DealInfo.UnmarshalCBOR (t : DealInfo) (br : List Nat) :
    Except String (DealInfo × List Nat) := do
  let (maj, extra, br) ← CborReadHeader br
  if maj ≠ MajArray then
    throw "cbor input should be of type array"
  if extra ≠ 4 then
    throw "cbor input had wrong number of fields"
  let (maj, extra, br) ← CborReadHeader br
  if maj ≠ MajUnsignedInt then
    throw "wrong type for uint64 field"
  let t := { t with DealID := extra }
  let (maj, extra, br) ← CborReadHeader br
  if maj ≠ MajUnsignedInt then
    throw "wrong type for uint64 field"
  let t := { t with SectorID := extra }
  let (maj, extra, br) ← CborReadHeader br
  if maj ≠ MajUnsignedInt then
    throw "wrong type for uint64 field"
  let t := { t with Offset := extra }
  let (maj, extra, br) ← CborReadHeader br
  if maj ≠ MajUnsignedInt then
    throw "wrong type for uint64 field"
  let t := { t with Length := extra }
  return (t, br)

/-- The loop `for _, v := range t.Deals` of `PieceInfo.MarshalCBOR`
(lines 44-48). -/
def cbor.PieceInfo.MarshalCBOR.loop {σ : Type} (w : Writer σ) :
    List DealInfo → σ → Except String σ
  | [], s => .ok s
  | v :: rest, s => do
    let s ← DealInfo.MarshalCBOR (some v) w s
    cbor.PieceInfo.MarshalCBOR.loop w rest s

/-- The method `PieceInfo.MarshalCBOR` (lines 15-50); `none` is the nil
receiver. -/
def cbor.PieceInfo.MarshalCBOR {σ : Type} (t : Option cbor.PieceInfo) (w : Writer σ) (s : σ) :
    Except String σ :=
  match t with
  | none => w.Write s CborNull
  | some t => do
    let s ← w.Write s [130]
    if t.PieceCID.length > ByteArrayMaxLen then
      throw "Byte array in field t.PieceCID was too long"
    let s ← w.Write s (CborEncodeMajorType MajByteString t.PieceCID.length)
    let s ← w.Write s t.PieceCID
    if t.Deals.length > MaxLength then
      throw "Slice value in field t.Deals was too long"
    let s ← w.Write s (CborEncodeMajorType MajArray t.Deals.length)
    cbor.PieceInfo.MarshalCBOR.loop w t.Deals s

/-- The loop `for i := 0; i < int(extra); i++` of `PieceInfo.UnmarshalCBOR`
(lines 101-109): each element is decoded into a zero `DealInfo`. -/
def cbor.PieceInfo.UnmarshalCBOR.loop : Nat → List Nat → Except String (List DealInfo × List Nat)
  | 0, br => .ok ([], br)
  | n + 1, br => do
    let (v, br) ← DealInfo.UnmarshalCBOR ⟨0, 0, 0, 0⟩ br
    let (vs, br) ← cbor.PieceInfo.UnmarshalCBOR.loop n br
    return (v :: vs, br)

/-- The method `PieceInfo.UnmarshalCBOR` (lines 52-112): `t` is the receiver
before the call. `t.Deals` is replaced only when the array is not empty
(line 98). -/
def cbor.PieceInfo.UnmarshalCBOR (t : cbor.PieceInfo) (br : List Nat) :
    Except String (cbor.PieceInfo × List Nat) := do
  let (maj, extra, br) ← CborReadHeader br
  if maj ≠ MajArray then
    throw "cbor input should be of type array"
  if extra ≠ 2 then
    throw "cbor input had wrong number of fields"
  let (maj, extra, br) ← CborReadHeader br
  if extra > ByteArrayMaxLen then
    throw ("t.PieceCID: byte array too large (" ++ toString extra ++ ")")
  if maj ≠ MajByteString then
    throw "expected byte array"
  let (pieceCID, br) ← ReadFull br extra
  let t := { t with PieceCID := pieceCID }
  let (maj, extra, br) ← CborReadHeader br
  if extra > MaxLength then
    throw ("t.Deals: array too large (" ++ toString extra ++ ")")
  if maj ≠ MajArray then
    throw "expected cbor array"
  let (deals, br) ← cbor.PieceInfo.UnmarshalCBOR.loop extra br
  let t := if extra > 0 then { t with Deals := deals } else t
  return (t, br)

/-- The method `BlockLocation.MarshalCBOR` (lines 203-222). -/
def BlockLocation.MarshalCBOR {σ : Type} (t : Option BlockLocation) (w : Writer σ) (s : σ) :
    Except String σ :=
  match t with
  | none => w.Write s CborNull
  | some t => do
    let s ← w.Write s [130]
    let s ← w.Write s (CborEncodeMajorType MajUnsignedInt t.RelOffset)
    let s ← w.Write s (CborEncodeMajorType MajUnsignedInt t.BlockSize)
    return s

/-- The method `BlockLocation.UnmarshalCBOR` (lines 224-260). -/
def BlockLocation.UnmarshalCBOR (t : BlockLocation) (br : List Nat) :
    Except String (BlockLocation × List Nat) := do
  let (maj, extra, br) ← CborReadHeader br
  if maj ≠ MajArray then
    throw "cbor input should be of type array"
  if extra ≠ 2 then
    throw "cbor input had wrong number of fields"
  let (maj, extra, br) ← CborReadHeader br
  if maj ≠ MajUnsignedInt then
    throw "wrong type for uint64 field"
  let t := { t with RelOffset := extra }
  let (maj, extra, br) ← CborReadHeader br
  if maj ≠ MajUnsignedInt then
    throw "wrong type for uint64 field"
  let t := { t with BlockSize := extra }
  return (t, br)

/-- The method `PieceBlockLocation.MarshalCBOR` (lines 262-288). -/
def cbor.PieceBlockLocation.MarshalCBOR {σ : Type} (t : Option cbor.PieceBlockLocation)
    (w : Writer σ) (s : σ) : Except String σ :=
  match t with
  | none => w.Write s CborNull
  | some t => do
    let s ← w.Write s [130]
    let s ← BlockLocation.MarshalCBOR (some t.BlockLocation) w s
    if t.PieceCID.length > ByteArrayMaxLen then
      throw "Byte array in field t.PieceCID was too long"
    let s ← w.Write s (CborEncodeMajorType MajByteString t.PieceCID.length)
    let s ← w.Write s t.PieceCID
    return s

/-- The method `PieceBlockLocation.UnmarshalCBOR` (lines 290-332). -/
def cbor.PieceBlockLocation.UnmarshalCBOR (t : cbor.PieceBlockLocation) (br : List Nat) :
    Except String (cbor.PieceBlockLocation × List Nat) := do
  let (maj, extra, br) ← CborReadHeader br
  if maj ≠ MajArray then
    throw "cbor input should be of type array"
  if extra ≠ 2 then
    throw "cbor input had wrong number of fields"
  let (blockLocation, br) ← BlockLocation.UnmarshalCBOR t.BlockLocation br
  let t := { t with BlockLocation := blockLocation }
  let (maj, extra, br) ← CborReadHeader br
  if extra > ByteArrayMaxLen then
    throw ("t.PieceCID: byte array too large (" ++ toString extra ++ ")")
  if maj ≠ MajByteString then
    throw "expected byte array"
  let (pieceCID, br) ← ReadFull br extra
  let t := { t with PieceCID := pieceCID }
  return (t, br)

/-- The loop `for _, v := range t.PieceBlockLocations` of
`CIDInfo.MarshalCBOR` (lines 357-361). -/
def cbor.CIDInfo.MarshalCBOR.loop {σ : Type} (w : Writer σ) :
    List cbor.PieceBlockLocation → σ → Except String σ
  | [], s => .ok s
  | v :: rest, s => do
    let s ← cbor.PieceBlockLocation.MarshalCBOR (some v) w s
    cbor.CIDInfo.MarshalCBOR.loop w rest s

/-- The method `CIDInfo.MarshalCBOR` (lines 334-363). `WriteCid` is the
cbor-gen function `cbg.WriteCid(w, c)`, which is outside the sources. -/
def cbor.CIDInfo.MarshalCBOR {σ : Type} (WriteCid : Writer σ → σ → Cid → Except String σ)
    (t : Option cbor.CIDInfo) (w : Writer σ) (s : σ) : Except String σ :=
  match t with
  | none => w.Write s CborNull
  | some t => do
    let s ← w.Write s [130]
    let s ← match WriteCid w s t.CID with
      | .error err => throw ("failed to write cid field t.CID: " ++ err)
      | .ok s => pure s
    if t.PieceBlockLocations.length > MaxLength then
      throw "Slice value in field t.PieceBlockLocations was too long"
    let s ← w.Write s (CborEncodeMajorType MajArray t.PieceBlockLocations.length)
    cbor.CIDInfo.MarshalCBOR.loop w t.PieceBlockLocations s

/-- The loop `for i := 0; i < int(extra); i++` of `CIDInfo.UnmarshalCBOR`
(lines 409-417): each element is decoded into a zero `PieceBlockLocation`. -/
def cbor.CIDInfo.UnmarshalCBOR.loop :
    Nat → List Nat → Except String (List cbor.PieceBlockLocation × List Nat)
  | 0, br => .ok ([], br)
  | n + 1, br => do
    let (v, br) ← cbor.PieceBlockLocation.UnmarshalCBOR ⟨⟨0, 0⟩, []⟩ br
    let (vs, br) ← cbor.CIDInfo.UnmarshalCBOR.loop n br
    return (v :: vs, br)

/-- The method `CIDInfo.UnmarshalCBOR` (lines 365-420). `ReadCid` is the
cbor-gen function `cbg.ReadCid(br)`, which is outside the sources. -/
def cbor.CIDInfo.UnmarshalCBOR (ReadCid : List Nat → Except String (Cid × List Nat))
    (t : cbor.CIDInfo) (br : List Nat) : Except String (cbor.CIDInfo × List Nat) := do
  let (maj, extra, br) ← CborReadHeader br
  if maj ≠ MajArray then
    throw "cbor input should be of type array"
  if extra ≠ 2 then
    throw "cbor input had wrong number of fields"
  let (c, br) ← match ReadCid br with
    | .error err => throw ("failed to read cid field t.CID: " ++ err)
    | .ok r => pure r
  let t := { t with CID := c }
  let (maj, extra, br) ← CborReadHeader br
  if extra > MaxLength then
    throw ("t.PieceBlockLocations: array too large (" ++ toString extra ++ ")")
  if maj ≠ MajArray then
    throw "expected cbor array"
  let (locations, br) ← cbor.CIDInfo.UnmarshalCBOR.loop extra br
  let t := if extra > 0 then { t with PieceBlockLocations := locations } else t
  return (t, br)

/-- Section 6 in bytes: "`DealInfo` — 4-element array:
`[ u64 deal-id, u64 sector-id, u64 offset, u64 length ]`". -/
def DealInfo.wire (d : DealInfo) : List Nat :=
  cborspec.arrayHead 4 ++ cborspec.unsignedInt d.DealID ++ cborspec.unsignedInt d.SectorID ++
    cborspec.unsignedInt d.Offset ++ cborspec.unsignedInt d.Length

/-- Section 6 in bytes: "`BlockLocation` — 2-element array:
`[ u64 rel-offset, u64 block-size ]`". -/
def BlockLocation.wire (b : BlockLocation) : List Nat :=
  cborspec.arrayHead 2 ++ cborspec.unsignedInt b.RelOffset ++ cborspec.unsignedInt b.BlockSize

/-- Section 6 in bytes: "`PieceBlockLocation` — 2-element array:
`[ BlockLocation, bytes piece-cid ]`". -/
def cbor.PieceBlockLocation.wire (l : cbor.PieceBlockLocation) : List Nat :=
  cborspec.arrayHead 2 ++ l.BlockLocation.wire ++ cborspec.byteString l.PieceCID

/-- Section 6 in bytes: "`PieceInfo` — 2-element array:
`[ bytes piece-cid, [DealInfo] ]`". -/
def cbor.PieceInfo.wire (p : cbor.PieceInfo) : List Nat :=
  cborspec.arrayHead 2 ++ cborspec.byteString p.PieceCID ++
    cborspec.arrayHead p.Deals.length ++ (p.Deals.map DealInfo.wire).flatten

/-- An example of a CID writer: a CID of fewer than 24 bytes is written as a
byte string, a longer one is refused. -/
def exampleWriteCid {σ : Type} (w : Writer σ) (s : σ) (c : Cid) : Except String σ :=
  if c.str.length < 24 then w.Write s ((64 + c.str.length) :: c.str)
  else .error "cid too long"

/-- The reader for `exampleWriteCid`. -/
def exampleReadCid (br : List Nat) : Except String (Cid × List Nat) :=
  match br with
  | [] => .error "EOF"
  | first :: br =>
    if 64 ≤ first ∧ first < 88 then
      match ReadFull br (first - 64) with
      | .ok (bs, br) => .ok (⟨bs⟩, br)
      | .error err => .error err
    else .error "not a cid"

end piecestore

/-! ## Discovery: generated CBOR code -/

namespace discovery

open cbg gio

/-- The `RetrievalPeers` of `discovery/types_cbor_gen.go`: a list of
retrieval peers. The peer type `retrievalmarket.RetrievalPeer` and its
`MarshalCBOR` are outside the sources and are parameters. -/
structure RetrievalPeers (Peer : Type) where
  Peers : List Peer

/-- The loop `for _, v := range t.Peers` of `RetrievalPeers.MarshalCBOR`
(lines 50-54). -/
def RetrievalPeers.MarshalCBOR.loop {σ Peer : Type}
    (MarshalPeer : Peer → Writer σ → σ → Except String σ) (w : Writer σ) :
    List Peer → σ → Except String σ
  | [], s => .ok s
  | v :: rest, s => do
    let s ← MarshalPeer v w s
    RetrievalPeers.MarshalCBOR.loop MarshalPeer w rest s

/-- The method `RetrievalPeers.MarshalCBOR` (discovery/types_cbor_gen.go,
lines 20-56); `none` is the nil receiver. -/
def RetrievalPeers.MarshalCBOR {σ Peer : Type}
    (MarshalPeer : Peer → Writer σ → σ → Except String σ)
    (t : Option (RetrievalPeers Peer)) (w : Writer σ) (s : σ) : Except String σ :=
  match t with
  | none => w.Write s CborNull
  | some t => do
    let s ← w.Write s [161]
    if "Peers".length > MaxLength then
      throw "Value in field \"Peers\" was too long"
    let s ← WriteMajorTypeHeaderBuf w s MajTextString "Peers".length
    let s ← WriteString w s "Peers"
    if t.Peers.length > MaxLength then
      throw "Slice value in field t.Peers was too long"
    let s ← WriteMajorTypeHeaderBuf w s MajArray t.Peers.length
    RetrievalPeers.MarshalCBOR.loop MarshalPeer w t.Peers s

/-- Section 6 in bytes: "`RetrievalPeers` — 1-entry map
`{ "Peers": [RetrievalPeer] }`", given the encoding `enc` of a peer. -/
def RetrievalPeers.wire {Peer : Type} (enc : Peer → List Nat) (t : RetrievalPeers Peer) :
    List Nat :=
  cborspec.mapHead 1 ++ cborspec.textString "Peers" ++ cborspec.arrayHead t.Peers.length ++
    (t.Peers.map enc).flatten

/-- An example of a peer encoder: the peer is a number below 24, written as
one byte. -/
def exampleMarshalPeer {σ : Type} (v : Nat) (w : Writer σ) (s : σ) : Except String σ :=
  w.Write s [v]

end discovery

/-! ## Provider environment: deal decision, transfer close, store release -/

/-- A `context.Context` as far as `CloseDataTransfer` uses it: the time left
before the deadline, `none` for a context without a deadline.
`context.WithTimeout(ctx, timeout)` leaves at most `timeout`. -/
def context.WithTimeout (ctx : Option Nat) (timeout : Nat) : Option Nat :=
  match ctx with
  | none => some timeout
  | some left => some (min left timeout)

/-- The method `DealID.String` of `retrievalmarket.DealID` (declared outside
the sources): the deal id in decimal. -/
def retrievalmarket.DealID.String (dealID : Nat) : String := toString dealID

namespace retrievalimpl

open retrievalmarket

/-- The method `providerValidationEnvironment.RunDealDecisioningLogic`
(provider_environments.go, lines 80-85). `dealDecider` is the field of the
provider, `none` when it is nil; the result is the Go triple
`(bool, string, error)`. -/
def RunDealDecisioningLogic
    (dealDecider : Option (ProviderDealState → Bool × String × Option String))
    (state : ProviderDealState) : Bool × String × Option String :=
  match dealDecider with
  | none => (true, "", none)
  | some decider => decider state

/-- The method `providerDealEnvironment.CloseDataTransfer` (lines 155-168), run
from the state `s` of the transport. `CloseDataTransferTimeout` and
`IsCtxDone` are the constant and the function of the package `shared`
(declared outside the sources); `CloseDataTransferChannel` is the transport's
method, which gets the context with the timeout. The warning that is logged
is not part of the result. -/
def CloseDataTransfer {σ : Type} (CloseDataTransferTimeout : Nat)
    (IsCtxDone : Option String → Bool)
    (CloseDataTransferChannel : σ → Option Nat → ChannelID → σ × Option String)
    (s : σ) (ctx : Option Nat) (chid : ChannelID) : σ × Option String :=
  let ctx := context.WithTimeout ctx CloseDataTransferTimeout
  match CloseDataTransferChannel s ctx chid with
  | (s, err) => if IsCtxDone err then (s, none) else (s, err)

/-- The method `providerDealEnvironment.DeleteStore` (lines 170-177), run from
the state `s` of the registry `readOnlyBlockStores`, whose method
`CleanBlockstore` is the first argument. -/
def DeleteStore {σ : Type} (CleanBlockstore : σ → String → σ × Option String)
    (s : σ) (dealID : Nat) : σ × Option String :=
  match CleanBlockstore s (DealID.String dealID) with
  | (s, some err) =>
    (s, some ("failed to clean read-only blockstore for deal " ++ toString dealID ++ ": " ++ err))
  | (s, none) => (s, none)

/-- Modelled from the spec: the registry of read-only blockstores is declared
outside the sources. Section 4.5: the registry binds a blockstore to a deal
key; "`clean(deal-id)` releases the underlying file descriptor and index
exactly once; repeated `clean` is not an error". The state is the list of
bindings; `Close` is the release of a blockstore, which may fail. A key that
is bound loses its binding and its blockstore is closed, the close error
being the result; a key that is not bound leaves the registry as it is. -/
def CleanBlockstore {B : Type} (Close : B → Option String) (stores : List (String × B))
    (key : String) : List (String × B) × Option String :=
  match stores.lookup key with
  | some bs => (stores.filter (fun e => e.1 != key), Close bs)
  | none => (stores, none)

/-- A transport that needs 3 units of time to close a channel: with less time
left it fails with the deadline error, the channel `7` is unknown to it, and
every close is counted. -/
def exampleTransport (s : Nat) (ctx : Option Nat) (chid : ChannelID) : Nat × Option String :=
  match ctx with
  | some left =>
    if left < 3 then (s + 1, some "context deadline exceeded")
    else if chid.ID = 7 then (s + 1, some "channel not found")
    else (s + 1, none)
  | none => if chid.ID = 7 then (s + 1, some "channel not found") else (s + 1, none)

/-- An error test that recognises the two context errors by their text. -/
def exampleIsCtxDone (err : Option String) : Bool :=
  err == some "context deadline exceeded" || err == some "context canceled"

/-- A release that fails for the blockstore `13` only. -/
def exampleClose (bs : Nat) : Option String :=
  if bs = 13 then some "file already closed" else none

end retrievalimpl

/-! ## The lazy blockstore

A Go interface value is either nil or the bundle of the methods of some
object. The objects behind the interfaces live outside the lazy blockstore;
`σ` is the state of that outside world, which every method call may read and
change. The mutex of the lazy blockstore orders concurrent calls and has no
counterpart here, where calls come one after the other. -/

/-- The go-block-format `Block`: the identifier and the raw data. -/
structure blocks.Block where
  Cid : Cid
  RawData : List Nat
  deriving DecidableEq, Repr

/-- A non-nil value of the interface `bstore.Blockstore` (go-ipfs-blockstore,
an external library): each method takes the state of the world and returns
the state afterwards and its Go results. A nil block or channel is `none`;
a channel is the list of the keys it delivers. -/
structure bstore.Blockstore (σ : Type) where
  DeleteBlock : σ → Cid → σ × Option String
  Has : σ → Cid → σ × Bool × Option String
  Get : σ → Cid → σ × Option blocks.Block × Option String
  GetSize : σ → Cid → σ × Int × Option String
  Put : σ → blocks.Block → σ × Option String
  PutMany : σ → List blocks.Block → σ × Option String
  AllKeysChan : σ → σ × Option (List Cid) × Option String
  HashOnRead : σ → Bool → σ

namespace retrievalimpl

/-- The struct `lazyBlockstore` (provider_environments.go, lines 314-318)
without its mutex: `bs` is nil (`none`) until a load has stored a blockstore;
`load` returns the Go pair `(bstore.Blockstore, error)`. -/
structure lazyBlockstore (σ : Type) where
  bs : Option (bstore.Blockstore σ)
  load : σ → σ × Option (bstore.Blockstore σ) × Option String

/-- The method `lazyBlockstore.init` (lines 384-396): the receiver and the
world afterwards, and the Go pair `(bstore.Blockstore, error)`. The
assignment `l.bs, err = l.load()` stores what `load` returns before the error
is looked at. -/
def lazyBlockstore.init {σ : Type} (l : lazyBlockstore σ) (s : σ) :
    lazyBlockstore σ × σ × Option (bstore.Blockstore σ) × Option String :=
  match l.bs with
  | none =>
    match l.load s with
    | (s, bs, some err) => ({ l with bs := bs }, s, none, some err)
    | (s, bs, none) => ({ l with bs := bs }, s, bs, none)
  | some bs => (l, s, some bs, none)

/-- The method `lazyBlockstore.Has` (lines 328-334): the receiver and the world
afterwards and the Go pair `(bool, error)`. The result `none` stands for the
run-time panic of a method call on a nil interface, which is what
`bs.Has(c)` is when `init` returns a nil blockstore without an error. -/
def lazyBlockstore.Has {σ : Type} (l : lazyBlockstore σ) (s : σ) (c : Cid) :
    Option (lazyBlockstore σ × σ × Bool × Option String) :=
  match l.init s with
  | (l, s, _, some err) => some (l, s, false, some err)
  | (l, s, some bs, none) => some (l, bs.Has s c)
  | (_, _, none, none) => none

/-- The method `lazyBlockstore.Get` (lines 336-342); `none` is the panic of a
call on a nil interface. -/
def lazyBlockstore.Get {σ : Type} (l : lazyBlockstore σ) (s : σ) (c : Cid) :
    Option (lazyBlockstore σ × σ × Option blocks.Block × Option String) :=
  match l.init s with
  | (l, s, _, some err) => some (l, s, none, some err)
  | (l, s, some bs, none) => some (l, bs.Get s c)
  | (_, _, none, none) => none

/-- The method `lazyBlockstore.GetSize` (lines 344-350); `none` is the panic of
a call on a nil interface. -/
def lazyBlockstore.GetSize {σ : Type} (l : lazyBlockstore σ) (s : σ) (c : Cid) :
    Option (lazyBlockstore σ × σ × Int × Option String) :=
  match l.init s with
  | (l, s, _, some err) => some (l, s, 0, some err)
  | (l, s, some bs, none) => some (l, bs.GetSize s c)
  | (_, _, none, none) => none

/-- The method `lazyBlockstore.AllKeysChan` (lines 368-374); `none` is the
panic of a call on a nil interface. -/
def lazyBlockstore.AllKeysChan {σ : Type} (l : lazyBlockstore σ) (s : σ) :
    Option (lazyBlockstore σ × σ × Option (List Cid) × Option String) :=
  match l.init s with
  | (l, s, _, some err) => some (l, s, none, some err)
  | (l, s, some bs, none) => some (l, bs.AllKeysChan s)
  | (_, _, none, none) => none

/-- A read-only blockstore over a fixed list of blocks, as the one of
`lazyblockstore_test.go`; the world is a counter that the blockstore leaves
alone. -/
def exampleBlockstore (blks : List blocks.Block) : bstore.Blockstore Nat where
  DeleteBlock := fun s _ => (s, some "read-only blockstore")
  Has := fun s c => (s, blks.any (fun b => b.Cid == c), none)
  Get := fun s c =>
    match blks.find? (fun b => b.Cid == c) with
    | some b => (s, some b, none)
    | none => (s, none, some "blockstore: block not found")
  GetSize := fun s c =>
    match blks.find? (fun b => b.Cid == c) with
    | some b => (s, (b.RawData.length : Int), none)
    | none => (s, -1, some "blockstore: block not found")
  Put := fun s _ => (s, some "read-only blockstore")
  PutMany := fun s _ => (s, some "read-only blockstore")
  AllKeysChan := fun s => (s, some (blks.map (fun b => b.Cid)), none)
  HashOnRead := fun s _ => s

/-- A lazy blockstore as `providerStoreGetter.Get` builds it (lines 306-310),
with `bs` nil, over a load that counts its calls in the world and returns
the example blockstore. -/
def exampleLazyBlockstore (blks : List blocks.Block) : lazyBlockstore Nat where
  bs := none
  load := fun s => (s + 1, some (exampleBlockstore blks), none)

/-- A block of three bytes. -/
def exampleBlock : blocks.Block := ⟨⟨[1, 85, 18]⟩, [10, 20, 30]⟩

end retrievalimpl

/-! ## Client handlers of the payment channel, of completion and of failure -/

namespace clientstates

open retrievalmarket

/-- Modelled from the spec: the client node is declared outside the sources.
Section 4.6 gives the two calls of the payment gateway that the add-funds
handler makes: `waitForAddFunds(msg-id) → channel` and
`allocateLane(channel) → lane`; each may fail. The message id is the
`WaitMsgCID` of the deal and the channel is its address. -/
structure RetrievalClientNode where
  WaitForPaymentChannelAddFunds : Option Cid → Except String String
  AllocateLane : String → Except String Nat

/-- Modelled from the spec: the client handler `WaitForPaymentChannelAddFunds`
of section 4.1, which is not among the sources (only its test
`TestWaitForPaymentChannelAddFunds` is). It is "symmetric for the add-funds
path" to `WaitForPaymentChannelCreate`: "Awaits the recorded message; on
confirmation, calls `PaymentGateway.allocateLane(channel)`, records lane, and
advances to `Ongoing`. Wait-failure or lane-failure → `Failing` with the
underlying cause", and "On failure the partially populated lane MUST be
reset to zero before surfacing `Failing`". The cause is surfaced as the
message (section 7); on success the channel is recorded with the lane and
the message is not part of the update. The handler runs from
`PaymentChannelAddingFunds`; from any other status the result is `none`. -/
def WaitForPaymentChannelAddFunds (node : RetrievalClientNode) (deal : ClientDealState) :
    Option ClientDealState :=
  match deal.Status with
  | DealStatus.DealStatusPaymentChannelAddingFunds =>
    match node.WaitForPaymentChannelAddFunds deal.WaitMsgCID with
    | .error err =>
      some { deal with
        Status := DealStatus.DealStatusFailing
        Message := err
        PaymentInfo := { deal.PaymentInfo with Lane := 0 } }
    | .ok paych =>
      match node.AllocateLane paych with
      | .error err =>
        some { deal with
          Status := DealStatus.DealStatusFailing
          Message := err
          PaymentInfo := { deal.PaymentInfo with Lane := 0 } }
      | .ok lane =>
        some { deal with
          Status := DealStatus.DealStatusOngoing
          PaymentInfo := { PayCh := some paych, Lane := lane } }
  | _ => none

/-- The node of `runWaitForPaychAddFunds` in
`TestWaitForPaymentChannelAddFunds` (lines 204-213): waiting answers
`waitErr` when it is set and the channel `payCh` otherwise; allocating a lane
answers `laneError` when it is set and `lane` otherwise. -/
def testNode (payCh : String) (lane : Nat) (waitErr laneError : Option String) :
    RetrievalClientNode where
  WaitForPaymentChannelAddFunds := fun _ =>
    match waitErr with
    | some err => .error err
    | none => .ok payCh
  AllocateLane := fun _ =>
    match laneError with
    | some err => .error err
    | none => .ok lane

/-- Modelled from the spec: the client handler `CheckComplete` of section 4.1,
which is not among the sources (only its test `TestCheckComplete` is). "If
`all-blocks-received` → `Completed`; else →
`Errored("Provider sent complete status without sending all data")`." The
handler runs from `CheckComplete`; from any other status the result is
`none`. -/
def CheckComplete (deal : ClientDealState) : Option ClientDealState :=
  match deal.Status with
  | DealStatus.DealStatusCheckComplete =>
    if deal.AllBlocksReceived then
      some { deal with Status := DealStatus.DealStatusCompleted }
    else
      some { deal with
        Status := DealStatus.DealStatusErrored
        Message := "Provider sent complete status without sending all data" }
  | _ => none

/-- Modelled from the spec: the client handler `CancelDeal` of section 4.1,
which is not among the sources (only its test `TestCancelDeal` is). "Close
the transport channel best-effort; if close succeeds, preserve prior
`message` and advance to `Errored`; if close fails, replace `message` with
the close error and advance to `Errored`." `CloseDataTransfer` is the
operation of the environment (the `CloseDataTransfer` of the fake environment
in `client_states_test.go`, lines 53-55). The handler runs from `Failing`;
from any other status the result is `none`. -/
def CancelDeal (CloseDataTransfer : Option ChannelID → Option String)
    (deal : ClientDealState) : Option ClientDealState :=
  match deal.Status with
  | DealStatus.DealStatusFailing =>
    match CloseDataTransfer deal.ChannelID with
    | some err =>
      some { deal with
        Status := DealStatus.DealStatusErrored
        Message := err }
    | none => some { deal with Status := DealStatus.DealStatusErrored }
  | _ => none

end clientstates

/-! ## Storage deals of a payload -/

namespace retrievalimpl

open piecestore retrievalmarket

/-- The loop of `getAllDealsContainingPayload` (provider_environments.go,
lines 227-236) followed by the code after it (lines 238-246). `dealsIds` and
`lastErr` are the two local variables; the inner loop appends the deal ids of
the piece in the order of its deals; `cidStr` is the go-cid `String`
method. -/
def getAllDealsContainingPayload.loop (cidStr : Cid → String) (pieceStore : PieceStore)
    (payloadCID : Cid) :
    List PieceBlockLocation → List Nat → Option String → Except String (List Nat)
  | [], dealsIds, lastErr =>
    match lastErr with
    | none =>
      if dealsIds.length = 0 then .error "no deals found" else .ok dealsIds
    | some e =>
      if dealsIds.length = 0 then
        .error ("failed to fetch deals containing payload " ++ cidStr payloadCID ++ ": " ++ e)
      else .ok dealsIds
  | pieceBlockLocation :: rest, dealsIds, lastErr =>
    match pieceStore.GetPieceInfo pieceBlockLocation.PieceCID with
    | .error err => loop cidStr pieceStore payloadCID rest dealsIds (some err)
    | .ok pieceInfo =>
      loop cidStr pieceStore payloadCID rest
        (dealsIds ++ pieceInfo.Deals.map (fun d => d.DealID)) lastErr

/-- The function `getAllDealsContainingPayload` (lines 219-247). -/
def getAllDealsContainingPayload (cidStr : Cid → String) (pieceStore : PieceStore)
    (payloadCID : Cid) : Except String (List Nat) :=
  match pieceStore.GetCIDInfo payloadCID with
  | .error err => .error ("get cid info: " ++ err)
  | .ok cidInfo =>
    getAllDealsContainingPayload.loop cidStr pieceStore payloadCID cidInfo.PieceBlockLocations
      [] none

/-- The function `storageDealsForPiece` (lines 194-217). -/
def storageDealsForPiece (cidStr : Cid → String) (clientSpecificPiece : Bool)
    (payloadCID : Cid) (pieceInfo : PieceInfo) (pieceStore : PieceStore) :
    Except String (List Nat) := do
  let storageDeals ←
    if clientSpecificPiece then
      pure (pieceInfo.Deals.map (fun d => d.DealID))
    else
      match getAllDealsContainingPayload cidStr pieceStore payloadCID with
      | .error err => throw ("failed to fetch deals for payload: " ++ err)
      | .ok storageDeals => pure storageDeals
  if storageDeals.length = 0 then
    throw "no storage deals found"
  return storageDeals

/-- The list that the result of `getAllDealsContainingPayload` is compared
with: the deal ids of every piece whose info is fetched successfully, piece
after piece in the order of the locations, duplicates kept. -/
def dealsOfFetchedPieces (pieceStore : PieceStore) (locs : List PieceBlockLocation) :
    List Nat :=
  (locs.map (fun l =>
    match pieceStore.GetPieceInfo l.PieceCID with
    | .ok pieceInfo => pieceInfo.Deals.map (fun d => d.DealID)
    | .error _ => [])).flatten

/-- A piece without deals. -/
def examplePieceE : PieceInfo := ⟨⟨[6]⟩, []⟩

/-- A store for the deals of a payload: the payload `[9]` lies in the pieces
`[4]` (not fetchable), `[2]` (deal 11), `[1]` (deal 10) and `[2]` again; the
payload `[8]` lies in the pieces `[4]` and `[5]`, neither fetchable; the
payload `[7]` lies in the piece `[6]`, which has no deals. -/
def exampleDealStore : PieceStore where
  GetPieceInfo := fun c =>
    if c = ⟨[1]⟩ then .ok examplePieceA
    else if c = ⟨[2]⟩ then .ok examplePieceB
    else if c = ⟨[6]⟩ then .ok examplePieceE
    else .error ("piece not found: " ++ exampleCidStr c)
  GetCIDInfo := fun c =>
    if c = ⟨[9]⟩ then
      .ok ⟨c, [exampleLocation ⟨[4]⟩, exampleLocation ⟨[2]⟩, exampleLocation ⟨[1]⟩,
        exampleLocation ⟨[2]⟩]⟩
    else if c = ⟨[8]⟩ then .ok ⟨c, [exampleLocation ⟨[4]⟩, exampleLocation ⟨[5]⟩]⟩
    else if c = ⟨[7]⟩ then .ok ⟨c, [exampleLocation ⟨[6]⟩]⟩
    else .error "cid info not found"

end retrievalimpl

/-! ## The lazy blockstore: the other methods and sequences of calls -/

namespace retrievalimpl

/-- The method `lazyBlockstore.DeleteBlock` (provider_environments.go, lines
320-326); `none` is the panic of a call on a nil interface. -/
def lazyBlockstore.DeleteBlock {σ : Type} (l : lazyBlockstore σ) (s : σ) (c : Cid) :
    Option (lazyBlockstore σ × σ × Option String) :=
  match l.init s with
  | (l, s, _, some err) => some (l, s, some err)
  | (l, s, some bs, none) => some (l, bs.DeleteBlock s c)
  | (_, _, none, none) => none

/-- The method `lazyBlockstore.Put` (lines 352-358); `none` is the panic of a
call on a nil interface. -/
def lazyBlockstore.Put {σ : Type} (l : lazyBlockstore σ) (s : σ) (block : blocks.Block) :
    Option (lazyBlockstore σ × σ × Option String) :=
  match l.init s with
  | (l, s, _, some err) => some (l, s, some err)
  | (l, s, some bs, none) => some (l, bs.Put s block)
  | (_, _, none, none) => none

/-- The method `lazyBlockstore.PutMany` (lines 360-366); `none` is the panic of
a call on a nil interface. -/
def lazyBlockstore.PutMany {σ : Type} (l : lazyBlockstore σ) (s : σ)
    (blks : List blocks.Block) : Option (lazyBlockstore σ × σ × Option String) :=
  match l.init s with
  | (l, s, _, some err) => some (l, s, some err)
  | (l, s, some bs, none) => some (l, bs.PutMany s blks)
  | (_, _, none, none) => none

/-- The method `lazyBlockstore.HashOnRead` (lines 376-382). Its receiver is
declared as a value, `func (l lazyBlockstore) HashOnRead`, so the method runs
on a copy of the struct: `init` stores what it loads in the copy, and the
struct of the caller is afterwards what it was before. The method returns
nothing; the result is the struct of the caller and the world afterwards,
`none` being the panic of a call on a nil interface. -/
def lazyBlockstore.HashOnRead {σ : Type} (l : lazyBlockstore σ) (s : σ) (enabled : Bool) :
    Option (lazyBlockstore σ × σ) :=
  match l.init s with
  | (_, s, _, some _) => some (l, s)
  | (_, s, some bs, none) => some (l, bs.HashOnRead s enabled)
  | (_, _, none, none) => none

/-- One call of a method of the lazy blockstore, with its arguments. -/
inductive lazyBlockstore.Op where
  | DeleteBlock (c : Cid)
  | Has (c : Cid)
  | Get (c : Cid)
  | GetSize (c : Cid)
  | Put (block : blocks.Block)
  | PutMany (blks : List blocks.Block)
  | AllKeysChan
  | HashOnRead (enabled : Bool)

/-- The struct and the world after one call, the results of the call being
dropped; `none` when the call panics. -/
def lazyBlockstore.step {σ : Type} (l : lazyBlockstore σ) (s : σ) :
    lazyBlockstore.Op → Option (lazyBlockstore σ × σ)
  | .DeleteBlock c => (l.DeleteBlock s c).map (fun r => (r.1, r.2.1))
  | .Has c => (l.Has s c).map (fun r => (r.1, r.2.1))
  | .Get c => (l.Get s c).map (fun r => (r.1, r.2.1))
  | .GetSize c => (l.GetSize s c).map (fun r => (r.1, r.2.1))
  | .Put block => (l.Put s block).map (fun r => (r.1, r.2.1))
  | .PutMany blks => (l.PutMany s blks).map (fun r => (r.1, r.2.1))
  | .AllKeysChan => (l.AllKeysChan s).map (fun r => (r.1, r.2.1))
  | .HashOnRead enabled => l.HashOnRead s enabled

/-- A sequence of calls on one lazy blockstore, one after the other. -/
def lazyBlockstore.run {σ : Type} (l : lazyBlockstore σ) (s : σ) :
    List lazyBlockstore.Op → Option (lazyBlockstore σ × σ)
  | [] => some (l, s)
  | op :: ops =>
    match l.step s op with
    | some (l, s) => lazyBlockstore.run l s ops
    | none => none

/-- A blockstore that is not usable: every method fails. -/
def exampleBrokenBlockstore : bstore.Blockstore Nat where
  DeleteBlock := fun s _ => (s, some "store not ready")
  Has := fun s _ => (s, false, some "store not ready")
  Get := fun s _ => (s, none, some "store not ready")
  GetSize := fun s _ => (s, -1, some "store not ready")
  Put := fun s _ => (s, some "store not ready")
  PutMany := fun s _ => (s, some "store not ready")
  AllKeysChan := fun s => (s, none, some "store not ready")
  HashOnRead := fun s _ => s

/-- A lazy blockstore whose load counts its calls in the world; the first
call fails and returns no blockstore, the later calls return the example
blockstore. -/
def exampleFlakyLazyBlockstore (blks : List blocks.Block) : lazyBlockstore Nat where
  bs := none
  load := fun s =>
    if s = 0 then (s + 1, none, some "load failed")
    else (s + 1, some (exampleBlockstore blks), none)

/-- A lazy blockstore whose load counts its calls in the world; the first
call fails and returns the unusable blockstore together with its error, the
later calls would return the example blockstore. -/
def exampleStickyLazyBlockstore (blks : List blocks.Block) : lazyBlockstore Nat where
  bs := none
  load := fun s =>
    if s = 0 then (s + 1, some exampleBrokenBlockstore, some "load failed")
    else (s + 1, some (exampleBlockstore blks), none)

end retrievalimpl

/-! ## Discovery: the generated decoder -/

/-- The cbor-gen function `ReadStringBuf` (an external library): a text-string
header that declares at most `MaxLength` bytes, and then that many bytes,
which are the string. -/
def cbg.ReadStringBuf (br : List Nat) : Except String (List Nat × List Nat) := do
  let (maj, l, br) ← cbg.CborReadHeader br
  if maj ≠ cbg.MajTextString then
    throw ("got tag " ++ toString maj ++ " while reading string value (l = " ++ toString l ++ ")")
  if l > cbg.MaxLength then
    throw "string in input was too long"
  let (buf, br) ← gio.ReadFull br l
  return (buf, br)

/-- The entries of a CBOR map whose keys are text strings, in the words of
the specification: each entry is the key, given by its bytes, as a text
string (major type 3), followed by the bytes of its value. -/
def cborspec.entries (es : List (List Nat × List Nat)) : List Nat :=
  (es.map (fun e => cborspec.head 3 e.1.length ++ e.1 ++ e.2)).flatten

namespace discovery

open cbg gio

/-- The loop `for i := 0; i < int(extra); i++` of
`RetrievalPeers.UnmarshalCBOR` (lines 107-115): each peer is decoded into a
zero `RetrievalPeer` by the decoder of the peer type, which is outside the
sources and is the parameter `UnmarshalPeer`. -/
def RetrievalPeers.UnmarshalCBOR.peers {Peer : Type}
    (UnmarshalPeer : List Nat → Except String (Peer × List Nat)) :
    Nat → List Nat → Except String (List Peer × List Nat)
  | 0, br => .ok ([], br)
  | n + 1, br => do
    let (v, br) ← UnmarshalPeer br
    let (vs, br) ← RetrievalPeers.UnmarshalCBOR.peers UnmarshalPeer n br
    return (v :: vs, br)

/-- The loop `for i := uint64(0); i < n; i++` of `RetrievalPeers.UnmarshalCBOR`
(lines 79-123) over the entries of the map. The key is read as a string; the
entry "Peers" is decoded, `t.Peers` being replaced only when the array is not
empty (line 103); any other entry is passed to `cbg.ScanForLinks` (an
external library, the parameter `ScanForLinks`: its error and the bytes it
leaves in the reader), whose error is not looked at (line 121). -/
def RetrievalPeers.UnmarshalCBOR.loop {Peer : Type}
    (UnmarshalPeer : List Nat → Except String (Peer × List Nat))
    (ScanForLinks : List Nat → Option String × List Nat) :
    Nat → RetrievalPeers Peer → List Nat → Except String (RetrievalPeers Peer × List Nat)
  | 0, t, br => .ok (t, br)
  | n + 1, t, br => do
    let (name, br) ← ReadStringBuf br
    if name = "Peers".toList.map Char.toNat then
      let (maj, extra, br) ← CborReadHeader br
      if extra > MaxLength then
        throw ("t.Peers: array too large (" ++ toString extra ++ ")")
      if maj ≠ MajArray then
        throw "expected cbor array"
      let (peers, br) ← RetrievalPeers.UnmarshalCBOR.peers UnmarshalPeer extra br
      let t := if extra > 0 then { t with Peers := peers } else t
      RetrievalPeers.UnmarshalCBOR.loop UnmarshalPeer ScanForLinks n t br
    else
      let br := (ScanForLinks br).2
      RetrievalPeers.UnmarshalCBOR.loop UnmarshalPeer ScanForLinks n t br

/-- The method `RetrievalPeers.UnmarshalCBOR` (discovery/types_cbor_gen.go,
lines 58-128): `t` is the receiver before the call, which the first
statement `*t = RetrievalPeers{}` resets. -/
def RetrievalPeers.UnmarshalCBOR {Peer : Type}
    (UnmarshalPeer : List Nat → Except String (Peer × List Nat))
    (ScanForLinks : List Nat → Option String × List Nat)
    (t : RetrievalPeers Peer) (br : List Nat) :
    Except String (RetrievalPeers Peer × List Nat) := do
  let t : RetrievalPeers Peer := { t with Peers := [] }
  let (maj, extra, br) ← CborReadHeader br
  if maj ≠ MajMap then
    throw "cbor input should be of type map"
  if extra > MaxLength then
    throw ("RetrievalPeers: map struct too large (" ++ toString extra ++ ")")
  RetrievalPeers.UnmarshalCBOR.loop UnmarshalPeer ScanForLinks extra t br

/-- The decoder for `exampleMarshalPeer`: one byte below 24. -/
def exampleUnmarshalPeer (br : List Nat) : Except String (Nat × List Nat) :=
  match br with
  | [] => .error "EOF"
  | v :: br => if v < 24 then .ok (v, br) else .error "not a peer"

/-- An example of a skipping routine: it skips one unsigned integer or one
byte or text string, and fails on anything else. -/
def exampleScanForLinks (br : List Nat) : Option String × List Nat :=
  match CborReadHeader br with
  | .error e => (some e, br.drop 1)
  | .ok (maj, extra, br) =>
    if maj = MajByteString ∨ maj = MajTextString then (none, br.drop extra)
    else if maj = MajUnsignedInt then (none, br)
    else (some "unhandled cbor type", br)

end discovery

/-! ## Theorems -/

/-! ### Content identifiers -/

theorem Cid.Equals_iff (c o : Cid) : c.Equals o = true ↔ c = o := by
  simp [Cid.Equals]

theorem Cid.Defined_iff (c : Cid) : c.Defined = true ↔ c ≠ Cid.Undef := by
  cases c with
  | mk s =>
    simp [Cid.Defined, Cid.Undef]

theorem Cid.Equals_Undef_of_Defined (c : Cid) (h : c.Defined = true) :
    c.Equals Cid.Undef = false := by
  have h1 := (Cid.Defined_iff c).1 h
  cases hc : c.Equals Cid.Undef with
  | false => rfl
  | true => exact absurd ((Cid.Equals_iff c Cid.Undef).1 hc) h1

theorem Cid.Defined_Undef : Cid.Undef.Defined = false := by
  decide

theorem Cid.eq_Undef_of_not_Defined (c : Cid) (h : c.Defined = false) : c = Cid.Undef := by
  by_contra hne
  have := (Cid.Defined_iff c).2 hne
  rw [h] at this
  exact Bool.false_ne_true this

theorem Cid.Equals_self (c : Cid) : c.Equals c = true :=
  (Cid.Equals_iff c c).2 rfl

/-- Any list with an element satisfying `P` splits at the first such element. -/
theorem List.exists_first_split {α : Type} (P : α → Prop) (l : List α)
    (h : ∃ x ∈ l, P x) :
    ∃ pre x post, l = pre ++ x :: post ∧ P x ∧ ∀ y ∈ pre, ¬ P y := by
  induction l with
  | nil =>
    obtain ⟨x, hx, _⟩ := h
    cases hx
  | cons a t ih =>
    by_cases ha : P a
    · exact ⟨[], a, t, rfl, ha, by simp⟩
    · have ht : ∃ x ∈ t, P x := by
        obtain ⟨x, hx, hpx⟩ := h
        rcases List.mem_cons.1 hx with rfl | hx
        · exact absurd hpx ha
        · exact ⟨x, hx, hpx⟩
      obtain ⟨pre, x, post, hsplit, hpx, hpre⟩ := ih ht
      refine ⟨a :: pre, x, post, by simp [hsplit], hpx, ?_⟩
      intro y hy
      rcases List.mem_cons.1 hy with rfl | hy
      · exact ha
      · exact hpre y hy

namespace retrievalimpl

open piecestore retrievalmarket

/-! ### Deal-parameter validation -/

/-- C1: `CheckDealParams` returns no error exactly when the proposed price per
byte is at least the ask's, the proposed payment interval and interval
increase are at most the ask's, and the ask either defines no unseal price or
the proposed unseal price is at least the ask's; parameters equal to the
ask's on every bound are accepted. -/
theorem CheckDealParams_ok_iff (ask : Ask) (pricePerByte : Int) (paymentInterval : Nat)
    (paymentIntervalIncrease : Nat) (unsealPrice : Int) :
    (CheckDealParams ask pricePerByte paymentInterval paymentIntervalIncrease unsealPrice = none ↔
      (ask.PricePerByte ≤ pricePerByte ∧ paymentInterval ≤ ask.PaymentInterval ∧
        paymentIntervalIncrease ≤ ask.PaymentIntervalIncrease ∧
        (ask.UnsealPrice = none ∨ ∃ a, ask.UnsealPrice = some a ∧ a ≤ unsealPrice))) ∧
    CheckDealParams ask ask.PricePerByte ask.PaymentInterval ask.PaymentIntervalIncrease
        (ask.UnsealPrice.getD unsealPrice) = none := by
  constructor
  · unfold CheckDealParams
    constructor
    · intro h
      split_ifs at h with h1 h2 h3
      refine ⟨by omega, by omega, by omega, ?_⟩
      cases hu : ask.UnsealPrice with
      | none => exact Or.inl rfl
      | some a =>
        right
        refine ⟨a, rfl, ?_⟩
        rw [hu] at h
        simp only at h
        split_ifs at h with h4
        omega
    · rintro ⟨h1, h2, h3, h4⟩
      rw [if_neg (by omega), if_neg (by omega), if_neg (by omega)]
      rcases h4 with h4 | ⟨a, h4, h5⟩
      · rw [h4]
      · rw [h4]
        simp only
        rw [if_neg (by omega)]
  · unfold CheckDealParams
    rw [if_neg (by omega), if_neg (by omega), if_neg (by omega)]
    cases ask.UnsealPrice with
    | none => rfl
    | some a => simp

/-! ### Piece lookup -/

theorem getPieceInfoFromCid.loop_skip_requested (cidStr : Cid → String)
    (n : RetrievalProviderNode) (pieceStore : PieceStore) (pieceCID : Cid)
    (hdef : pieceCID.Defined = true) (pre rest : List PieceBlockLocation)
    (sealedPieceInfo : Option PieceInfo)
    (hpre : ∀ x ∈ pre, ∀ q, pieceStore.GetPieceInfo x.PieceCID = .ok q → q.PieceCID ≠ pieceCID) :
    ∀ lastErr, ∃ lastErr2,
      getPieceInfoFromCid.loop cidStr n pieceStore pieceCID (pre ++ rest) lastErr sealedPieceInfo =
        getPieceInfoFromCid.loop cidStr n pieceStore pieceCID rest lastErr2 sealedPieceInfo := by
  induction pre with
  | nil => intro lastErr; exact ⟨lastErr, rfl⟩
  | cons a t ih =>
    intro lastErr
    have ht : ∀ x ∈ t, ∀ q, pieceStore.GetPieceInfo x.PieceCID = .ok q → q.PieceCID ≠ pieceCID :=
      fun x hx => hpre x (List.mem_cons_of_mem a hx)
    rw [List.cons_append, getPieceInfoFromCid.loop]
    cases hget : pieceStore.GetPieceInfo a.PieceCID with
    | error err => exact ih ht (some err)
    | ok q =>
      have hne : q.PieceCID ≠ pieceCID := hpre a (List.mem_cons_self a t) q hget
      have heq : q.PieceCID.Equals pieceCID = false := by
        cases hc : q.PieceCID.Equals pieceCID with
        | false => rfl
        | true => exact absurd ((Cid.Equals_iff _ _).1 hc) hne
      simp only [heq, Bool.and_false, Cid.Equals_Undef_of_Defined pieceCID hdef]
      exact ih ht lastErr

theorem getPieceInfoFromCid.loop_skip_failed (cidStr : Cid → String)
    (n : RetrievalProviderNode) (pieceStore : PieceStore) (pieceCID : Cid)
    (pre rest : List PieceBlockLocation) (sealedPieceInfo : Option PieceInfo)
    (hpre : ∀ x ∈ pre, ∀ q, pieceStore.GetPieceInfo x.PieceCID ≠ .ok q) :
    ∀ lastErr, ∃ lastErr2,
      getPieceInfoFromCid.loop cidStr n pieceStore pieceCID (pre ++ rest) lastErr sealedPieceInfo =
        getPieceInfoFromCid.loop cidStr n pieceStore pieceCID rest lastErr2 sealedPieceInfo := by
  induction pre with
  | nil => intro lastErr; exact ⟨lastErr, rfl⟩
  | cons a t ih =>
    intro lastErr
    have ht : ∀ x ∈ t, ∀ q, pieceStore.GetPieceInfo x.PieceCID ≠ .ok q :=
      fun x hx => hpre x (List.mem_cons_of_mem a hx)
    rw [List.cons_append, getPieceInfoFromCid.loop]
    cases hget : pieceStore.GetPieceInfo a.PieceCID with
    | error err => exact ih ht (some err)
    | ok q => exact absurd hget (hpre a (List.mem_cons_self a t) q)

theorem getPieceInfoFromCid.loop_skip_sealed (cidStr : Cid → String)
    (n : RetrievalProviderNode) (pieceStore : PieceStore)
    (pre rest : List PieceBlockLocation)
    (hpre : ∀ x ∈ pre, ∀ q, pieceStore.GetPieceInfo x.PieceCID = .ok q →
      pieceInUnsealedSector n q = false) :
    ∀ lastErr sealedPieceInfo, ∃ lastErr2 sealed2,
      getPieceInfoFromCid.loop cidStr n pieceStore Cid.Undef (pre ++ rest) lastErr
          sealedPieceInfo =
        getPieceInfoFromCid.loop cidStr n pieceStore Cid.Undef rest lastErr2 sealed2 := by
  induction pre with
  | nil => intro lastErr sealedPieceInfo; exact ⟨lastErr, sealedPieceInfo, rfl⟩
  | cons a t ih =>
    intro lastErr sealedPieceInfo
    have ht : ∀ x ∈ t, ∀ q, pieceStore.GetPieceInfo x.PieceCID = .ok q →
        pieceInUnsealedSector n q = false :=
      fun x hx => hpre x (List.mem_cons_of_mem a hx)
    rw [List.cons_append, getPieceInfoFromCid.loop]
    cases hget : pieceStore.GetPieceInfo a.PieceCID with
    | error err => exact ih ht (some err) sealedPieceInfo
    | ok q =>
      have hs : pieceInUnsealedSector n q = false := hpre a (List.mem_cons_self a t) q hget
      simp only [Cid.Defined_Undef, Bool.false_and, Cid.Equals_self, hs]
      exact ih ht lastErr _

theorem getPieceInfoFromCid.loop_all_sealed (cidStr : Cid → String)
    (n : RetrievalProviderNode) (pieceStore : PieceStore)
    (rest : List PieceBlockLocation) (p : PieceInfo)
    (hrest : ∀ x ∈ rest, ∀ q, pieceStore.GetPieceInfo x.PieceCID = .ok q →
      pieceInUnsealedSector n q = false) :
    ∀ lastErr,
      getPieceInfoFromCid.loop cidStr n pieceStore Cid.Undef rest lastErr (some p) =
        (p, false, none) := by
  induction rest with
  | nil => intro lastErr; rfl
  | cons a t ih =>
    intro lastErr
    have ht : ∀ x ∈ t, ∀ q, pieceStore.GetPieceInfo x.PieceCID = .ok q →
        pieceInUnsealedSector n q = false :=
      fun x hx => hrest x (List.mem_cons_of_mem a hx)
    rw [getPieceInfoFromCid.loop]
    cases hget : pieceStore.GetPieceInfo a.PieceCID with
    | error err => exact ih ht (some err)
    | ok q =>
      have hs : pieceInUnsealedSector n q = false := hrest a (List.mem_cons_self a t) q hget
      simp only [Cid.Defined_Undef, Bool.false_and, Cid.Equals_self, hs]
      exact ih ht lastErr

/-- Once a sealed piece has been remembered the lookup cannot fail. -/
theorem getPieceInfoFromCid.loop_some_ok (cidStr : Cid → String)
    (n : RetrievalProviderNode) (pieceStore : PieceStore) (pieceCID : Cid)
    (rest : List PieceBlockLocation) :
    ∀ lastErr p,
      (getPieceInfoFromCid.loop cidStr n pieceStore pieceCID rest lastErr (some p)).2.2 = none := by
  induction rest with
  | nil => intro lastErr p; rfl
  | cons a t ih =>
    intro lastErr p
    rw [getPieceInfoFromCid.loop]
    cases hget : pieceStore.GetPieceInfo a.PieceCID with
    | error err => exact ih (some err) p
    | ok q =>
      simp only
      split_ifs
      · rfl
      · rfl
      · exact ih lastErr p
      · exact ih lastErr p

/-- A failing lookup returns the zero piece, `false` and a
"could not locate piece" error. -/
theorem getPieceInfoFromCid.loop_error_shape (cidStr : Cid → String)
    (n : RetrievalProviderNode) (pieceStore : PieceStore) (pieceCID : Cid)
    (rest : List PieceBlockLocation) :
    ∀ lastErr sealedPieceInfo,
      (getPieceInfoFromCid.loop cidStr n pieceStore pieceCID rest lastErr sealedPieceInfo).2.2
          ≠ none →
      ∃ reason,
        getPieceInfoFromCid.loop cidStr n pieceStore pieceCID rest lastErr sealedPieceInfo =
          (PieceInfoUndefined, false, some ("could not locate piece: " ++ reason)) := by
  induction rest with
  | nil =>
    intro lastErr sealedPieceInfo h
    cases sealedPieceInfo with
    | some p => exact absurd rfl h
    | none => exact ⟨_, rfl⟩
  | cons a t ih =>
    intro lastErr sealedPieceInfo
    rw [getPieceInfoFromCid.loop]
    cases hget : pieceStore.GetPieceInfo a.PieceCID with
    | error err => exact ih (some err) sealedPieceInfo
    | ok q =>
      simp only
      split_ifs
      · intro h; exact absurd rfl h
      · intro h; exact absurd rfl h
      · exact ih lastErr _
      · exact ih lastErr _

theorem getPieceInfoFromCid.loop_fails_iff_requested (cidStr : Cid → String)
    (n : RetrievalProviderNode) (pieceStore : PieceStore) (pieceCID : Cid)
    (hdef : pieceCID.Defined = true) (locs : List PieceBlockLocation) :
    ∀ lastErr,
      ((getPieceInfoFromCid.loop cidStr n pieceStore pieceCID locs lastErr none).2.2 ≠ none ↔
        ∀ l ∈ locs, ∀ q, pieceStore.GetPieceInfo l.PieceCID = .ok q → q.PieceCID ≠ pieceCID) := by
  induction locs with
  | nil =>
    intro lastErr
    simp [getPieceInfoFromCid.loop]
  | cons a t ih =>
    intro lastErr
    rw [getPieceInfoFromCid.loop]
    cases hget : pieceStore.GetPieceInfo a.PieceCID with
    | error err =>
      simp only [List.mem_cons, forall_eq_or_imp, hget]
      rw [ih (some err)]
      simp
    | ok q =>
      simp only [List.mem_cons, forall_eq_or_imp, hget]
      by_cases hq : q.PieceCID = pieceCID
      · have heq : q.PieceCID.Equals pieceCID = true := (Cid.Equals_iff _ _).2 hq
        rw [if_pos (by rw [hdef, heq]; rfl)]
        simp [hq]
      · have heq : q.PieceCID.Equals pieceCID = false := by
          cases hc : q.PieceCID.Equals pieceCID with
          | false => rfl
          | true => exact absurd ((Cid.Equals_iff _ _).1 hc) hq
        simp only [heq, Bool.and_false, Cid.Equals_Undef_of_Defined pieceCID hdef,
          Bool.false_eq_true, if_false]
        rw [ih lastErr]
        simp [hq]

theorem getPieceInfoFromCid.loop_fails_iff_undefined (cidStr : Cid → String)
    (n : RetrievalProviderNode) (pieceStore : PieceStore)
    (locs : List PieceBlockLocation) :
    ∀ lastErr,
      ((getPieceInfoFromCid.loop cidStr n pieceStore Cid.Undef locs lastErr none).2.2 ≠ none ↔
        ∀ l ∈ locs, ∀ q, pieceStore.GetPieceInfo l.PieceCID ≠ .ok q) := by
  induction locs with
  | nil =>
    intro lastErr
    simp [getPieceInfoFromCid.loop]
  | cons a t ih =>
    intro lastErr
    rw [getPieceInfoFromCid.loop]
    cases hget : pieceStore.GetPieceInfo a.PieceCID with
    | error err =>
      simp only [List.mem_cons, forall_eq_or_imp, hget]
      rw [ih (some err)]
      simp
    | ok q =>
      simp only [List.mem_cons, forall_eq_or_imp, hget, Cid.Defined_Undef, Bool.false_and,
        Cid.Equals_self]
      cases hs : pieceInUnsealedSector n q with
      | true => simp
      | false =>
        simp [getPieceInfoFromCid.loop_some_ok]

/-- C2: when the CID info of the payload is found and the requested piece CID
is defined, and some location of the payload has a piece info that is fetched
successfully and carries the requested piece CID, `getPieceInfoFromCid` (and
`GetPiece` called with that piece) succeeds with the piece info of the first
such location in list order and with `isUnsealed` equal to
`pieceInUnsealedSector` of that piece, whatever the seal state of the other
pieces. -/
theorem getPieceInfoFromCid_requested_piece (cidStr : Cid → String)
    (n : RetrievalProviderNode) (pieceStore : PieceStore) (payloadCID pieceCID : Cid)
    (cidInfo : CIDInfo)
    (hinfo : pieceStore.GetCIDInfo payloadCID = .ok cidInfo)
    (hdef : pieceCID.Defined = true)
    (hex : ∃ l ∈ cidInfo.PieceBlockLocations, ∃ q,
      pieceStore.GetPieceInfo l.PieceCID = .ok q ∧ q.PieceCID = pieceCID) :
    ∃ pre l post q,
      cidInfo.PieceBlockLocations = pre ++ l :: post ∧
      (∀ x ∈ pre, ∀ r, pieceStore.GetPieceInfo x.PieceCID = .ok r → r.PieceCID ≠ pieceCID) ∧
      pieceStore.GetPieceInfo l.PieceCID = .ok q ∧ q.PieceCID = pieceCID ∧
      getPieceInfoFromCid cidStr n pieceStore payloadCID pieceCID =
        (q, pieceInUnsealedSector n q, none) ∧
      GetPiece cidStr n pieceStore payloadCID (some pieceCID) =
        (q, pieceInUnsealedSector n q, none) := by
  obtain ⟨pre, l, post, hsplit, ⟨q, hget, hq⟩, hpre⟩ :=
    List.exists_first_split
      (fun l => ∃ q, pieceStore.GetPieceInfo l.PieceCID = .ok q ∧ q.PieceCID = pieceCID)
      cidInfo.PieceBlockLocations hex
  have hpre2 : ∀ x ∈ pre, ∀ r, pieceStore.GetPieceInfo x.PieceCID = .ok r →
      r.PieceCID ≠ pieceCID := fun x hx r hr hc => hpre x hx ⟨r, hr, hc⟩
  have hres : getPieceInfoFromCid cidStr n pieceStore payloadCID pieceCID =
      (q, pieceInUnsealedSector n q, none) := by
    unfold getPieceInfoFromCid
    rw [hinfo]
    simp only [hsplit]
    obtain ⟨lastErr2, hskip⟩ :=
      getPieceInfoFromCid.loop_skip_requested cidStr n pieceStore pieceCID hdef pre (l :: post)
        none hpre2 none
    rw [hskip, getPieceInfoFromCid.loop, hget]
    have heq : q.PieceCID.Equals pieceCID = true := (Cid.Equals_iff _ _).2 hq
    simp only
    rw [if_pos (by rw [hdef, heq]; rfl)]
  exact ⟨pre, l, post, q, hsplit, hpre2, hget, hq, hres, hres⟩

/-- C2 at a concrete store: the payload lies in an unsealed piece and then in a
sealed one, the sealed one is requested and returned. -/
theorem getPieceInfoFromCid_requested_piece_witness :
    (exampleStore.GetCIDInfo ⟨[9]⟩ =
        .ok ⟨⟨[9]⟩, [exampleLocation ⟨[1]⟩, exampleLocation ⟨[2]⟩]⟩ ∧
      Cid.Defined ⟨[2]⟩ = true ∧
      pieceInUnsealedSector exampleNode examplePieceA = true ∧
      pieceInUnsealedSector exampleNode examplePieceB = false ∧
      getPieceInfoFromCid exampleCidStr exampleNode exampleStore ⟨[9]⟩ ⟨[2]⟩ =
        (examplePieceB, false, none)) ∧
    ∃ pre l post q,
      [exampleLocation ⟨[1]⟩, exampleLocation ⟨[2]⟩] = pre ++ l :: post ∧
      (∀ x ∈ pre, ∀ r, exampleStore.GetPieceInfo x.PieceCID = .ok r → r.PieceCID ≠ ⟨[2]⟩) ∧
      exampleStore.GetPieceInfo l.PieceCID = .ok q ∧ q.PieceCID = ⟨[2]⟩ ∧
      getPieceInfoFromCid exampleCidStr exampleNode exampleStore ⟨[9]⟩ ⟨[2]⟩ =
        (q, pieceInUnsealedSector exampleNode q, none) ∧
      GetPiece exampleCidStr exampleNode exampleStore ⟨[9]⟩ (some ⟨[2]⟩) =
        (q, pieceInUnsealedSector exampleNode q, none) :=
  ⟨⟨rfl, rfl, rfl, rfl, rfl⟩,
    getPieceInfoFromCid_requested_piece exampleCidStr exampleNode exampleStore ⟨[9]⟩ ⟨[2]⟩
      ⟨⟨[9]⟩, [exampleLocation ⟨[1]⟩, exampleLocation ⟨[2]⟩]⟩ rfl rfl
      ⟨exampleLocation ⟨[2]⟩, by simp, examplePieceB, rfl, rfl⟩⟩

/-- C3: with no requested piece, if some successfully fetched piece of the
payload lies in an unsealed sector, `getPieceInfoFromCid` returns the first
such piece in the order of the location list with `isUnsealed = true`, however
many sealed or unfetchable pieces come before it. -/
theorem getPieceInfoFromCid_prefers_unsealed (cidStr : Cid → String)
    (n : RetrievalProviderNode) (pieceStore : PieceStore) (payloadCID pieceCID : Cid)
    (cidInfo : CIDInfo)
    (hinfo : pieceStore.GetCIDInfo payloadCID = .ok cidInfo)
    (hundef : pieceCID.Defined = false)
    (hex : ∃ l ∈ cidInfo.PieceBlockLocations, ∃ q,
      pieceStore.GetPieceInfo l.PieceCID = .ok q ∧ pieceInUnsealedSector n q = true) :
    ∃ pre l post q,
      cidInfo.PieceBlockLocations = pre ++ l :: post ∧
      (∀ x ∈ pre, ∀ r, pieceStore.GetPieceInfo x.PieceCID = .ok r →
        pieceInUnsealedSector n r = false) ∧
      pieceStore.GetPieceInfo l.PieceCID = .ok q ∧ pieceInUnsealedSector n q = true ∧
      getPieceInfoFromCid cidStr n pieceStore payloadCID pieceCID = (q, true, none) := by
  obtain ⟨pre, l, post, hsplit, ⟨q, hget, hq⟩, hpre⟩ :=
    List.exists_first_split
      (fun l => ∃ q, pieceStore.GetPieceInfo l.PieceCID = .ok q ∧
        pieceInUnsealedSector n q = true)
      cidInfo.PieceBlockLocations hex
  have hpre2 : ∀ x ∈ pre, ∀ r, pieceStore.GetPieceInfo x.PieceCID = .ok r →
      pieceInUnsealedSector n r = false := by
    intro x hx r hr
    cases hs : pieceInUnsealedSector n r with
    | false => rfl
    | true => exact absurd ⟨r, hr, hs⟩ (hpre x hx)
  refine ⟨pre, l, post, q, hsplit, hpre2, hget, hq, ?_⟩
  rw [Cid.eq_Undef_of_not_Defined pieceCID hundef]
  unfold getPieceInfoFromCid
  rw [hinfo]
  simp only [hsplit]
  obtain ⟨lastErr2, sealed2, hskip⟩ :=
    getPieceInfoFromCid.loop_skip_sealed cidStr n pieceStore pre (l :: post) hpre2 none none
  rw [hskip, getPieceInfoFromCid.loop, hget]
  simp only [Cid.Defined_Undef, Bool.false_and, Cid.Equals_self, hq]
  rfl

/-- C3 at a concrete store: a sealed piece and an unfetchable one precede the
unsealed piece, which is returned. -/
theorem getPieceInfoFromCid_prefers_unsealed_witness :
    (exampleStore.GetCIDInfo ⟨[8]⟩ =
        .ok ⟨⟨[8]⟩, [exampleLocation ⟨[2]⟩, exampleLocation ⟨[5]⟩, exampleLocation ⟨[1]⟩]⟩ ∧
      Cid.Defined Cid.Undef = false ∧
      getPieceInfoFromCid exampleCidStr exampleNode exampleStore ⟨[8]⟩ Cid.Undef =
        (examplePieceA, true, none)) ∧
    ∃ pre l post q,
      [exampleLocation ⟨[2]⟩, exampleLocation ⟨[5]⟩, exampleLocation ⟨[1]⟩] = pre ++ l :: post ∧
      (∀ x ∈ pre, ∀ r, exampleStore.GetPieceInfo x.PieceCID = .ok r →
        pieceInUnsealedSector exampleNode r = false) ∧
      exampleStore.GetPieceInfo l.PieceCID = .ok q ∧
      pieceInUnsealedSector exampleNode q = true ∧
      getPieceInfoFromCid exampleCidStr exampleNode exampleStore ⟨[8]⟩ Cid.Undef =
        (q, true, none) :=
  ⟨⟨rfl, rfl, rfl⟩,
    getPieceInfoFromCid_prefers_unsealed exampleCidStr exampleNode exampleStore ⟨[8]⟩ Cid.Undef
      ⟨⟨[8]⟩, [exampleLocation ⟨[2]⟩, exampleLocation ⟨[5]⟩, exampleLocation ⟨[1]⟩]⟩ rfl rfl
      ⟨exampleLocation ⟨[1]⟩, by simp, examplePieceA, rfl, rfl⟩⟩

/-- C4: with no requested piece, if no successfully fetched piece of the
payload lies in an unsealed sector but at least one piece info is fetched,
`getPieceInfoFromCid` returns no error, `isUnsealed = false`, and the first
successfully fetched piece in the order of the location list. -/
theorem getPieceInfoFromCid_falls_back_to_first_sealed (cidStr : Cid → String)
    (n : RetrievalProviderNode) (pieceStore : PieceStore) (payloadCID pieceCID : Cid)
    (cidInfo : CIDInfo)
    (hinfo : pieceStore.GetCIDInfo payloadCID = .ok cidInfo)
    (hundef : pieceCID.Defined = false)
    (hsealed : ∀ l ∈ cidInfo.PieceBlockLocations, ∀ q,
      pieceStore.GetPieceInfo l.PieceCID = .ok q → pieceInUnsealedSector n q = false)
    (hex : ∃ l ∈ cidInfo.PieceBlockLocations, ∃ q,
      pieceStore.GetPieceInfo l.PieceCID = .ok q) :
    ∃ pre l post q,
      cidInfo.PieceBlockLocations = pre ++ l :: post ∧
      (∀ x ∈ pre, ∀ r, pieceStore.GetPieceInfo x.PieceCID ≠ .ok r) ∧
      pieceStore.GetPieceInfo l.PieceCID = .ok q ∧
      getPieceInfoFromCid cidStr n pieceStore payloadCID pieceCID = (q, false, none) := by
  obtain ⟨pre, l, post, hsplit, ⟨q, hget⟩, hpre⟩ :=
    List.exists_first_split
      (fun l => ∃ q, pieceStore.GetPieceInfo l.PieceCID = .ok q)
      cidInfo.PieceBlockLocations hex
  have hpre2 : ∀ x ∈ pre, ∀ r, pieceStore.GetPieceInfo x.PieceCID ≠ .ok r :=
    fun x hx r hr => hpre x hx ⟨r, hr⟩
  refine ⟨pre, l, post, q, hsplit, hpre2, hget, ?_⟩
  have hl : l ∈ cidInfo.PieceBlockLocations := by rw [hsplit]; simp
  have hq : pieceInUnsealedSector n q = false := hsealed l hl q hget
  have hpost : ∀ x ∈ post, ∀ r, pieceStore.GetPieceInfo x.PieceCID = .ok r →
      pieceInUnsealedSector n r = false := by
    intro x hx r hr
    exact hsealed x (by rw [hsplit]; simp [hx]) r hr
  rw [Cid.eq_Undef_of_not_Defined pieceCID hundef]
  unfold getPieceInfoFromCid
  rw [hinfo]
  simp only [hsplit]
  obtain ⟨lastErr2, hskip⟩ :=
    getPieceInfoFromCid.loop_skip_failed cidStr n pieceStore Cid.Undef pre (l :: post) none
      hpre2 none
  rw [hskip, getPieceInfoFromCid.loop, hget]
  simp only [Cid.Defined_Undef, Bool.false_and, Cid.Equals_self, hq]
  exact getPieceInfoFromCid.loop_all_sealed cidStr n pieceStore post q hpost lastErr2

/-- C4 at a concrete store: an unfetchable piece, then two sealed pieces; the
first sealed piece is returned. -/
theorem getPieceInfoFromCid_falls_back_to_first_sealed_witness :
    (exampleStore.GetCIDInfo ⟨[7]⟩ =
        .ok ⟨⟨[7]⟩, [exampleLocation ⟨[5]⟩, exampleLocation ⟨[2]⟩, exampleLocation ⟨[3]⟩]⟩ ∧
      Cid.Defined Cid.Undef = false ∧
      getPieceInfoFromCid exampleCidStr exampleNode exampleStore ⟨[7]⟩ Cid.Undef =
        (examplePieceB, false, none)) ∧
    ∃ pre l post q,
      [exampleLocation ⟨[5]⟩, exampleLocation ⟨[2]⟩, exampleLocation ⟨[3]⟩] = pre ++ l :: post ∧
      (∀ x ∈ pre, ∀ r, exampleStore.GetPieceInfo x.PieceCID ≠ .ok r) ∧
      exampleStore.GetPieceInfo l.PieceCID = .ok q ∧
      getPieceInfoFromCid exampleCidStr exampleNode exampleStore ⟨[7]⟩ Cid.Undef =
        (q, false, none) :=
  ⟨⟨rfl, rfl, rfl⟩,
    getPieceInfoFromCid_falls_back_to_first_sealed exampleCidStr exampleNode exampleStore
      ⟨[7]⟩ Cid.Undef
      ⟨⟨[7]⟩, [exampleLocation ⟨[5]⟩, exampleLocation ⟨[2]⟩, exampleLocation ⟨[3]⟩]⟩ rfl rfl
      (by
        intro l hl q hq
        simp only [List.mem_cons, List.mem_singleton, List.not_mem_nil, or_false] at hl
        rcases hl with rfl | rfl | rfl
        · have h5 : exampleStore.GetPieceInfo (exampleLocation ⟨[5]⟩).PieceCID =
              .error "piece not found" := rfl
          rw [h5] at hq
          cases hq
        · have h2 : exampleStore.GetPieceInfo (exampleLocation ⟨[2]⟩).PieceCID =
              .ok examplePieceB := rfl
          rw [h2] at hq
          cases hq
          rfl
        · have h3 : exampleStore.GetPieceInfo (exampleLocation ⟨[3]⟩).PieceCID =
              .ok examplePieceC := rfl
          rw [h3] at hq
          cases hq
          rfl)
      ⟨exampleLocation ⟨[2]⟩, by simp, examplePieceB, rfl⟩⟩

/-- C5: given that `GetCIDInfo` succeeds, `getPieceInfoFromCid` returns an
error exactly when either the piece CID is undefined and no location's piece
info can be fetched (an empty location list included), or the piece CID is
defined and no successfully fetched piece info carries it; and every such
failure returns `PieceInfoUndefined`, `isUnsealed = false` and an error whose
message starts with "could not locate piece". -/
theorem getPieceInfoFromCid_fails_iff (cidStr : Cid → String)
    (n : RetrievalProviderNode) (pieceStore : PieceStore) (payloadCID pieceCID : Cid)
    (cidInfo : CIDInfo)
    (hinfo : pieceStore.GetCIDInfo payloadCID = .ok cidInfo) :
    ((getPieceInfoFromCid cidStr n pieceStore payloadCID pieceCID).2.2 ≠ none ↔
      (pieceCID.Defined = false ∧
        ∀ l ∈ cidInfo.PieceBlockLocations, ∀ q, pieceStore.GetPieceInfo l.PieceCID ≠ .ok q) ∨
      (pieceCID.Defined = true ∧
        ∀ l ∈ cidInfo.PieceBlockLocations, ∀ q,
          pieceStore.GetPieceInfo l.PieceCID = .ok q → q.PieceCID ≠ pieceCID)) ∧
    ((getPieceInfoFromCid cidStr n pieceStore payloadCID pieceCID).2.2 ≠ none →
      ∃ reason,
        getPieceInfoFromCid cidStr n pieceStore payloadCID pieceCID =
          (PieceInfoUndefined, false, some ("could not locate piece: " ++ reason))) := by
  unfold getPieceInfoFromCid
  rw [hinfo]
  simp only
  refine ⟨?_, getPieceInfoFromCid.loop_error_shape cidStr n pieceStore pieceCID _ none none⟩
  cases hdef : pieceCID.Defined with
  | true =>
    rw [getPieceInfoFromCid.loop_fails_iff_requested cidStr n pieceStore pieceCID hdef]
    simp
  | false =>
    rw [Cid.eq_Undef_of_not_Defined pieceCID hdef,
      getPieceInfoFromCid.loop_fails_iff_undefined cidStr n pieceStore]
    simp

/-- C5 at a concrete store: the only piece listed for the payload cannot be
fetched, and the lookup fails with the store's error wrapped. -/
theorem getPieceInfoFromCid_fails_iff_witness :
    (exampleStore.GetCIDInfo ⟨[6]⟩ = .ok ⟨⟨[6]⟩, [exampleLocation ⟨[5]⟩]⟩ ∧
      getPieceInfoFromCid exampleCidStr exampleNode exampleStore ⟨[6]⟩ Cid.Undef =
        (PieceInfoUndefined, false, some "could not locate piece: piece not found") ∧
      getPieceInfoFromCid exampleCidStr exampleNode exampleStore ⟨[9]⟩ ⟨[3]⟩ =
        (PieceInfoUndefined, false, some "could not locate piece: unknown pieceCID [3]")) ∧
    (((getPieceInfoFromCid exampleCidStr exampleNode exampleStore ⟨[6]⟩ Cid.Undef).2.2 ≠ none ↔
      (Cid.Defined Cid.Undef = false ∧
        ∀ l ∈ [exampleLocation ⟨[5]⟩], ∀ q, exampleStore.GetPieceInfo l.PieceCID ≠ .ok q) ∨
      (Cid.Defined Cid.Undef = true ∧
        ∀ l ∈ [exampleLocation ⟨[5]⟩], ∀ q,
          exampleStore.GetPieceInfo l.PieceCID = .ok q → q.PieceCID ≠ Cid.Undef)) ∧
    ((getPieceInfoFromCid exampleCidStr exampleNode exampleStore ⟨[6]⟩ Cid.Undef).2.2 ≠ none →
      ∃ reason,
        getPieceInfoFromCid exampleCidStr exampleNode exampleStore ⟨[6]⟩ Cid.Undef =
          (PieceInfoUndefined, false, some ("could not locate piece: " ++ reason)))) :=
  ⟨⟨rfl, rfl, by decide⟩,
    getPieceInfoFromCid_fails_iff exampleCidStr exampleNode exampleStore ⟨[6]⟩ Cid.Undef
      ⟨⟨[6]⟩, [exampleLocation ⟨[5]⟩]⟩ rfl⟩

/-! ### Deal tracking -/

/-- C6: when inserting the deal into the state-machine group succeeds,
`BeginTracking` sends exactly one event for that deal (the log of `Send`
calls grows by one entry and the result is that of this call):
`ProviderEventPaymentRequested` with argument `0` if the deal's unseal price
is greater than zero and `ProviderEventOpen` without arguments otherwise; when
the insertion fails its error is returned and nothing is sent. -/
theorem BeginTracking_sends_one_event {σ : Type} (sm : StateMachines σ) (s : σ)
    (log : List SentEvent) (pds : ProviderDealState) :
    (∀ s1, sm.Begin s pds.Identifier pds = (s1, none) →
      (0 < pds.UnsealPrice →
        BeginTracking sm.logged (s, log) pds =
          (((sm.Send s1 pds.Identifier ProviderEvent.ProviderEventPaymentRequested [0]).1,
              log ++ [⟨pds.Identifier, ProviderEvent.ProviderEventPaymentRequested, [0]⟩]),
            (sm.Send s1 pds.Identifier ProviderEvent.ProviderEventPaymentRequested [0]).2)) ∧
      (pds.UnsealPrice ≤ 0 →
        BeginTracking sm.logged (s, log) pds =
          (((sm.Send s1 pds.Identifier ProviderEvent.ProviderEventOpen []).1,
              log ++ [⟨pds.Identifier, ProviderEvent.ProviderEventOpen, []⟩]),
            (sm.Send s1 pds.Identifier ProviderEvent.ProviderEventOpen []).2))) ∧
    (∀ s1 err, sm.Begin s pds.Identifier pds = (s1, some err) →
      BeginTracking sm.logged (s, log) pds = ((s1, log), some err)) := by
  refine ⟨fun s1 hbegin => ⟨fun hpos => ?_, fun hle => ?_⟩, fun s1 err hbegin => ?_⟩
  · simp only [BeginTracking, StateMachines.logged, hbegin]
    rw [if_pos (by exact hpos)]
  · simp only [BeginTracking, StateMachines.logged, hbegin]
    rw [if_neg (by omega)]
  · simp only [BeginTracking, StateMachines.logged, hbegin]

/-- C6 on a group that tracks deals in a list: a deal with unseal price 100
is inserted and asked for payment, one with unseal price 0 is inserted and
opened, and a deal that is already tracked is refused without any event. -/
theorem BeginTracking_sends_one_event_witness :
    BeginTracking exampleStateMachines.logged ([], []) (exampleProviderDeal 100) =
        (([(⟨"client", 10⟩, exampleProviderDeal 100)],
            [⟨⟨"client", 10⟩, ProviderEvent.ProviderEventPaymentRequested, [0]⟩]), none) ∧
      BeginTracking exampleStateMachines.logged ([], []) (exampleProviderDeal 0) =
        (([(⟨"client", 10⟩, exampleProviderDeal 0)],
            [⟨⟨"client", 10⟩, ProviderEvent.ProviderEventOpen, []⟩]), none) ∧
      BeginTracking exampleStateMachines.logged
          ([(⟨"client", 10⟩, exampleProviderDeal 0)], []) (exampleProviderDeal 100) =
        (([(⟨"client", 10⟩, exampleProviderDeal 0)], []), some "already tracking identifier") :=
  ⟨((BeginTracking_sends_one_event exampleStateMachines [] [] (exampleProviderDeal 100)).1
      [(⟨"client", 10⟩, exampleProviderDeal 100)] rfl).1 (by decide),
    ((BeginTracking_sends_one_event exampleStateMachines [] [] (exampleProviderDeal 0)).1
      [(⟨"client", 10⟩, exampleProviderDeal 0)] rfl).2 (by decide),
    (BeginTracking_sends_one_event exampleStateMachines
      [(⟨"client", 10⟩, exampleProviderDeal 0)] [] (exampleProviderDeal 100)).2
      [(⟨"client", 10⟩, exampleProviderDeal 0)] "already tracking identifier" rfl⟩

end retrievalimpl

namespace clientstates

open retrievalmarket

/-! ### Client payment handler -/

/-- A positive request below what is owed buys a whole number of bytes that
stays short of the bytes received. -/
theorem under_request_bytes (tr bpf : Nat) (p r : Int) (hpos : 0 < r)
    (h : r < ((tr : Int) - (bpf : Int)) * p) :
    0 ≤ (bpf : Int) + r / p ∧ (bpf : Int) + r / p ≠ (tr : Int) := by
  rcases lt_trichotomy p 0 with hp | hp | hp
  · have hq : 0 < -p := by omega
    have h1 : r / p = -(r / -p) := by rw [Int.ediv_neg, neg_neg]
    have h2 : r < ((bpf : Int) - (tr : Int)) * -p := by
      have : ((bpf : Int) - (tr : Int)) * -p = ((tr : Int) - (bpf : Int)) * p := by ring
      rw [this]; exact h
    have h3 : r / -p < (bpf : Int) - (tr : Int) := Int.ediv_lt_of_lt_mul hq h2
    have h4 : 0 ≤ r / -p := Int.ediv_nonneg (le_of_lt hpos) (le_of_lt hq)
    rw [h1]
    constructor <;> omega
  · subst hp
    simp at h
    omega
  · have h3 : r / p < (tr : Int) - (bpf : Int) := Int.ediv_lt_of_lt_mul hp h
    have h4 : 0 ≤ r / p := Int.ediv_nonneg (le_of_lt hpos) (le_of_lt hp)
    constructor <;> omega

theorem SendFunds_eq_run (environment : ClientDealEnvironment) (deal : ClientDealState)
    (hst : deal.Status = DealStatus.DealStatusSendFunds ∨
      deal.Status = DealStatus.DealStatusSendFundsLastPayment) :
    SendFunds environment deal =
      some (SendFunds.run environment deal
        (if deal.Status = DealStatus.DealStatusSendFunds then DealStatus.DealStatusOngoing
         else DealStatus.DealStatusFinalizing)) := by
  rcases hst with h | h <;> simp [SendFunds, h]

theorem SendFunds.run_over_request (environment : ClientDealEnvironment)
    (deal : ClientDealState) (next : DealStatus)
    (hover : owed deal < deal.PaymentRequested) :
    SendFunds.run environment deal next =
      { deal with
        Status := DealStatus.DealStatusFailing
        Message := "provider requested more than owed" } := by
  unfold SendFunds.run
  rw [if_pos hover]

theorem SendFunds.run_insufficient_funds (environment : ClientDealEnvironment)
    (deal : ClientDealState) (next : DealStatus)
    (hle : deal.PaymentRequested ≤ owed deal)
    (hfunds : deal.TotalFunds < deal.FundsSpent + min deal.PaymentRequested (owed deal)) :
    SendFunds.run environment deal next =
      { deal with
        Status := DealStatus.DealStatusFailing
        Message := "insufficient funds" } := by
  unfold SendFunds.run
  rw [if_neg (not_lt.2 hle)]
  simp only
  rw [if_pos hfunds]

theorem SendFunds.run_settled (environment : ClientDealEnvironment)
    (deal : ClientDealState) (next : DealStatus) (voucher : Voucher)
    (hle : deal.PaymentRequested ≤ owed deal)
    (hfunds : deal.FundsSpent + deal.PaymentRequested ≤ deal.TotalFunds)
    (hcreate : environment.CreateVoucher deal.PaymentInfo.PayCh deal.PaymentInfo.Lane
      (deal.FundsSpent + deal.PaymentRequested) = .ok voucher)
    (hsend : environment.SendDataTransferVoucher deal.ChannelID voucher = none) :
    SendFunds.run environment deal next =
      { deal with
        Status := next
        FundsSpent := deal.FundsSpent + deal.PaymentRequested
        BytesPaidFor :=
          if deal.PaymentRequested = owed deal then deal.TotalReceived
          else Int.toNat ((deal.BytesPaidFor : Int) + deal.PaymentRequested / deal.PricePerByte)
        PaymentRequested := 0
        CurrentInterval :=
          if deal.PaymentRequested = owed deal ∧
              deal.CurrentInterval ≤ deal.TotalReceived - deal.BytesPaidFor then
            deal.CurrentInterval + deal.PaymentIntervalIncrease
          else deal.CurrentInterval } := by
  unfold SendFunds.run
  rw [if_neg (not_lt.2 hle)]
  simp only [min_eq_left hle]
  rw [if_neg (not_lt.2 hfunds), hcreate]
  simp only [hsend]

/-- C7: for every client deal in `SendFunds` or `SendFundsLastPayment` whose
payment requested is strictly greater than
`owed = (total-received - bytes-paid-for) * price-per-byte`, the handler moves
the deal to `Failing` with a non-empty message and leaves funds-spent
unchanged. -/
theorem SendFunds_requested_more_than_owed (environment : ClientDealEnvironment)
    (deal : ClientDealState)
    (hst : deal.Status = DealStatus.DealStatusSendFunds ∨
      deal.Status = DealStatus.DealStatusSendFundsLastPayment)
    (hover : owed deal < deal.PaymentRequested) :
    ∃ d, SendFunds environment deal = some d ∧
      d.Status = DealStatus.DealStatusFailing ∧ d.Message ≠ "" ∧
      d.FundsSpent = deal.FundsSpent := by
  refine ⟨_, SendFunds_eq_run environment deal hst, ?_⟩
  rw [SendFunds.run_over_request environment deal _ hover]
  refine ⟨rfl, ?_, rfl⟩
  show "provider requested more than owed" ≠ ""
  decide

/-- C7 on the test "too much payment requested": 750000 requested, 500000 owed. -/
theorem SendFunds_requested_more_than_owed_witness :
    (owed { makeDealState DealStatus.DealStatusSendFunds with PaymentRequested := 750000 }
        = 500000) ∧
    ∃ d, SendFunds (fakeEnvironment none none)
        { makeDealState DealStatus.DealStatusSendFunds with PaymentRequested := 750000 }
          = some d ∧
      d.Status = DealStatus.DealStatusFailing ∧ d.Message ≠ "" ∧
      d.FundsSpent = 2500000 :=
  ⟨by decide,
    SendFunds_requested_more_than_owed (fakeEnvironment none none)
      { makeDealState DealStatus.DealStatusSendFunds with PaymentRequested := 750000 }
      (Or.inl rfl) (by decide)⟩

/-- The claim of C8 fails at the final payment of a deal: all blocks are
received, the last 500 bytes are unpaid, the 250000 owed for them is
requested and paid in full (funds sufficient, voucher created and sent). The
deal ends in `Finalizing` with everything as claimed except current-interval:
500 bytes are below the interval of 1000, so by core invariant 4 the interval
stays 1000 and is not increased by the interval increase of 500. -/
theorem SendFunds_full_payment_counterexample :
    finalPaymentDeal.PaymentRequested = owed finalPaymentDeal ∧
      finalPaymentDeal.FundsSpent + finalPaymentDeal.PaymentRequested ≤
        finalPaymentDeal.TotalFunds ∧
      finalPaymentDeal.TotalReceived - finalPaymentDeal.BytesPaidFor = 500 ∧
      finalPaymentDeal.CurrentInterval = 1000 ∧
      finalPaymentDeal.PaymentIntervalIncrease = 500 ∧
      (fakeEnvironment none none).CreateVoucher none 0 2750000 = .ok testVoucher ∧
      (fakeEnvironment none none).SendDataTransferVoucher none testVoucher = none ∧
      (∃ d, SendFunds (fakeEnvironment none none) finalPaymentDeal = some d ∧
        d.Status = DealStatus.DealStatusFinalizing ∧ d.FundsSpent = 2500000 + 250000 ∧
        d.BytesPaidFor = 5500 ∧ d.PaymentRequested = 0 ∧ d.Message = "" ∧
        d.CurrentInterval = 1000) ∧
      ¬ ∃ d, SendFunds (fakeEnvironment none none) finalPaymentDeal = some d ∧
        d.CurrentInterval = 1000 + 500 := by
  refine ⟨by decide, by decide, by decide, by decide, by decide, rfl, rfl,
    ⟨_, rfl, by decide, by decide, by decide, by decide, by decide, by decide⟩, ?_⟩
  rintro ⟨d, hd, hint⟩
  have hrun : SendFunds (fakeEnvironment none none) finalPaymentDeal =
      some (SendFunds.run (fakeEnvironment none none) finalPaymentDeal
        DealStatus.DealStatusFinalizing) := rfl
  rw [hrun] at hd
  injection hd with hd
  subst hd
  revert hint
  decide

/-- C8, amended: for every client deal in `SendFunds` or
`SendFundsLastPayment` (which it reaches without a message) whose payment
requested equals `owed = (total-received - bytes-paid-for) * price-per-byte`,
with `funds-spent + payment-requested <= total-funds` and with voucher
creation and sending succeeding, the handler increases funds-spent by exactly
the payment requested, sets bytes-paid-for to total-received and
payment-requested to 0, increases current-interval by exactly the payment
interval increase if the bytes paid for, `total-received - bytes-paid-for`,
reach current-interval and leaves current-interval unchanged if they do not,
leaves the message empty, and ends in `Ongoing` from `SendFunds` and in
`Finalizing` from `SendFundsLastPayment`. -/
theorem SendFunds_full_payment (environment : ClientDealEnvironment)
    (deal : ClientDealState) (voucher : Voucher)
    (hst : deal.Status = DealStatus.DealStatusSendFunds ∨
      deal.Status = DealStatus.DealStatusSendFundsLastPayment)
    (hmsg : deal.Message = "")
    (hreq : deal.PaymentRequested = owed deal)
    (hfunds : deal.FundsSpent + deal.PaymentRequested ≤ deal.TotalFunds)
    (hcreate : environment.CreateVoucher deal.PaymentInfo.PayCh deal.PaymentInfo.Lane
      (deal.FundsSpent + deal.PaymentRequested) = .ok voucher)
    (hsend : environment.SendDataTransferVoucher deal.ChannelID voucher = none) :
    ∃ d, SendFunds environment deal = some d ∧
      d.FundsSpent = deal.FundsSpent + deal.PaymentRequested ∧
      d.BytesPaidFor = deal.TotalReceived ∧
      d.PaymentRequested = 0 ∧
      (deal.CurrentInterval ≤ deal.TotalReceived - deal.BytesPaidFor →
        d.CurrentInterval = deal.CurrentInterval + deal.PaymentIntervalIncrease) ∧
      (deal.TotalReceived - deal.BytesPaidFor < deal.CurrentInterval →
        d.CurrentInterval = deal.CurrentInterval) ∧
      d.Message = "" ∧
      (deal.Status = DealStatus.DealStatusSendFunds →
        d.Status = DealStatus.DealStatusOngoing) ∧
      (deal.Status = DealStatus.DealStatusSendFundsLastPayment →
        d.Status = DealStatus.DealStatusFinalizing) := by
  refine ⟨_, SendFunds_eq_run environment deal hst, ?_⟩
  rw [SendFunds.run_settled environment deal _ voucher (le_of_eq hreq) hfunds hcreate hsend]
  refine ⟨rfl, ?_, rfl, ?_, ?_, hmsg, ?_, ?_⟩
  · show (if deal.PaymentRequested = owed deal then deal.TotalReceived else _) = _
    rw [if_pos hreq]
  · intro hb
    show (if deal.PaymentRequested = owed deal ∧
      deal.CurrentInterval ≤ deal.TotalReceived - deal.BytesPaidFor then _ else _) = _
    rw [if_pos ⟨hreq, hb⟩]
  · intro hb
    show (if deal.PaymentRequested = owed deal ∧
      deal.CurrentInterval ≤ deal.TotalReceived - deal.BytesPaidFor then _ else _) = _
    rw [if_neg (fun h => absurd h.2 (not_le.2 hb))]
  · intro h
    show (if deal.Status = DealStatus.DealStatusSendFunds then _ else _) = _
    rw [if_pos h]
  · intro h
    show (if deal.Status = DealStatus.DealStatusSendFunds then _ else _) = _
    rw [if_neg (by rw [h]; decide)]

/-- C8, amended, on the test "last payment" and on the final payment of 500
bytes: the default deal of `makeDealState` in `SendFundsLastPayment` pays
500000 for 1000 bytes, which reach the interval of 1000, and the interval
becomes 1500; the deal with 500 bytes unpaid pays 250000 and the interval
stays 1000; both end in `Finalizing` with an empty message. -/
theorem SendFunds_full_payment_witness :
    ((makeDealState DealStatus.DealStatusSendFundsLastPayment).Message = "" ∧
      (makeDealState DealStatus.DealStatusSendFundsLastPayment).PaymentRequested =
        owed (makeDealState DealStatus.DealStatusSendFundsLastPayment) ∧
      (fakeEnvironment none none).CreateVoucher none 0 3000000 = .ok testVoucher ∧
      (fakeEnvironment none none).SendDataTransferVoucher none testVoucher = none) ∧
    (∃ d, SendFunds (fakeEnvironment none none)
        (makeDealState DealStatus.DealStatusSendFundsLastPayment) = some d ∧
      d.FundsSpent = 2500000 + 500000 ∧
      d.BytesPaidFor = 6000 ∧
      d.PaymentRequested = 0 ∧
      d.CurrentInterval = 1000 + 500 ∧
      d.Message = "" ∧
      d.Status = DealStatus.DealStatusFinalizing) ∧
    (∃ d, SendFunds (fakeEnvironment none none) finalPaymentDeal = some d ∧
      d.FundsSpent = 2500000 + 250000 ∧
      d.BytesPaidFor = 5500 ∧
      d.PaymentRequested = 0 ∧
      d.CurrentInterval = 1000 ∧
      d.Message = "" ∧
      d.Status = DealStatus.DealStatusFinalizing) := by
  obtain ⟨d, hd, h1, h2, h3, h4, -, h5, -, h7⟩ :=
    SendFunds_full_payment (fakeEnvironment none none)
      (makeDealState DealStatus.DealStatusSendFundsLastPayment) testVoucher
      (Or.inr rfl) rfl (by decide) (by decide) rfl rfl
  obtain ⟨e, he, k1, k2, k3, -, k4, k5, -, k7⟩ :=
    SendFunds_full_payment (fakeEnvironment none none) finalPaymentDeal testVoucher
      (Or.inr rfl) rfl (by decide) (by decide) rfl rfl
  exact ⟨⟨rfl, by decide, rfl, rfl⟩,
    ⟨d, hd, h1, h2, h3, h4 (by decide), h5, h7 rfl⟩,
    ⟨e, he, k1, k2, k3, k4 (by decide), k5, k7 rfl⟩⟩

/-- The claim of C9 fails at two deals of `TestSendFunds` with 250000
requested, 500000 owed and funds sufficient: when creating the voucher fails
the deal ends in `Failing` with nothing paid, and when the deal carries the
message "Previous error" on entry it is paid and keeps that message. -/
theorem SendFunds_under_request_counterexample :
    (owed { makeDealState DealStatus.DealStatusSendFunds with PaymentRequested := 250000 }
        = 500000 ∧
      (∃ d, SendFunds (fakeEnvironment (some "Something Went Wrong") none)
          { makeDealState DealStatus.DealStatusSendFunds with PaymentRequested := 250000 }
            = some d ∧
        d.Status = DealStatus.DealStatusFailing ∧ d.FundsSpent = 2500000 ∧
        d.BytesPaidFor = 5000 ∧ d.PaymentRequested = 250000 ∧
        d.Message = "Something Went Wrong")) ∧
    (owed { makeDealState DealStatus.DealStatusSendFunds with
          PaymentRequested := 250000
          Message := "Previous error" } = 500000 ∧
      (∃ d, SendFunds (fakeEnvironment none none)
          { makeDealState DealStatus.DealStatusSendFunds with
            PaymentRequested := 250000
            Message := "Previous error" } = some d ∧
        d.Status = DealStatus.DealStatusOngoing ∧ d.FundsSpent = 2750000 ∧
        d.Message = "Previous error") ∧
      ¬ ∃ d, SendFunds (fakeEnvironment none none)
          { makeDealState DealStatus.DealStatusSendFunds with
            PaymentRequested := 250000
            Message := "Previous error" } = some d ∧
        d.FundsSpent = 2500000 + 250000 ∧ d.BytesPaidFor = 5000 + 500 ∧
        d.PaymentRequested = 0 ∧ d.CurrentInterval = 1000 ∧
        d.Status = DealStatus.DealStatusOngoing ∧ d.Message = "") := by
  refine ⟨⟨by decide, _, rfl, by decide, by decide, by decide, by decide, by decide⟩,
    by decide, ⟨_, rfl, by decide, by decide, by decide⟩, ?_⟩
  rintro ⟨d, hd, -, -, -, -, -, hmsg⟩
  have hrun : SendFunds (fakeEnvironment none none)
      { makeDealState DealStatus.DealStatusSendFunds with
        PaymentRequested := 250000
        Message := "Previous error" } =
      some (SendFunds.run (fakeEnvironment none none)
        { makeDealState DealStatus.DealStatusSendFunds with
          PaymentRequested := 250000
          Message := "Previous error" }
        DealStatus.DealStatusOngoing) := rfl
  rw [hrun] at hd
  injection hd with hd
  subst hd
  revert hmsg
  decide

/-- C9, amended: for every client deal in `SendFunds` with
`0 < payment-requested < owed`, with
`funds-spent + payment-requested <= total-funds` and with voucher creation
and sending succeeding, the handler pays exactly the payment requested:
funds-spent increases by it, bytes-paid-for increases by
`payment-requested / price-per-byte` and does not reach total-received,
payment-requested becomes 0, current-interval is unchanged, and the deal
returns to `Ongoing` with the message it had on entry (so empty when it was
empty). -/
theorem SendFunds_under_request (environment : ClientDealEnvironment)
    (deal : ClientDealState) (voucher : Voucher)
    (hst : deal.Status = DealStatus.DealStatusSendFunds)
    (hpos : 0 < deal.PaymentRequested)
    (hunder : deal.PaymentRequested < owed deal)
    (hfunds : deal.FundsSpent + deal.PaymentRequested ≤ deal.TotalFunds)
    (hcreate : environment.CreateVoucher deal.PaymentInfo.PayCh deal.PaymentInfo.Lane
      (deal.FundsSpent + deal.PaymentRequested) = .ok voucher)
    (hsend : environment.SendDataTransferVoucher deal.ChannelID voucher = none) :
    ∃ d, SendFunds environment deal = some d ∧
      d.FundsSpent = deal.FundsSpent + deal.PaymentRequested ∧
      (d.BytesPaidFor : Int) =
        (deal.BytesPaidFor : Int) + deal.PaymentRequested / deal.PricePerByte ∧
      d.BytesPaidFor ≠ deal.TotalReceived ∧
      d.PaymentRequested = 0 ∧
      d.CurrentInterval = deal.CurrentInterval ∧
      d.Status = DealStatus.DealStatusOngoing ∧
      d.Message = deal.Message := by
  refine ⟨_, SendFunds_eq_run environment deal (Or.inl hst), ?_⟩
  rw [SendFunds.run_settled environment deal _ voucher (le_of_lt hunder) hfunds hcreate hsend]
  obtain ⟨hnonneg, hne⟩ :=
    under_request_bytes deal.TotalReceived deal.BytesPaidFor deal.PricePerByte
      deal.PaymentRequested hpos hunder
  have hbytes : ((if deal.PaymentRequested = owed deal then deal.TotalReceived
      else Int.toNat ((deal.BytesPaidFor : Int) + deal.PaymentRequested / deal.PricePerByte) :
        Nat) : Int) = (deal.BytesPaidFor : Int) + deal.PaymentRequested / deal.PricePerByte := by
    rw [if_neg (ne_of_lt hunder)]
    exact Int.toNat_of_nonneg hnonneg
  refine ⟨rfl, hbytes, ?_, rfl, ?_, ?_, rfl⟩
  · intro hc
    apply hne
    rw [← hbytes]
    exact congrArg Int.ofNat hc
  · show (if deal.PaymentRequested = owed deal ∧
      deal.CurrentInterval ≤ deal.TotalReceived - deal.BytesPaidFor then _ else _) = _
    rw [if_neg (fun h => absurd h.1 (ne_of_lt hunder))]
  · show (if deal.Status = DealStatus.DealStatusSendFunds then _ else _) = _
    rw [if_pos hst]

/-- C9, amended, on the test "too little payment requested works but records
correctly": 250000 requested of 500000 owed pays for 500 bytes and leaves the
interval at 1000. -/
theorem SendFunds_under_request_witness :
    ((0 : Int) < 250000 ∧
      (250000 : Int) <
        owed { makeDealState DealStatus.DealStatusSendFunds with PaymentRequested := 250000 } ∧
      (fakeEnvironment none none).CreateVoucher none 0 2750000 = .ok testVoucher ∧
      (fakeEnvironment none none).SendDataTransferVoucher none testVoucher = none) ∧
    ∃ d, SendFunds (fakeEnvironment none none)
        { makeDealState DealStatus.DealStatusSendFunds with PaymentRequested := 250000 }
          = some d ∧
      d.FundsSpent = 2500000 + 250000 ∧
      (d.BytesPaidFor : Int) = ((5000 : Nat) : Int) + 250000 / 500 ∧
      d.BytesPaidFor ≠ 6000 ∧
      d.PaymentRequested = 0 ∧
      d.CurrentInterval = 1000 ∧
      d.Status = DealStatus.DealStatusOngoing ∧
      d.Message = "" :=
  ⟨⟨by decide, by decide, rfl, rfl⟩,
    SendFunds_under_request (fakeEnvironment none none)
      { makeDealState DealStatus.DealStatusSendFunds with PaymentRequested := 250000 }
      testVoucher rfl (by decide) (by decide) (by decide) rfl rfl⟩

/-- C10: for every client deal in `SendFunds` (or `SendFundsLastPayment`)
whose payment requested does not exceed what is owed, if
`funds-spent + pay > total-funds` with `pay = min(payment-requested, owed)`,
in particular whenever funds-spent equals total-funds and a positive payment
is requested, the handler moves the deal to `Failing` with a non-empty message
and leaves funds-spent unchanged. -/
theorem SendFunds_insufficient_funds (environment : ClientDealEnvironment)
    (deal : ClientDealState)
    (hst : deal.Status = DealStatus.DealStatusSendFunds ∨
      deal.Status = DealStatus.DealStatusSendFundsLastPayment)
    (hle : deal.PaymentRequested ≤ owed deal) :
    (deal.TotalFunds < deal.FundsSpent + min deal.PaymentRequested (owed deal) →
      ∃ d, SendFunds environment deal = some d ∧
        d.Status = DealStatus.DealStatusFailing ∧ d.Message ≠ "" ∧
        d.FundsSpent = deal.FundsSpent) ∧
    (deal.FundsSpent = deal.TotalFunds → 0 < deal.PaymentRequested →
      ∃ d, SendFunds environment deal = some d ∧
        d.Status = DealStatus.DealStatusFailing ∧ d.Message ≠ "" ∧
        d.FundsSpent = deal.FundsSpent) := by
  have main : deal.TotalFunds < deal.FundsSpent + min deal.PaymentRequested (owed deal) →
      ∃ d, SendFunds environment deal = some d ∧
        d.Status = DealStatus.DealStatusFailing ∧ d.Message ≠ "" ∧
        d.FundsSpent = deal.FundsSpent := by
    intro hfunds
    refine ⟨_, SendFunds_eq_run environment deal hst, ?_⟩
    rw [SendFunds.run_insufficient_funds environment deal _ hle hfunds]
    refine ⟨rfl, ?_, rfl⟩
    show "insufficient funds" ≠ ""
    decide
  refine ⟨main, fun heq hpos => main ?_⟩
  rw [min_eq_left hle, heq]
  omega

/-- C10 on the test "not enough funds left": funds-spent equals total-funds
(4000000) and 500000 is requested and owed. -/
theorem SendFunds_insufficient_funds_witness :
    ({ makeDealState DealStatus.DealStatusSendFunds with FundsSpent := 4000000 } :
          ClientDealState).PaymentRequested ≤
        owed { makeDealState DealStatus.DealStatusSendFunds with FundsSpent := 4000000 } ∧
    ∃ d, SendFunds (fakeEnvironment none none)
        { makeDealState DealStatus.DealStatusSendFunds with FundsSpent := 4000000 } = some d ∧
      d.Status = DealStatus.DealStatusFailing ∧ d.Message ≠ "" ∧
      d.FundsSpent = 4000000 :=
  ⟨by decide,
    (SendFunds_insufficient_funds (fakeEnvironment none none)
      { makeDealState DealStatus.DealStatusSendFunds with FundsSpent := 4000000 }
      (Or.inl rfl) (by decide)).2 rfl (by decide)⟩

end clientstates

namespace clientstates

open retrievalmarket

/-! ### Invariants of the payment handler -/

/-- A request below what is owed at a non-negative price buys bytes that stay
within the bytes received. -/
theorem under_request_bytes_le (tr bpf : Nat) (p r : Int) (hle : bpf ≤ tr)
    (hsign : 0 ≤ p ∨ 0 ≤ r) (h : r < ((tr : Int) - (bpf : Int)) * p) :
    Int.toNat ((bpf : Int) + r / p) ≤ tr := by
  have hd : (0 : Int) ≤ (tr : Int) - (bpf : Int) := by omega
  rcases lt_trichotomy p 0 with hp | hp | hp
  · exfalso
    have hr : 0 ≤ r := by
      rcases hsign with h1 | h1
      · omega
      · exact h1
    have hprod : ((tr : Int) - (bpf : Int)) * p ≤ 0 :=
      mul_nonpos_of_nonneg_of_nonpos hd (le_of_lt hp)
    omega
  · subst hp
    simp at h ⊢
    exact hle
  · have h3 : r / p < (tr : Int) - (bpf : Int) := Int.ediv_lt_of_lt_mul hp h
    omega

theorem SendFunds.run_preserves_invariants (environment : ClientDealEnvironment)
    (deal : ClientDealState) (next : DealStatus)
    (hsign : 0 ≤ deal.PricePerByte ∨ 0 ≤ deal.PaymentRequested)
    (hbytes : deal.BytesPaidFor ≤ deal.TotalReceived)
    (hfunds : deal.FundsSpent ≤ deal.TotalFunds) :
    (SendFunds.run environment deal next).BytesPaidFor ≤
        (SendFunds.run environment deal next).TotalReceived ∧
      (SendFunds.run environment deal next).FundsSpent ≤
        (SendFunds.run environment deal next).TotalFunds := by
  unfold SendFunds.run
  by_cases h1 : deal.PaymentRequested > owed deal
  · rw [if_pos h1]
    exact ⟨hbytes, hfunds⟩
  · rw [if_neg h1]
    have hle : deal.PaymentRequested ≤ owed deal := not_lt.1 h1
    simp only [min_eq_left hle]
    by_cases h2 : deal.FundsSpent + deal.PaymentRequested > deal.TotalFunds
    · rw [if_pos h2]
      exact ⟨hbytes, hfunds⟩
    · rw [if_neg h2]
      cases hcreate : environment.CreateVoucher deal.PaymentInfo.PayCh deal.PaymentInfo.Lane
          (deal.FundsSpent + deal.PaymentRequested) with
      | error err => exact ⟨hbytes, hfunds⟩
      | ok voucher =>
        simp only
        cases hsend : environment.SendDataTransferVoucher deal.ChannelID voucher with
        | some err => exact ⟨hbytes, hfunds⟩
        | none =>
          simp only
          refine ⟨?_, not_lt.1 h2⟩
          show (if deal.PaymentRequested = owed deal then deal.TotalReceived
            else Int.toNat ((deal.BytesPaidFor : Int) +
              deal.PaymentRequested / deal.PricePerByte)) ≤ deal.TotalReceived
          split_ifs with h3
          · exact le_refl _
          · exact under_request_bytes_le deal.TotalReceived deal.BytesPaidFor
              deal.PricePerByte deal.PaymentRequested hbytes hsign
              (lt_of_le_of_ne hle h3)

theorem SendFunds.run_settled_of_status (environment : ClientDealEnvironment)
    (deal : ClientDealState) (next : DealStatus)
    (hstatus : (SendFunds.run environment deal next).Status ≠ DealStatus.DealStatusFailing ∧
      (SendFunds.run environment deal next).Status ≠ DealStatus.DealStatusErrored) :
    deal.PaymentRequested ≤ owed deal ∧
      deal.FundsSpent + deal.PaymentRequested ≤ deal.TotalFunds ∧
      ∃ voucher,
        environment.CreateVoucher deal.PaymentInfo.PayCh deal.PaymentInfo.Lane
          (deal.FundsSpent + deal.PaymentRequested) = .ok voucher ∧
        environment.SendDataTransferVoucher deal.ChannelID voucher = none := by
  obtain ⟨hf, he⟩ := hstatus
  by_cases h1 : deal.PaymentRequested > owed deal
  · rw [SendFunds.run_over_request environment deal next h1] at hf
    exact absurd rfl hf
  · have hle : deal.PaymentRequested ≤ owed deal := not_lt.1 h1
    by_cases h2 : deal.TotalFunds < deal.FundsSpent + min deal.PaymentRequested (owed deal)
    · rw [SendFunds.run_insufficient_funds environment deal next hle h2] at hf
      exact absurd rfl hf
    · rw [min_eq_left hle] at h2
      refine ⟨hle, not_lt.1 h2, ?_⟩
      unfold SendFunds.run at hf he
      rw [if_neg h1] at hf he
      simp only [min_eq_left hle] at hf he
      rw [if_neg h2] at hf he
      cases hcreate : environment.CreateVoucher deal.PaymentInfo.PayCh deal.PaymentInfo.Lane
          (deal.FundsSpent + deal.PaymentRequested) with
      | error err =>
        rw [hcreate] at hf
        exact absurd rfl hf
      | ok voucher =>
        rw [hcreate] at he
        simp only at he
        cases hsend : environment.SendDataTransferVoucher deal.ChannelID voucher with
        | some err =>
          rw [hsend] at he
          exact absurd rfl he
        | none => exact ⟨voucher, rfl, hsend⟩

/-- C11: if a client deal satisfies `bytes-paid-for <= total-received` and
`funds-spent <= total-funds` before the `SendFunds` handler runs, it
satisfies both inequalities after the handler, whatever the environment
answers, that is for every outcome (payment settled, `Failing` or `Errored`);
and from `SendFunds` and `SendFundsLastPayment` the handler does produce an
outcome. The deal's token amounts are amounts of money, so not negative: of
this the proof uses only that the price per byte or the payment requested is
not negative. -/
theorem SendFunds_preserves_invariants (environment : ClientDealEnvironment)
    (deal : ClientDealState)
    (hsign : 0 ≤ deal.PricePerByte ∨ 0 ≤ deal.PaymentRequested)
    (hbytes : deal.BytesPaidFor ≤ deal.TotalReceived)
    (hfunds : deal.FundsSpent ≤ deal.TotalFunds) :
    (deal.Status = DealStatus.DealStatusSendFunds ∨
        deal.Status = DealStatus.DealStatusSendFundsLastPayment →
      ∃ d, SendFunds environment deal = some d) ∧
    ∀ d, SendFunds environment deal = some d →
      d.BytesPaidFor ≤ d.TotalReceived ∧ d.FundsSpent ≤ d.TotalFunds := by
  refine ⟨fun hst => ⟨_, SendFunds_eq_run environment deal hst⟩, ?_⟩
  intro d hd
  unfold SendFunds at hd
  split at hd
  · injection hd with hd
    subst hd
    exact SendFunds.run_preserves_invariants environment deal _ hsign hbytes hfunds
  · injection hd with hd
    subst hd
    exact SendFunds.run_preserves_invariants environment deal _ hsign hbytes hfunds
  · cases hd

/-- C11 on three runs of `TestSendFunds` from the default deal: the
payment settles, the voucher cannot be created (`Failing`), the voucher
cannot be sent (`Errored`); both inequalities hold after each. -/
theorem SendFunds_preserves_invariants_witness :
    ((0 : Int) ≤ 500 ∧ (5000 : Nat) ≤ 6000 ∧ (2500000 : Int) ≤ 4000000) ∧
    (∃ d, SendFunds (fakeEnvironment none none)
        (makeDealState DealStatus.DealStatusSendFunds) = some d ∧
      d.Status = DealStatus.DealStatusOngoing ∧
      d.BytesPaidFor ≤ d.TotalReceived ∧ d.FundsSpent ≤ d.TotalFunds) ∧
    (∃ d, SendFunds (fakeEnvironment (some "Something Went Wrong") none)
        (makeDealState DealStatus.DealStatusSendFunds) = some d ∧
      d.Status = DealStatus.DealStatusFailing ∧
      d.BytesPaidFor ≤ d.TotalReceived ∧ d.FundsSpent ≤ d.TotalFunds) ∧
    (∃ d, SendFunds (fakeEnvironment none (some "something went wrong"))
        (makeDealState DealStatus.DealStatusSendFunds) = some d ∧
      d.Status = DealStatus.DealStatusErrored ∧
      d.BytesPaidFor ≤ d.TotalReceived ∧ d.FundsSpent ≤ d.TotalFunds) :=
  ⟨⟨by decide, by decide, by decide⟩,
    ⟨_, rfl, by decide,
      (SendFunds_preserves_invariants (fakeEnvironment none none)
        (makeDealState DealStatus.DealStatusSendFunds)
        (Or.inl (by decide)) (by decide) (by decide)).2 _ rfl⟩,
    ⟨_, rfl, by decide,
      (SendFunds_preserves_invariants (fakeEnvironment (some "Something Went Wrong") none)
        (makeDealState DealStatus.DealStatusSendFunds)
        (Or.inl (by decide)) (by decide) (by decide)).2 _ rfl⟩,
    ⟨_, rfl, by decide,
      (SendFunds_preserves_invariants (fakeEnvironment none (some "something went wrong"))
        (makeDealState DealStatus.DealStatusSendFunds)
        (Or.inl (by decide)) (by decide) (by decide)).2 _ rfl⟩⟩

/-- The claim of C12 fails on the test "too little payment requested works
but records correctly": 250000 is requested while 500000 is owed, the payment
settles into `Ongoing`, and bytes-paid-for is 5500 while total-received is
6000. -/
theorem SendFunds_settled_payment_counterexample :
    ∃ d, SendFunds (fakeEnvironment none none)
        { makeDealState DealStatus.DealStatusSendFunds with PaymentRequested := 250000 }
          = some d ∧
      d.Status = DealStatus.DealStatusOngoing ∧
      d.FundsSpent = 2500000 + 250000 ∧
      d.BytesPaidFor = 5500 ∧ d.TotalReceived = 6000 ∧
      d.BytesPaidFor ≠ d.TotalReceived :=
  ⟨_, rfl, by decide, by decide, by decide, by decide, by decide⟩

/-- C12, amended: on each settled payment (every `SendFunds` run that ends in
`Ongoing` or `Finalizing`) the payment requested does not exceed what is
owed, a voucher for the new funds-spent was created and sent, funds-spent has
increased by exactly the payment requested, and bytes-paid-for equals
total-received when the payment requested equals what is owed; when less than
what is owed was requested, bytes-paid-for is instead the former
bytes-paid-for plus `payment-requested / price-per-byte`. -/
theorem SendFunds_settled_payment (environment : ClientDealEnvironment)
    (deal d : ClientDealState)
    (hrun : SendFunds environment deal = some d)
    (hst : d.Status = DealStatus.DealStatusOngoing ∨
      d.Status = DealStatus.DealStatusFinalizing) :
    deal.PaymentRequested ≤ owed deal ∧
      (∃ voucher,
        environment.CreateVoucher deal.PaymentInfo.PayCh deal.PaymentInfo.Lane d.FundsSpent
          = .ok voucher ∧
        environment.SendDataTransferVoucher deal.ChannelID voucher = none) ∧
      d.FundsSpent = deal.FundsSpent + deal.PaymentRequested ∧
      d.TotalReceived = deal.TotalReceived ∧
      (deal.PaymentRequested = owed deal → d.BytesPaidFor = deal.TotalReceived) ∧
      (deal.PaymentRequested < owed deal →
        d.BytesPaidFor =
          Int.toNat ((deal.BytesPaidFor : Int) + deal.PaymentRequested / deal.PricePerByte)) := by
  have key : ∀ next, d = SendFunds.run environment deal next →
      deal.PaymentRequested ≤ owed deal ∧
      (∃ voucher,
        environment.CreateVoucher deal.PaymentInfo.PayCh deal.PaymentInfo.Lane d.FundsSpent
          = .ok voucher ∧
        environment.SendDataTransferVoucher deal.ChannelID voucher = none) ∧
      d.FundsSpent = deal.FundsSpent + deal.PaymentRequested ∧
      d.TotalReceived = deal.TotalReceived ∧
      (deal.PaymentRequested = owed deal → d.BytesPaidFor = deal.TotalReceived) ∧
      (deal.PaymentRequested < owed deal →
        d.BytesPaidFor =
          Int.toNat ((deal.BytesPaidFor : Int) +
            deal.PaymentRequested / deal.PricePerByte)) := by
    intro next hd
    have hstatus : (SendFunds.run environment deal next).Status ≠
          DealStatus.DealStatusFailing ∧
        (SendFunds.run environment deal next).Status ≠ DealStatus.DealStatusErrored := by
      rw [← hd]
      rcases hst with h | h <;> rw [h] <;> exact ⟨by decide, by decide⟩
    obtain ⟨hle, hfunds, voucher, hcreate, hsend⟩ :=
      SendFunds.run_settled_of_status environment deal next hstatus
    rw [SendFunds.run_settled environment deal next voucher hle hfunds hcreate hsend] at hd
    subst hd
    refine ⟨hle, ⟨voucher, hcreate, hsend⟩, rfl, rfl, ?_, ?_⟩
    · intro h
      show (if deal.PaymentRequested = owed deal then deal.TotalReceived else _) = _
      rw [if_pos h]
    · intro h
      show (if deal.PaymentRequested = owed deal then deal.TotalReceived else _) = _
      rw [if_neg (ne_of_lt h)]
  unfold SendFunds at hrun
  split at hrun
  · injection hrun with hrun
    exact key _ hrun.symm
  · injection hrun with hrun
    exact key _ hrun.symm
  · cases hrun

/-- C12, amended, on the tests "it works" (500000 requested and owed:
bytes-paid-for becomes total-received, 6000) and "too little payment
requested" (250000 requested: bytes-paid-for becomes 5500). -/
theorem SendFunds_settled_payment_witness :
    (∃ d, SendFunds (fakeEnvironment none none)
        (makeDealState DealStatus.DealStatusSendFunds) = some d ∧
      d.Status = DealStatus.DealStatusOngoing ∧
      d.FundsSpent = 2500000 + 500000 ∧ d.BytesPaidFor = 6000) ∧
    (∃ d, SendFunds (fakeEnvironment none none)
        { makeDealState DealStatus.DealStatusSendFunds with PaymentRequested := 250000 }
          = some d ∧
      d.Status = DealStatus.DealStatusOngoing ∧
      d.FundsSpent = 2500000 + 250000 ∧
      d.BytesPaidFor = Int.toNat (((5000 : Nat) : Int) + 250000 / 500)) := by
  refine ⟨⟨_, rfl, by decide, ?_, ?_⟩, ⟨_, rfl, by decide, ?_, ?_⟩⟩
  · exact (SendFunds_settled_payment (fakeEnvironment none none)
      (makeDealState DealStatus.DealStatusSendFunds) _ rfl (Or.inl (by decide))).2.2.1
  · exact (SendFunds_settled_payment (fakeEnvironment none none)
      (makeDealState DealStatus.DealStatusSendFunds) _ rfl
      (Or.inl (by decide))).2.2.2.2.1 (by decide)
  · exact (SendFunds_settled_payment (fakeEnvironment none none)
      { makeDealState DealStatus.DealStatusSendFunds with PaymentRequested := 250000 }
      _ rfl (Or.inl (by decide))).2.2.1
  · exact (SendFunds_settled_payment (fakeEnvironment none none)
      { makeDealState DealStatus.DealStatusSendFunds with PaymentRequested := 250000 }
      _ rfl (Or.inl (by decide))).2.2.2.2.2 (by decide)

/-! ### Decision handlers -/

/-- C19: for every client deal in status `Ongoing`, the `Ongoing` handler
leaves the deal as it is (status `Ongoing`) if payment-requested is 0;
otherwise it moves the deal to `FundsNeededLastPayment` if
last-payment-requested is true and to `FundsNeeded` if it is false; the
status is the only field that changes. -/
theorem Ongoing_decides (deal : ClientDealState)
    (hst : deal.Status = DealStatus.DealStatusOngoing) :
    (deal.PaymentRequested = 0 →
      Ongoing deal = some deal ∧ deal.Status = DealStatus.DealStatusOngoing) ∧
    (deal.PaymentRequested ≠ 0 → deal.LastPaymentRequested = true →
      Ongoing deal =
        some { deal with Status := DealStatus.DealStatusFundsNeededLastPayment }) ∧
    (deal.PaymentRequested ≠ 0 → deal.LastPaymentRequested = false →
      Ongoing deal = some { deal with Status := DealStatus.DealStatusFundsNeeded }) := by
  refine ⟨fun h0 => ⟨?_, hst⟩, fun h0 hl => ?_, fun h0 hl => ?_⟩
  · simp [Ongoing, hst, h0]
  · simp [Ongoing, hst, h0, hl]
  · simp [Ongoing, hst, h0, hl]

/-- C19 on the three cases of `TestOngoing`: nothing requested, 500000
requested, 500000 requested as last payment. -/
theorem Ongoing_decides_witness :
    Ongoing { makeDealState DealStatus.DealStatusOngoing with PaymentRequested := 0 } =
        some { makeDealState DealStatus.DealStatusOngoing with PaymentRequested := 0 } ∧
      Ongoing (makeDealState DealStatus.DealStatusOngoing) =
        some (makeDealState DealStatus.DealStatusFundsNeeded) ∧
      Ongoing { makeDealState DealStatus.DealStatusOngoing with LastPaymentRequested := true } =
        some { makeDealState DealStatus.DealStatusFundsNeededLastPayment with
          LastPaymentRequested := true } :=
  ⟨((Ongoing_decides
      { makeDealState DealStatus.DealStatusOngoing with PaymentRequested := 0 } rfl).1 rfl).1,
    (Ongoing_decides (makeDealState DealStatus.DealStatusOngoing) rfl).2.2 (by decide) rfl,
    (Ongoing_decides
      { makeDealState DealStatus.DealStatusOngoing with LastPaymentRequested := true }
      rfl).2.1 (by decide) rfl⟩

end clientstates

/-! ### CBOR headers -/

namespace cbg

theorem CborReadHeader_CborEncodeMajorType (t l : Nat) (rest : List Nat) (ht : t < 8)
    (hl : l < 18446744073709551616) :
    CborReadHeader (CborEncodeMajorType t l ++ rest) = .ok (t, l, rest) := by
  have hm : t * 32 % 256 = t * 32 := by omega
  unfold CborEncodeMajorType
  rw [hm]
  split_ifs with h1 h2 h3 h4
  · simp only [List.cons_append, List.nil_append, CborReadHeader]
    have e1 : (t * 32 + l) % 32 = l := by omega
    have e2 : (t * 32 + l) / 32 % 8 = t := by omega
    simp [e1, e2, h1]
  · simp only [List.cons_append, List.nil_append, CborReadHeader]
    have e1 : (t * 32 + 24) % 32 = 24 := by omega
    have e2 : (t * 32 + 24) / 32 % 8 = t := by omega
    simp [e1, e2, h1]
  · simp only [List.cons_append, List.nil_append, CborReadHeader]
    have e1 : (t * 32 + 25) % 32 = 25 := by omega
    have e2 : (t * 32 + 25) / 32 % 8 = t := by omega
    have e3 : l / 256 % 256 * 256 + l % 256 = l := by omega
    simp [e1, e2, e3]
    omega
  · simp only [List.cons_append, List.nil_append, CborReadHeader]
    have e1 : (t * 32 + 26) % 32 = 26 := by omega
    have e2 : (t * 32 + 26) / 32 % 8 = t := by omega
    have e3 : ((l / 16777216 % 256 * 256 + l / 65536 % 256) * 256 + l / 256 % 256) * 256
        + l % 256 = l := by omega
    simp [e1, e2, e3]
    omega
  · simp only [List.cons_append, List.nil_append, CborReadHeader]
    have e1 : (t * 32 + 27) % 32 = 27 := by omega
    have e2 : (t * 32 + 27) / 32 % 8 = t := by omega
    have e3 : ((((((l / 72057594037927936 % 256 * 256 + l / 281474976710656 % 256) * 256
        + l / 1099511627776 % 256) * 256 + l / 4294967296 % 256) * 256
        + l / 16777216 % 256) * 256 + l / 65536 % 256) * 256 + l / 256 % 256) * 256
        + l % 256 = l := by omega
    simp [e1, e2, e3]
    omega

/-- The header written by the library is the CBOR head of the specification. -/
theorem CborEncodeMajorType_eq_head (t l : Nat) (ht : t < 8) :
    CborEncodeMajorType t l = cborspec.head t l := by
  have hm : t * 32 % 256 = t * 32 := by omega
  unfold CborEncodeMajorType cborspec.head
  rw [hm]
  split_ifs <;> simp [cborspec.bigEndian] <;> omega

theorem CborReadHeader_head (t l : Nat) (rest : List Nat) (ht : t < 8)
    (hl : l < 18446744073709551616) :
    CborReadHeader (cborspec.head t l ++ rest) = .ok (t, l, rest) := by
  rw [← CborEncodeMajorType_eq_head t l ht]
  exact CborReadHeader_CborEncodeMajorType t l rest ht hl

end cbg

theorem gio.ReadFull_append (bs rest : List Nat) :
    gio.ReadFull (bs ++ rest) bs.length = .ok (bs, rest) := by
  simp [gio.ReadFull]

/-! ### Piece store: what is written -/

namespace piecestore

open cbg gio

theorem DealInfo_MarshalCBOR_buffer (d : DealInfo) (s : List Nat) :
    DealInfo.MarshalCBOR (some d) bufferWriter s = .ok (s ++ d.wire) := by
  have h0 : cborspec.arrayHead 4 = [132] := by decide
  simp [DealInfo.MarshalCBOR, bufferWriter, DealInfo.wire, bind, Except.bind, pure,
    Except.pure, h0, cborspec.unsignedInt,
    CborEncodeMajorType_eq_head 0 _ (by decide), MajUnsignedInt]

theorem DealInfo_MarshalCBOR_ok_of_writer {σ : Type} (d : DealInfo) (w : Writer σ) (s : σ)
    (hw : ∀ s p, ∃ s1, w.Write s p = .ok s1) :
    ∃ s1, DealInfo.MarshalCBOR (some d) w s = .ok s1 := by
  obtain ⟨s1, h1⟩ := hw s [132]
  obtain ⟨s2, h2⟩ := hw s1 (CborEncodeMajorType MajUnsignedInt d.DealID)
  obtain ⟨s3, h3⟩ := hw s2 (CborEncodeMajorType MajUnsignedInt d.SectorID)
  obtain ⟨s4, h4⟩ := hw s3 (CborEncodeMajorType MajUnsignedInt d.Offset)
  obtain ⟨s5, h5⟩ := hw s4 (CborEncodeMajorType MajUnsignedInt d.Length)
  exact ⟨s5, by
    simp [DealInfo.MarshalCBOR, bind, Except.bind, pure, Except.pure, h1, h2, h3, h4, h5]⟩

theorem DealInfo_UnmarshalCBOR_wire (d t : DealInfo) (rest : List Nat)
    (hd : d.isUint64) :
    DealInfo.UnmarshalCBOR t (d.wire ++ rest) = .ok (d, rest) := by
  obtain ⟨h1, h2, h3, h4⟩ := hd
  unfold DealInfo.wire DealInfo.UnmarshalCBOR
  simp only [cborspec.arrayHead, cborspec.unsignedInt, List.append_assoc]
  simp [bind, Except.bind, pure, Except.pure, MajArray, MajUnsignedInt,
    CborReadHeader_head _ _ _ (by decide : 4 < 8) (by decide : 4 < 18446744073709551616),
    CborReadHeader_head _ _ _ (by decide : 0 < 8) h1,
    CborReadHeader_head _ _ _ (by decide : 0 < 8) h2,
    CborReadHeader_head _ _ _ (by decide : 0 < 8) h3,
    CborReadHeader_head _ _ _ (by decide : 0 < 8) h4]

theorem PieceInfo_MarshalCBOR_loop_buffer (deals : List DealInfo) :
    ∀ s, cbor.PieceInfo.MarshalCBOR.loop bufferWriter deals s =
      .ok (s ++ (deals.map DealInfo.wire).flatten) := by
  induction deals with
  | nil => intro s; simp [cbor.PieceInfo.MarshalCBOR.loop]
  | cons d t ih =>
    intro s
    simp [cbor.PieceInfo.MarshalCBOR.loop, DealInfo_MarshalCBOR_buffer, bind, Except.bind, ih]

theorem PieceInfo_UnmarshalCBOR_loop_wire (deals : List DealInfo)
    (hd : ∀ d ∈ deals, d.isUint64) (rest : List Nat) :
    cbor.PieceInfo.UnmarshalCBOR.loop deals.length
        ((deals.map DealInfo.wire).flatten ++ rest) = .ok (deals, rest) := by
  induction deals with
  | nil => simp [cbor.PieceInfo.UnmarshalCBOR.loop]
  | cons d t ih =>
    have h1 : d.isUint64 := hd d (List.mem_cons_self d t)
    have h2 : ∀ x ∈ t, x.isUint64 := fun x hx => hd x (List.mem_cons_of_mem d hx)
    have e : ((d :: t).map DealInfo.wire).flatten ++ rest =
        d.wire ++ ((t.map DealInfo.wire).flatten ++ rest) := by
      simp
    rw [e]
    simp [cbor.PieceInfo.UnmarshalCBOR.loop, DealInfo_UnmarshalCBOR_wire _ _ _ h1, bind,
      Except.bind, pure, Except.pure, ih h2]

theorem PieceInfo_MarshalCBOR_buffer (p : cbor.PieceInfo) (s : List Nat)
    (h1 : p.PieceCID.length ≤ ByteArrayMaxLen) (h2 : p.Deals.length ≤ MaxLength) :
    cbor.PieceInfo.MarshalCBOR (some p) bufferWriter s = .ok (s ++ p.wire) := by
  have hloop := PieceInfo_MarshalCBOR_loop_buffer p.Deals
  simp only [bufferWriter] at hloop
  have h0 : cborspec.head 4 2 = [130] := by decide
  simp [cbor.PieceInfo.MarshalCBOR, bufferWriter, bind, Except.bind, pure, Except.pure,
    not_lt.2 h1, not_lt.2 h2, cbor.PieceInfo.wire, hloop, h0, cborspec.byteString,
    CborEncodeMajorType_eq_head 2 _ (by decide),
    CborEncodeMajorType_eq_head 4 _ (by decide), MajByteString, MajArray,
    cborspec.arrayHead]

theorem PieceInfo_MarshalCBOR_ok_bounds (p : cbor.PieceInfo) (s out : List Nat)
    (h : cbor.PieceInfo.MarshalCBOR (some p) bufferWriter s = .ok out) :
    p.PieceCID.length ≤ ByteArrayMaxLen ∧ p.Deals.length ≤ MaxLength := by
  by_cases h1 : p.PieceCID.length > ByteArrayMaxLen
  · simp [cbor.PieceInfo.MarshalCBOR, bufferWriter, bind, Except.bind, pure, Except.pure, h1,
      throw, throwThe, MonadExceptOf.throw] at h
  · by_cases h2 : p.Deals.length > MaxLength
    · simp [cbor.PieceInfo.MarshalCBOR, bufferWriter, bind, Except.bind, pure, Except.pure, h1,
        h2, throw, throwThe, MonadExceptOf.throw] at h
    · exact ⟨not_lt.1 h1, not_lt.1 h2⟩

theorem PieceInfo_UnmarshalCBOR_wire (p : cbor.PieceInfo) (rest : List Nat)
    (h1 : p.PieceCID.length ≤ ByteArrayMaxLen) (h2 : p.Deals.length ≤ MaxLength)
    (hd : ∀ d ∈ p.Deals, d.isUint64) :
    cbor.PieceInfo.UnmarshalCBOR ⟨[], []⟩ (p.wire ++ rest) = .ok (p, rest) := by
  have hb1 : p.PieceCID.length < 18446744073709551616 := by
    have : ByteArrayMaxLen = 2097152 := rfl
    omega
  have hb2 : p.Deals.length < 18446744073709551616 := by
    have : MaxLength = 8192 := rfl
    omega
  unfold cbor.PieceInfo.wire cbor.PieceInfo.UnmarshalCBOR
  simp only [cborspec.arrayHead, cborspec.byteString, List.append_assoc]
  simp [bind, Except.bind, pure, Except.pure, MajArray, MajByteString,
    CborReadHeader_head _ _ _ (by decide : 4 < 8) (by decide : 2 < 18446744073709551616),
    CborReadHeader_head _ _ _ (by decide : 2 < 8) hb1,
    CborReadHeader_head _ _ _ (by decide : 4 < 8) hb2,
    not_lt.2 h1, not_lt.2 h2, ReadFull_append,
    PieceInfo_UnmarshalCBOR_loop_wire _ hd]

theorem BlockLocation_MarshalCBOR_buffer (b : BlockLocation) (s : List Nat) :
    BlockLocation.MarshalCBOR (some b) bufferWriter s = .ok (s ++ b.wire) := by
  have h0 : cborspec.arrayHead 2 = [130] := by decide
  simp [BlockLocation.MarshalCBOR, bufferWriter, BlockLocation.wire, bind, Except.bind, pure,
    Except.pure, h0, cborspec.unsignedInt,
    CborEncodeMajorType_eq_head 0 _ (by decide), MajUnsignedInt]

theorem BlockLocation_UnmarshalCBOR_wire (b t : BlockLocation) (rest : List Nat)
    (hb : b.isUint64) :
    BlockLocation.UnmarshalCBOR t (b.wire ++ rest) = .ok (b, rest) := by
  obtain ⟨h1, h2⟩ := hb
  unfold BlockLocation.wire BlockLocation.UnmarshalCBOR
  simp only [cborspec.arrayHead, cborspec.unsignedInt, List.append_assoc]
  simp [bind, Except.bind, pure, Except.pure, MajArray, MajUnsignedInt,
    CborReadHeader_head _ _ _ (by decide : 4 < 8) (by decide : 2 < 18446744073709551616),
    CborReadHeader_head _ _ _ (by decide : 0 < 8) h1,
    CborReadHeader_head _ _ _ (by decide : 0 < 8) h2]

theorem PieceBlockLocation_MarshalCBOR_buffer (l : cbor.PieceBlockLocation) (s : List Nat)
    (h1 : l.PieceCID.length ≤ ByteArrayMaxLen) :
    cbor.PieceBlockLocation.MarshalCBOR (some l) bufferWriter s = .ok (s ++ l.wire) := by
  have hb := BlockLocation_MarshalCBOR_buffer l.BlockLocation
  simp only [bufferWriter] at hb
  have h0 : cborspec.arrayHead 2 = [130] := by decide
  simp [cbor.PieceBlockLocation.MarshalCBOR, bufferWriter, bind, Except.bind, pure, Except.pure,
    not_lt.2 h1, cbor.PieceBlockLocation.wire, hb, h0, cborspec.byteString,
    CborEncodeMajorType_eq_head 2 _ (by decide), MajByteString]

theorem PieceBlockLocation_MarshalCBOR_ok_bound (l : cbor.PieceBlockLocation)
    (s out : List Nat)
    (h : cbor.PieceBlockLocation.MarshalCBOR (some l) bufferWriter s = .ok out) :
    l.PieceCID.length ≤ ByteArrayMaxLen := by
  by_contra h1
  have hb := BlockLocation_MarshalCBOR_buffer l.BlockLocation
  simp only [bufferWriter] at hb
  simp [cbor.PieceBlockLocation.MarshalCBOR, bufferWriter, bind, Except.bind, pure, Except.pure,
    not_le.1 h1, throw, throwThe, MonadExceptOf.throw, hb] at h

theorem PieceBlockLocation_UnmarshalCBOR_wire (l t : cbor.PieceBlockLocation)
    (rest : List Nat) (h1 : l.PieceCID.length ≤ ByteArrayMaxLen)
    (hb : l.BlockLocation.isUint64) :
    cbor.PieceBlockLocation.UnmarshalCBOR t (l.wire ++ rest) = .ok (l, rest) := by
  have hb1 : l.PieceCID.length < 18446744073709551616 := by
    have : ByteArrayMaxLen = 2097152 := rfl
    omega
  unfold cbor.PieceBlockLocation.wire cbor.PieceBlockLocation.UnmarshalCBOR
  simp only [cborspec.arrayHead, cborspec.byteString, List.append_assoc]
  simp [bind, Except.bind, pure, Except.pure, MajArray, MajByteString,
    CborReadHeader_head _ _ _ (by decide : 4 < 8) (by decide : 2 < 18446744073709551616),
    CborReadHeader_head _ _ _ (by decide : 2 < 8) hb1,
    BlockLocation_UnmarshalCBOR_wire _ _ _ hb,
    not_lt.2 h1, ReadFull_append]

theorem CIDInfo_MarshalCBOR_loop_buffer (ls : List cbor.PieceBlockLocation) :
    ∀ s out, cbor.CIDInfo.MarshalCBOR.loop bufferWriter ls s = .ok out →
      (∀ l ∈ ls, l.PieceCID.length ≤ ByteArrayMaxLen) ∧
        out = s ++ (ls.map cbor.PieceBlockLocation.wire).flatten := by
  induction ls with
  | nil =>
    intro s out h
    simp [cbor.CIDInfo.MarshalCBOR.loop] at h ⊢
    exact h.symm
  | cons a t ih =>
    intro s out h
    rw [cbor.CIDInfo.MarshalCBOR.loop] at h
    cases ha : cbor.PieceBlockLocation.MarshalCBOR (some a) bufferWriter s with
    | error err => simp [ha, bind, Except.bind] at h
    | ok s1 =>
      have hbound := PieceBlockLocation_MarshalCBOR_ok_bound a s s1 ha
      rw [PieceBlockLocation_MarshalCBOR_buffer a s hbound] at ha
      injection ha with ha
      subst ha
      simp only [PieceBlockLocation_MarshalCBOR_buffer a s hbound, bind, Except.bind] at h
      obtain ⟨h1, h2⟩ := ih _ _ h
      refine ⟨?_, ?_⟩
      · intro l hl
        rcases List.mem_cons.1 hl with rfl | hl
        · exact hbound
        · exact h1 l hl
      · rw [h2]
        simp

theorem CIDInfo_UnmarshalCBOR_loop_wire (ls : List cbor.PieceBlockLocation)
    (h1 : ∀ l ∈ ls, l.PieceCID.length ≤ ByteArrayMaxLen)
    (hb : ∀ l ∈ ls, l.BlockLocation.isUint64) (rest : List Nat) :
    cbor.CIDInfo.UnmarshalCBOR.loop ls.length
        ((ls.map cbor.PieceBlockLocation.wire).flatten ++ rest) = .ok (ls, rest) := by
  induction ls with
  | nil => simp [cbor.CIDInfo.UnmarshalCBOR.loop]
  | cons a t ih =>
    have e : ((a :: t).map cbor.PieceBlockLocation.wire).flatten ++ rest =
        a.wire ++ ((t.map cbor.PieceBlockLocation.wire).flatten ++ rest) := by
      simp
    rw [e]
    simp [cbor.CIDInfo.UnmarshalCBOR.loop,
      PieceBlockLocation_UnmarshalCBOR_wire _ _ _ (h1 a (List.mem_cons_self a t))
        (hb a (List.mem_cons_self a t)),
      bind, Except.bind, pure, Except.pure,
      ih (fun x hx => h1 x (List.mem_cons_of_mem a hx))
        (fun x hx => hb x (List.mem_cons_of_mem a hx))]

theorem exampleReadCid_exampleWriteCid (s : List Nat) (c : Cid) (s1 : List Nat)
    (h : exampleWriteCid bufferWriter s c = .ok s1) :
    ∃ bytes, s1 = s ++ bytes ∧ ∀ rest, exampleReadCid (bytes ++ rest) = .ok (c, rest) := by
  unfold exampleWriteCid at h
  split_ifs at h with hlen
  simp only [bufferWriter] at h
  injection h with h
  refine ⟨(64 + c.str.length) :: c.str, h.symm, ?_⟩
  intro rest
  have h1 : 64 ≤ 64 + c.str.length ∧ 64 + c.str.length < 88 := by omega
  have h2 : 64 + c.str.length - 64 = c.str.length := by omega
  simp only [exampleReadCid, List.cons_append, if_pos h1, h2, ReadFull_append]

end piecestore

/-! ### Piece store: round trips and layouts -/

namespace piecestore

open cbg gio

/-- C13: for every `DealInfo` `d` (four `uint64` values), `MarshalCBOR`
succeeds on every writer that never fails, and `UnmarshalCBOR` applied to the
bytes it produces succeeds, whatever the receiver held before, and yields a
`DealInfo` equal to `d` with no byte left over. -/
theorem DealInfo_roundtrip (d : DealInfo) (hd : d.isUint64) :
    (∀ (σ : Type) (w : Writer σ) (s : σ), (∀ s p, ∃ s1, w.Write s p = .ok s1) →
      ∃ s1, DealInfo.MarshalCBOR (some d) w s = .ok s1) ∧
    ∃ bytes, DealInfo.MarshalCBOR (some d) bufferWriter [] = .ok bytes ∧
      ∀ t, DealInfo.UnmarshalCBOR t bytes = .ok (d, []) := by
  refine ⟨fun σ w s hw => DealInfo_MarshalCBOR_ok_of_writer d w s hw, d.wire, ?_, ?_⟩
  · simpa using DealInfo_MarshalCBOR_buffer d []
  · intro t
    simpa using DealInfo_UnmarshalCBOR_wire d t [] hd

/-- C13 at a `DealInfo` whose fields take the 1, 3, 9 and 5 byte forms: the
21 bytes written decode to the same value. -/
theorem DealInfo_roundtrip_witness :
    (⟨1, 1000, 18446744073709551615, 70000⟩ : DealInfo).isUint64 ∧
      DealInfo.MarshalCBOR (some ⟨1, 1000, 18446744073709551615, 70000⟩) bufferWriter [] =
        .ok [132, 1, 25, 3, 232, 27, 255, 255, 255, 255, 255, 255, 255, 255, 26, 0, 1, 17, 112] ∧
      DealInfo.UnmarshalCBOR ⟨0, 0, 0, 0⟩
          [132, 1, 25, 3, 232, 27, 255, 255, 255, 255, 255, 255, 255, 255, 26, 0, 1, 17, 112] =
        .ok (⟨1, 1000, 18446744073709551615, 70000⟩, []) := by
  have hd : (⟨1, 1000, 18446744073709551615, 70000⟩ : DealInfo).isUint64 :=
    ⟨by decide, by decide, by decide, by decide⟩
  have hm : DealInfo.MarshalCBOR (some ⟨1, 1000, 18446744073709551615, 70000⟩) bufferWriter [] =
      .ok [132, 1, 25, 3, 232, 27, 255, 255, 255, 255, 255, 255, 255, 255, 26, 0, 1, 17, 112] :=
    rfl
  obtain ⟨-, bytes, hb, hu⟩ := DealInfo_roundtrip ⟨1, 1000, 18446744073709551615, 70000⟩ hd
  rw [hm] at hb
  injection hb with hb
  subst hb
  exact ⟨hd, hm, hu _⟩

/-- C14: for every `PieceInfo` `p` (deals made of `uint64` values) whose
`MarshalCBOR` succeeds, `UnmarshalCBOR` of the bytes produced into a fresh
`PieceInfo` succeeds and yields the same `PieceCID` bytes and the same deals,
element for element and in the same order, with no byte left over; an empty
`PieceCID` and an empty list of deals are included. -/
theorem PieceInfo_roundtrip (p : cbor.PieceInfo) (bytes : List Nat)
    (hd : ∀ d ∈ p.Deals, d.isUint64)
    (hm : cbor.PieceInfo.MarshalCBOR (some p) bufferWriter [] = .ok bytes) :
    cbor.PieceInfo.UnmarshalCBOR ⟨[], []⟩ bytes = .ok (p, []) ∧
      ∃ q rest, cbor.PieceInfo.UnmarshalCBOR ⟨[], []⟩ bytes = .ok (q, rest) ∧
        q.PieceCID = p.PieceCID ∧ q.Deals = p.Deals := by
  obtain ⟨h1, h2⟩ := PieceInfo_MarshalCBOR_ok_bounds p [] bytes hm
  rw [PieceInfo_MarshalCBOR_buffer p [] h1 h2] at hm
  injection hm with hm
  subst hm
  have hu := PieceInfo_UnmarshalCBOR_wire p [] h1 h2 hd
  simp only [List.append_nil, List.nil_append] at hu ⊢
  exact ⟨hu, p, [], hu, rfl, rfl⟩

/-- C14 at the empty `PieceInfo` (empty `PieceCID`, no deals) and at one with
three bytes of `PieceCID` and two deals. -/
theorem PieceInfo_roundtrip_witness :
    (cbor.PieceInfo.MarshalCBOR (some ⟨[], []⟩) bufferWriter [] = .ok [130, 64, 128] ∧
      cbor.PieceInfo.UnmarshalCBOR ⟨[], []⟩ [130, 64, 128] = .ok (⟨[], []⟩, [])) ∧
    (cbor.PieceInfo.MarshalCBOR (some ⟨[1, 2, 3], [⟨10, 1, 0, 100⟩, ⟨11, 2, 128, 300⟩]⟩)
        bufferWriter [] =
        .ok [130, 67, 1, 2, 3, 130, 132, 10, 1, 0, 24, 100, 132, 11, 2, 24, 128, 25, 1, 44] ∧
      cbor.PieceInfo.UnmarshalCBOR ⟨[], []⟩
          [130, 67, 1, 2, 3, 130, 132, 10, 1, 0, 24, 100, 132, 11, 2, 24, 128, 25, 1, 44] =
        .ok (⟨[1, 2, 3], [⟨10, 1, 0, 100⟩, ⟨11, 2, 128, 300⟩]⟩, [])) :=
  ⟨⟨rfl, (PieceInfo_roundtrip ⟨[], []⟩ [130, 64, 128] (by simp) rfl).1⟩,
    ⟨rfl,
      (PieceInfo_roundtrip ⟨[1, 2, 3], [⟨10, 1, 0, 100⟩, ⟨11, 2, 128, 300⟩]⟩
        [130, 67, 1, 2, 3, 130, 132, 10, 1, 0, 24, 100, 132, 11, 2, 24, 128, 25, 1, 44]
        (by
          intro d hd
          simp only [List.mem_cons, List.mem_singleton, List.not_mem_nil, or_false] at hd
          rcases hd with rfl | rfl <;> exact ⟨by decide, by decide, by decide, by decide⟩)
        rfl).1⟩⟩

/-- C15: assuming that the CID reader inverts the CID writer (what the writer
appends for a CID is read back as that CID, leaving the rest of the stream),
for every `CIDInfo` `c` (block locations made of `uint64` values) whose
`MarshalCBOR` succeeds, `UnmarshalCBOR` of the bytes produced into a fresh
`CIDInfo` yields the same CID and the same `PieceBlockLocations` in order,
each with the same `RelOffset`, `BlockSize` and `PieceCID` bytes. -/
theorem CIDInfo_roundtrip
    (WriteCid : Writer (List Nat) → List Nat → Cid → Except String (List Nat))
    (ReadCid : List Nat → Except String (Cid × List Nat))
    (hcid : ∀ s c s1, WriteCid bufferWriter s c = .ok s1 →
      ∃ bytes, s1 = s ++ bytes ∧ ∀ rest, ReadCid (bytes ++ rest) = .ok (c, rest))
    (c : cbor.CIDInfo) (bytes : List Nat)
    (hb : ∀ l ∈ c.PieceBlockLocations, l.BlockLocation.isUint64)
    (hm : cbor.CIDInfo.MarshalCBOR WriteCid (some c) bufferWriter [] = .ok bytes) :
    cbor.CIDInfo.UnmarshalCBOR ReadCid ⟨Cid.Undef, []⟩ bytes = .ok (c, []) := by
  simp only [cbor.CIDInfo.MarshalCBOR, bufferWriter, bind, Except.bind, List.nil_append] at hm
  cases hw : WriteCid bufferWriter [130] c.CID with
  | error err =>
    simp only [bufferWriter] at hw
    simp [hw, throw, throwThe, MonadExceptOf.throw] at hm
  | ok s1 =>
    obtain ⟨cidBytes, hs1, hread⟩ := hcid _ _ _ hw
    simp only [bufferWriter] at hw
    simp only [hw, pure, Except.pure] at hm
    by_cases hlen : c.PieceBlockLocations.length > MaxLength
    · simp [hlen, throw, throwThe, MonadExceptOf.throw] at hm
    · simp only [hlen, if_false] at hm
      have hloop := CIDInfo_MarshalCBOR_loop_buffer c.PieceBlockLocations
      simp only [bufferWriter] at hloop
      obtain ⟨hbound, hout⟩ := hloop _ _ hm
      have hb2 : c.PieceBlockLocations.length < 18446744073709551616 := by
        have : MaxLength = 8192 := rfl
        omega
      have h0 : ([130] : List Nat) = CborEncodeMajorType MajArray 2 := by decide
      rw [hout, hs1, h0]
      unfold cbor.CIDInfo.UnmarshalCBOR
      simp only [List.append_assoc]
      simp [bind, Except.bind, pure, Except.pure,
        CborReadHeader_CborEncodeMajorType _ _ _ (by decide : MajArray < 8)
          (by decide : 2 < 18446744073709551616),
        CborReadHeader_CborEncodeMajorType _ _ _ (by decide : MajArray < 8) hb2,
        hread, not_lt.1 hlen]
      have hl := CIDInfo_UnmarshalCBOR_loop_wire c.PieceBlockLocations hbound hb []
      simp only [List.append_nil] at hl
      simp only [hl]
      rw [if_neg hlen]
      cases c with
      | mk cid ls =>
        cases ls with
        | nil => simp
        | cons a t => simp

/-- C15 with the example CID writer and reader, at a `CIDInfo` with a two-byte
CID and one piece block location. -/
theorem CIDInfo_roundtrip_witness :
    cbor.CIDInfo.MarshalCBOR exampleWriteCid (some ⟨⟨[1, 2]⟩, [⟨⟨5, 300⟩, [7, 8]⟩]⟩)
        bufferWriter [] =
        .ok [130, 66, 1, 2, 129, 130, 130, 5, 25, 1, 44, 66, 7, 8] ∧
      cbor.CIDInfo.UnmarshalCBOR exampleReadCid ⟨Cid.Undef, []⟩
          [130, 66, 1, 2, 129, 130, 130, 5, 25, 1, 44, 66, 7, 8] =
        .ok (⟨⟨[1, 2]⟩, [⟨⟨5, 300⟩, [7, 8]⟩]⟩, []) :=
  ⟨rfl,
    CIDInfo_roundtrip exampleWriteCid exampleReadCid exampleReadCid_exampleWriteCid
      ⟨⟨[1, 2]⟩, [⟨⟨5, 300⟩, [7, 8]⟩]⟩ [130, 66, 1, 2, 129, 130, 130, 5, 25, 1, 44, 66, 7, 8]
      (by
        intro l hl
        simp only [List.mem_singleton] at hl
        subst hl
        exact ⟨by decide, by decide⟩)
      rfl⟩

/-- C16: for every non-nil `DealInfo`, `MarshalCBOR` writes exactly the byte
`0x84` (the head of an array of 4 elements) followed by the CBOR
unsigned-integer encodings of `DealID`, `SectorID`, `Offset` and `Length`, in
that order, and nothing else: the buffer afterwards is the buffer before
followed by these bytes. -/
theorem DealInfo_MarshalCBOR_bytes (d : DealInfo) (s : List Nat) :
    DealInfo.MarshalCBOR (some d) bufferWriter s =
        .ok (s ++ 0x84 :: (cborspec.unsignedInt d.DealID ++ cborspec.unsignedInt d.SectorID ++
          cborspec.unsignedInt d.Offset ++ cborspec.unsignedInt d.Length)) ∧
      cborspec.arrayHead 4 = [0x84] ∧
      d.wire = 0x84 :: (cborspec.unsignedInt d.DealID ++ cborspec.unsignedInt d.SectorID ++
          cborspec.unsignedInt d.Offset ++ cborspec.unsignedInt d.Length) := by
  have h0 : cborspec.arrayHead 4 = [0x84] := by decide
  have hw : d.wire = 0x84 :: (cborspec.unsignedInt d.DealID ++
      cborspec.unsignedInt d.SectorID ++ cborspec.unsignedInt d.Offset ++
      cborspec.unsignedInt d.Length) := by
    simp [DealInfo.wire, h0]
  refine ⟨?_, h0, hw⟩
  rw [DealInfo_MarshalCBOR_buffer, hw]

/-- C17: for every non-nil `PieceInfo` within the length limits, `MarshalCBOR`
writes exactly the byte `0x82` (the head of an array of 2), then the head of a
byte string carrying `len(PieceCID)` followed by the `PieceCID` bytes, then
the head of an array carrying `len(Deals)` followed by the encoding of each
`DealInfo` in list order, the encoding of a `DealInfo` being what its own
`MarshalCBOR` writes. -/
theorem PieceInfo_MarshalCBOR_bytes (p : cbor.PieceInfo) (s : List Nat)
    (h1 : p.PieceCID.length ≤ ByteArrayMaxLen) (h2 : p.Deals.length ≤ MaxLength) :
    cbor.PieceInfo.MarshalCBOR (some p) bufferWriter s =
        .ok (s ++ 0x82 :: (cborspec.head 2 p.PieceCID.length ++ p.PieceCID ++
          cborspec.arrayHead p.Deals.length ++ (p.Deals.map DealInfo.wire).flatten)) ∧
      cborspec.arrayHead 2 = [0x82] ∧
      ∀ d, DealInfo.MarshalCBOR (some d) bufferWriter [] = .ok d.wire := by
  have h0 : cborspec.arrayHead 2 = [0x82] := by decide
  refine ⟨?_, h0, fun d => by simpa using DealInfo_MarshalCBOR_buffer d []⟩
  rw [PieceInfo_MarshalCBOR_buffer p s h1 h2]
  simp [cbor.PieceInfo.wire, h0, cborspec.byteString]

/-- C17 at a `PieceInfo` with three bytes of `PieceCID` and two deals. -/
theorem PieceInfo_MarshalCBOR_bytes_witness :
    ((3 : Nat) ≤ ByteArrayMaxLen ∧ (2 : Nat) ≤ MaxLength) ∧
      cbor.PieceInfo.MarshalCBOR (some ⟨[1, 2, 3], [⟨10, 1, 0, 100⟩, ⟨11, 2, 128, 300⟩]⟩)
        bufferWriter [9] =
        .ok ([9] ++ 0x82 :: ([0x43] ++ [1, 2, 3] ++ [0x82] ++
          ([0x84, 10, 1, 0, 24, 100] ++ [0x84, 11, 2, 24, 128, 25, 1, 44]))) := by
  refine ⟨⟨by decide, by decide⟩, ?_⟩
  have h := (PieceInfo_MarshalCBOR_bytes ⟨[1, 2, 3], [⟨10, 1, 0, 100⟩, ⟨11, 2, 128, 300⟩]⟩ [9]
    (by decide) (by decide)).1
  rw [h]
  rfl

end piecestore

/-! ### Discovery: what is written -/

namespace discovery

open cbg gio

theorem RetrievalPeers_MarshalCBOR_loop_buffer {Peer : Type}
    (MarshalPeer : Peer → Writer (List Nat) → List Nat → Except String (List Nat))
    (enc : Peer → List Nat) (peers : List Peer)
    (hpeer : ∀ v ∈ peers, ∀ s, MarshalPeer v bufferWriter s = .ok (s ++ enc v)) :
    ∀ s, RetrievalPeers.MarshalCBOR.loop MarshalPeer bufferWriter peers s =
      .ok (s ++ (peers.map enc).flatten) := by
  induction peers with
  | nil => intro s; simp [RetrievalPeers.MarshalCBOR.loop]
  | cons a t ih =>
    intro s
    rw [RetrievalPeers.MarshalCBOR.loop, hpeer a (List.mem_cons_self a t)]
    simp only [bind, Except.bind]
    rw [ih (fun v hv => hpeer v (List.mem_cons_of_mem a hv))]
    simp

/-- C18: for every non-nil `RetrievalPeers` with at most `MaxLength` peers,
each of which is encoded by its own `MarshalCBOR` as `enc` of it,
`MarshalCBOR` writes a CBOR map with exactly one entry: the byte `0xA1`, then
the text string "Peers" (head `0x65` followed by its 5 ASCII bytes), then the
head of an array carrying `len(Peers)` followed by the encoding of each peer
in list order. -/
theorem RetrievalPeers_MarshalCBOR_bytes {Peer : Type}
    (MarshalPeer : Peer → Writer (List Nat) → List Nat → Except String (List Nat))
    (enc : Peer → List Nat) (t : RetrievalPeers Peer) (s : List Nat)
    (hlen : t.Peers.length ≤ MaxLength)
    (hpeer : ∀ v ∈ t.Peers, ∀ s, MarshalPeer v bufferWriter s = .ok (s ++ enc v)) :
    RetrievalPeers.MarshalCBOR MarshalPeer (some t) bufferWriter s =
        .ok (s ++ 0xA1 :: 0x65 :: 80 :: 101 :: 101 :: 114 :: 115 ::
          (cborspec.arrayHead t.Peers.length ++ (t.Peers.map enc).flatten)) ∧
      cborspec.mapHead 1 = [0xA1] ∧
      cborspec.textString "Peers" = [0x65, 80, 101, 101, 114, 115] ∧
      RetrievalPeers.wire enc t =
        0xA1 :: 0x65 :: 80 :: 101 :: 101 :: 114 :: 115 ::
          (cborspec.arrayHead t.Peers.length ++ (t.Peers.map enc).flatten) := by
  have h5 : ¬ "Peers".length > MaxLength := by decide
  have hm : cborspec.mapHead 1 = [0xA1] := by decide
  have ht : cborspec.textString "Peers" = [0x65, 80, 101, 101, 114, 115] := by decide
  have hh : CborEncodeMajorType MajTextString "Peers".length = [0x65] := by decide
  have hs : "Peers".toList.map Char.toNat = [80, 101, 101, 114, 115] := by decide
  refine ⟨?_, hm, ht, ?_⟩
  · unfold RetrievalPeers.MarshalCBOR
    simp only [bind, Except.bind, WriteMajorTypeHeaderBuf, WriteString, hh, hs, if_neg h5,
      if_neg (not_lt.2 hlen), pure, Except.pure]
    have hw : ∀ s p, bufferWriter.Write s p = .ok (s ++ p) := fun _ _ => rfl
    simp only [hw]
    rw [RetrievalPeers_MarshalCBOR_loop_buffer MarshalPeer enc t.Peers hpeer,
      CborEncodeMajorType_eq_head _ _ (by decide : MajArray < 8)]
    simp [cborspec.arrayHead, MajArray]
  · simp [RetrievalPeers.wire, hm, ht]

/-- C18 with the example peer encoder, at three peers. -/
theorem RetrievalPeers_MarshalCBOR_bytes_witness :
    (3 : Nat) ≤ MaxLength ∧
      RetrievalPeers.MarshalCBOR exampleMarshalPeer (some ⟨[1, 2, 3]⟩) bufferWriter [] =
        .ok [0xA1, 0x65, 80, 101, 101, 114, 115, 0x83, 1, 2, 3] := by
  refine ⟨by decide, ?_⟩
  have h := (RetrievalPeers_MarshalCBOR_bytes exampleMarshalPeer (fun v => [v]) ⟨[1, 2, 3]⟩ []
    (by decide) (fun v _ s => rfl)).1
  rw [h]
  rfl

end discovery

/-! ### Completion, failure and add-funds handlers -/

namespace clientstates

open retrievalmarket

/-- C21: for every client deal in `CheckComplete`, the handler `CheckComplete`
moves the deal to `Completed` if all blocks have been received, and
otherwise to `Errored` with the message exactly "Provider sent complete
status without sending all data"; nothing else of the deal changes. -/
theorem CheckComplete_verifies_completion (deal : ClientDealState)
    (hst : deal.Status = DealStatus.DealStatusCheckComplete) :
    (deal.AllBlocksReceived = true →
      ∃ d, CheckComplete deal = some d ∧
        d.Status = DealStatus.DealStatusCompleted ∧
        d = { deal with Status := DealStatus.DealStatusCompleted }) ∧
    (deal.AllBlocksReceived = false →
      ∃ d, CheckComplete deal = some d ∧
        d.Status = DealStatus.DealStatusErrored ∧
        d.Message = "Provider sent complete status without sending all data" ∧
        d = { deal with
          Status := DealStatus.DealStatusErrored
          Message := "Provider sent complete status without sending all data" }) := by
  constructor
  · intro hall
    refine ⟨_, ?_, rfl, rfl⟩
    simp only [CheckComplete, hst, hall, if_true]
  · intro hall
    refine ⟨_, ?_, rfl, rfl, rfl⟩
    simp only [CheckComplete, hst, hall, Bool.false_eq_true, if_false]

/-- C21 on the two cases of `TestCheckComplete`: the deal of `makeDealState`
with all blocks received ends in `Completed`, and the one without ends in
`Errored` with the early-termination message. -/
theorem CheckComplete_verifies_completion_witness :
    (∃ d, CheckComplete { makeDealState DealStatus.DealStatusCheckComplete with
          AllBlocksReceived := true } = some d ∧
        d.Status = DealStatus.DealStatusCompleted ∧
        d = { makeDealState DealStatus.DealStatusCompleted with AllBlocksReceived := true }) ∧
    (∃ d, CheckComplete (makeDealState DealStatus.DealStatusCheckComplete) = some d ∧
        d.Status = DealStatus.DealStatusErrored ∧
        d.Message = "Provider sent complete status without sending all data" ∧
        d = { makeDealState DealStatus.DealStatusErrored with
          Message := "Provider sent complete status without sending all data" }) :=
  ⟨(CheckComplete_verifies_completion
      { makeDealState DealStatus.DealStatusCheckComplete with AllBlocksReceived := true }
      rfl).1 rfl,
    (CheckComplete_verifies_completion (makeDealState DealStatus.DealStatusCheckComplete)
      rfl).2 rfl⟩

/-- C22: for every client deal in `Failing` with any prior message, the
handler `CancelDeal` always ends in `Errored`; if closing the transport
channel succeeds the message is still exactly the prior one, and if closing
fails the message is the close error (so it is not empty whenever the close
error is not); nothing else of the deal changes. -/
theorem CancelDeal_ends_in_Errored (CloseDataTransfer : Option ChannelID → Option String)
    (deal : ClientDealState) (hst : deal.Status = DealStatus.DealStatusFailing) :
    ∃ d, CancelDeal CloseDataTransfer deal = some d ∧
      d.Status = DealStatus.DealStatusErrored ∧
      (CloseDataTransfer deal.ChannelID = none → d.Message = deal.Message) ∧
      (∀ err, CloseDataTransfer deal.ChannelID = some err →
        d.Message = err ∧ (err ≠ "" → d.Message ≠ "")) ∧
      { d with Message := deal.Message } =
        { deal with Status := DealStatus.DealStatusErrored } := by
  cases hclose : CloseDataTransfer deal.ChannelID with
  | none =>
    refine ⟨{ deal with Status := DealStatus.DealStatusErrored }, ?_, rfl, fun _ => rfl, ?_, rfl⟩
    · simp only [CancelDeal, hst, hclose]
    · intro err h
      cases h
  | some e =>
    refine ⟨{ deal with Status := DealStatus.DealStatusErrored, Message := e }, ?_, rfl, ?_, ?_,
      rfl⟩
    · simp only [CancelDeal, hst, hclose]
    · intro h
      cases h
    · intro err h
      cases h
      exact ⟨rfl, fun hne => hne⟩

/-- C22 on the two cases of `TestCancelDeal`: the failing deal with the message
"Previous error" keeps it when the close succeeds, and carries the close
error "something went wrong" when the close fails; both end in `Errored`. -/
theorem CancelDeal_ends_in_Errored_witness :
    (∃ d, CancelDeal (fun _ => none)
          { makeDealState DealStatus.DealStatusFailing with Message := "Previous error" }
            = some d ∧
        d.Status = DealStatus.DealStatusErrored ∧ d.Message = "Previous error") ∧
    (∃ d, CancelDeal (fun _ => some "something went wrong")
          { makeDealState DealStatus.DealStatusFailing with Message := "Previous error" }
            = some d ∧
        d.Status = DealStatus.DealStatusErrored ∧ d.Message = "something went wrong" ∧
        d.Message ≠ "Previous error" ∧ d.Message ≠ "") := by
  obtain ⟨d1, h1, hs1, hm1, -, -⟩ :=
    CancelDeal_ends_in_Errored (fun _ => none)
      { makeDealState DealStatus.DealStatusFailing with Message := "Previous error" } rfl
  obtain ⟨d2, h2, hs2, -, hm2, -⟩ :=
    CancelDeal_ends_in_Errored (fun _ => some "something went wrong")
      { makeDealState DealStatus.DealStatusFailing with Message := "Previous error" } rfl
  refine ⟨⟨d1, h1, hs1, hm1 rfl⟩, d2, h2, hs2, (hm2 _ rfl).1, ?_, (hm2 _ rfl).2 (by decide)⟩
  rw [(hm2 _ rfl).1]
  decide

end clientstates

namespace clientstates

open retrievalmarket

/-- C23: for every client deal in `PaymentChannelAddingFunds`, if waiting for
the add-funds message fails, or the wait succeeds and allocating the lane
fails, `WaitForPaymentChannelAddFunds` moves the deal to `Failing` with a
message containing the underlying cause and with `PaymentInfo.Lane` equal to
0, whatever the lane was before; if both succeed, the deal moves to `Ongoing`
with the allocated lane and the payment-channel address recorded and, having
entered without a message, with an empty message. -/
theorem WaitForPaymentChannelAddFunds_outcomes (node : RetrievalClientNode)
    (deal : ClientDealState)
    (hst : deal.Status = DealStatus.DealStatusPaymentChannelAddingFunds) :
    (∀ err, node.WaitForPaymentChannelAddFunds deal.WaitMsgCID = .error err →
      ∃ d, WaitForPaymentChannelAddFunds node deal = some d ∧
        d.Status = DealStatus.DealStatusFailing ∧
        (∃ pre post, d.Message = pre ++ err ++ post) ∧
        d.PaymentInfo.Lane = 0) ∧
    (∀ paych err, node.WaitForPaymentChannelAddFunds deal.WaitMsgCID = .ok paych →
      node.AllocateLane paych = .error err →
      ∃ d, WaitForPaymentChannelAddFunds node deal = some d ∧
        d.Status = DealStatus.DealStatusFailing ∧
        (∃ pre post, d.Message = pre ++ err ++ post) ∧
        d.PaymentInfo.Lane = 0) ∧
    (∀ paych lane, node.WaitForPaymentChannelAddFunds deal.WaitMsgCID = .ok paych →
      node.AllocateLane paych = .ok lane → deal.Message = "" →
      ∃ d, WaitForPaymentChannelAddFunds node deal = some d ∧
        d.Status = DealStatus.DealStatusOngoing ∧
        d.PaymentInfo.Lane = lane ∧ d.PaymentInfo.PayCh = some paych ∧
        d.Message = "") := by
  refine ⟨fun err hwait => ?_, fun paych err hwait hlane => ?_,
    fun paych lane hwait hlane hmsg => ?_⟩
  · refine ⟨{ deal with
        Status := DealStatus.DealStatusFailing
        Message := err
        PaymentInfo := { deal.PaymentInfo with Lane := 0 } }, ?_, rfl, ⟨"", "", ?_⟩, rfl⟩
    · simp only [WaitForPaymentChannelAddFunds, hst, hwait]
    · show err = "" ++ err ++ ""
      simp
  · refine ⟨{ deal with
        Status := DealStatus.DealStatusFailing
        Message := err
        PaymentInfo := { deal.PaymentInfo with Lane := 0 } }, ?_, rfl, ⟨"", "", ?_⟩, rfl⟩
    · simp only [WaitForPaymentChannelAddFunds, hst, hwait, hlane]
    · show err = "" ++ err ++ ""
      simp
  · refine ⟨{ deal with
        Status := DealStatus.DealStatusOngoing
        PaymentInfo := { PayCh := some paych, Lane := lane } }, ?_, rfl, rfl, rfl, hmsg⟩
    simp only [WaitForPaymentChannelAddFunds, hst, hwait, hlane]

/-- C23 on the three cases of `TestWaitForPaymentChannelAddFunds`, the two
failures entered with lane 7 instead of the lane 0 of the test: with the wait
failing with "boom", and with the lane allocation failing with "boom", the
deal ends in `Failing` with a message containing "boom" and with lane 0; with
both succeeding it ends in `Ongoing` with lane 99, the channel recorded and
an empty message. -/
theorem WaitForPaymentChannelAddFunds_outcomes_witness :
    (∃ d, WaitForPaymentChannelAddFunds (testNode "t0100" 99 (some "boom") none)
          { makeDealState DealStatus.DealStatusPaymentChannelAddingFunds with
            PaymentInfo := ⟨none, 7⟩ } = some d ∧
        d.Status = DealStatus.DealStatusFailing ∧
        (∃ pre post, d.Message = pre ++ "boom" ++ post) ∧
        d.PaymentInfo.Lane = 0) ∧
    (∃ d, WaitForPaymentChannelAddFunds (testNode "t0100" 99 none (some "boom"))
          { makeDealState DealStatus.DealStatusPaymentChannelAddingFunds with
            PaymentInfo := ⟨none, 7⟩ } = some d ∧
        d.Status = DealStatus.DealStatusFailing ∧
        (∃ pre post, d.Message = pre ++ "boom" ++ post) ∧
        d.PaymentInfo.Lane = 0) ∧
    (∃ d, WaitForPaymentChannelAddFunds (testNode "t0100" 99 none none)
          { makeDealState DealStatus.DealStatusPaymentChannelAddingFunds with
            PaymentInfo := ⟨some "t0100", 0⟩ } = some d ∧
        d.Status = DealStatus.DealStatusOngoing ∧ d.PaymentInfo.Lane = 99 ∧
        d.PaymentInfo.PayCh = some "t0100" ∧ d.Message = "") :=
  ⟨(WaitForPaymentChannelAddFunds_outcomes (testNode "t0100" 99 (some "boom") none)
      { makeDealState DealStatus.DealStatusPaymentChannelAddingFunds with
        PaymentInfo := ⟨none, 7⟩ } rfl).1 "boom" rfl,
    (WaitForPaymentChannelAddFunds_outcomes (testNode "t0100" 99 none (some "boom"))
      { makeDealState DealStatus.DealStatusPaymentChannelAddingFunds with
        PaymentInfo := ⟨none, 7⟩ } rfl).2.1 "t0100" "boom" rfl rfl,
    (WaitForPaymentChannelAddFunds_outcomes (testNode "t0100" 99 none none)
      { makeDealState DealStatus.DealStatusPaymentChannelAddingFunds with
        PaymentInfo := ⟨some "t0100", 0⟩ } rfl).2.2 "t0100" 99 rfl rfl rfl⟩

end clientstates

/-! ### Deal decision, transfer close and store release -/

namespace retrievalimpl

open retrievalmarket

/-- C25: the provider's `CloseDataTransfer` closes the channel under the
context with the timeout and returns no error whenever the error of the
transport's close is a done context (timeout or cancellation); in every other
case it returns exactly the transport's result, which is nil on success and
the unchanged error otherwise. The transport is left in the state its close
produced in all cases. -/
theorem CloseDataTransfer_forgives_done_context {σ : Type} (CloseDataTransferTimeout : Nat)
    (IsCtxDone : Option String → Bool)
    (CloseDataTransferChannel : σ → Option Nat → ChannelID → σ × Option String)
    (s : σ) (ctx : Option Nat) (chid : ChannelID) :
    (IsCtxDone (CloseDataTransferChannel s
        (context.WithTimeout ctx CloseDataTransferTimeout) chid).2 = true →
      CloseDataTransfer CloseDataTransferTimeout IsCtxDone CloseDataTransferChannel s ctx chid =
        ((CloseDataTransferChannel s
          (context.WithTimeout ctx CloseDataTransferTimeout) chid).1, none)) ∧
    (IsCtxDone (CloseDataTransferChannel s
        (context.WithTimeout ctx CloseDataTransferTimeout) chid).2 = false →
      CloseDataTransfer CloseDataTransferTimeout IsCtxDone CloseDataTransferChannel s ctx chid =
        CloseDataTransferChannel s (context.WithTimeout ctx CloseDataTransferTimeout) chid) ∧
    ((CloseDataTransferChannel s
        (context.WithTimeout ctx CloseDataTransferTimeout) chid).2 = none →
      CloseDataTransfer CloseDataTransferTimeout IsCtxDone CloseDataTransferChannel s ctx chid =
        ((CloseDataTransferChannel s
          (context.WithTimeout ctx CloseDataTransferTimeout) chid).1, none)) := by
  rcases hclose : CloseDataTransferChannel s
    (context.WithTimeout ctx CloseDataTransferTimeout) chid with ⟨s1, err⟩
  have hrun : CloseDataTransfer CloseDataTransferTimeout IsCtxDone CloseDataTransferChannel
      s ctx chid = if IsCtxDone err then (s1, none) else (s1, err) := by
    simp only [CloseDataTransfer, hclose]
  rw [hrun]
  refine ⟨fun h => ?_, fun h => ?_, fun h => ?_⟩
  · rw [if_pos h]
  · rw [if_neg (by rw [h]; decide)]
  · have he : err = none := h
    subst he
    split_ifs <;> rfl

/-- C25 on a transport that needs 3 units of time: under a timeout of 2 the
close fails with the deadline error and `CloseDataTransfer` returns no error;
under a timeout of 5 the error "channel not found" of channel 7 is returned
unchanged and the close of channel 1 succeeds. -/
theorem CloseDataTransfer_forgives_done_context_witness :
    (exampleIsCtxDone (exampleTransport 0 (context.WithTimeout none 2) ⟨"a", "b", 1⟩).2 = true ∧
      CloseDataTransfer 2 exampleIsCtxDone exampleTransport 0 none ⟨"a", "b", 1⟩ = (1, none)) ∧
    (exampleIsCtxDone (exampleTransport 0 (context.WithTimeout none 5) ⟨"a", "b", 7⟩).2 = false ∧
      CloseDataTransfer 5 exampleIsCtxDone exampleTransport 0 none ⟨"a", "b", 7⟩ =
        (1, some "channel not found")) ∧
    ((exampleTransport 0 (context.WithTimeout (some 9) 5) ⟨"a", "b", 1⟩).2 = none ∧
      CloseDataTransfer 5 exampleIsCtxDone exampleTransport 0 (some 9) ⟨"a", "b", 1⟩ =
        (1, none)) :=
  ⟨⟨by decide,
      (CloseDataTransfer_forgives_done_context 2 exampleIsCtxDone exampleTransport 0 none
        ⟨"a", "b", 1⟩).1 (by decide)⟩,
    ⟨by decide,
      (CloseDataTransfer_forgives_done_context 5 exampleIsCtxDone exampleTransport 0 none
        ⟨"a", "b", 7⟩).2.1 (by decide)⟩,
    ⟨by decide,
      (CloseDataTransfer_forgives_done_context 5 exampleIsCtxDone exampleTransport 0 (some 9)
        ⟨"a", "b", 1⟩).2.2 (by decide)⟩⟩

/-- C26: `RunDealDecisioningLogic` answers `(true, "", nil)` for every deal
when no deal decider is configured, and otherwise returns exactly the
decider's `(accepted, reason, error)` for the given state. -/
theorem RunDealDecisioningLogic_default_accepts (state : ProviderDealState) :
    RunDealDecisioningLogic none state = (true, "", none) ∧
    ∀ decider : ProviderDealState → Bool × String × Option String,
      RunDealDecisioningLogic (some decider) state = decider state :=
  ⟨rfl, fun _ => rfl⟩

theorem CleanBlockstore_lookup_self {B : Type} (key : String) (stores : List (String × B)) :
    (stores.filter (fun e => e.1 != key)).lookup key = none := by
  induction stores with
  | nil => rfl
  | cons a t ih =>
    by_cases h : a.1 = key
    · simp [List.filter_cons, h, ih]
    · have hne : (a.1 != key) = true := by simpa using h
      have hk : (key == a.1) = false := by simpa using fun hh => h hh.symm
      rcases a with ⟨k, v⟩
      simp only [List.filter_cons, hne, if_true, List.lookup_cons] at hk ⊢
      rw [hk]
      exact ih

theorem CleanBlockstore_lookup_other {B : Type} (key k : String) (hk : k ≠ key)
    (stores : List (String × B)) :
    (stores.filter (fun e => e.1 != key)).lookup k = stores.lookup k := by
  induction stores with
  | nil => rfl
  | cons a t ih =>
    rcases a with ⟨k1, v⟩
    by_cases h : k1 = key
    · subst h
      have hkk : (k == k1) = false := by simpa using hk
      simp [List.filter_cons, List.lookup_cons, hkk, ih]
    · have hne : (k1 != key) = true := by simpa using h
      simp only [List.filter_cons, hne, if_true, List.lookup_cons, ih]

theorem CleanBlockstore_unbound {B : Type} (Close : B → Option String)
    (stores : List (String × B)) (key : String) (h : stores.lookup key = none) :
    CleanBlockstore Close stores key = (stores, none) := by
  simp only [CleanBlockstore, h]

theorem CleanBlockstore_releases {B : Type} (Close : B → Option String)
    (stores : List (String × B)) (key : String) :
    (CleanBlockstore Close stores key).1 = stores.filter (fun e => e.1 != key) := by
  unfold CleanBlockstore
  cases h : stores.lookup key with
  | some bs => rfl
  | none =>
    simp only
    symm
    rw [List.filter_eq_self]
    intro a ha
    by_contra hne
    have hak : a.1 = key := by simpa using hne
    have : stores.lookup key ≠ none := by
      clear h
      induction stores with
      | nil => cases ha
      | cons b t ih =>
        rcases b with ⟨k1, v⟩
        by_cases hk : key = k1
        · simp [List.lookup_cons, hk]
        · have hkk : (key == k1) = false := by simpa using hk
          simp only [List.lookup_cons, hkk]
          rcases List.mem_cons.1 ha with rfl | hin
          · exact absurd hak.symm hk
          · exact ih hin
    exact this h

theorem DeleteStore_state {σ : Type} (clean : σ → String → σ × Option String) (s : σ)
    (dealID : Nat) :
    (DeleteStore clean s dealID).1 = (clean s (DealID.String dealID)).1 := by
  unfold DeleteStore
  rcases clean s (DealID.String dealID) with ⟨s1, _ | err⟩ <;> rfl

/-- C27: `DeleteStore` releases the deal's blockstore binding and is
idempotent. After a call the registry holds no blockstore under the deal's
key and holds every other binding as before; and calling `DeleteStore` again
for the same deal id returns no error and leaves the registry as it is. -/
theorem DeleteStore_idempotent {B : Type} (Close : B → Option String)
    (stores : List (String × B)) (dealID : Nat) :
    (DeleteStore (CleanBlockstore Close) stores dealID).1.lookup (DealID.String dealID) = none ∧
    (∀ k, k ≠ DealID.String dealID →
      (DeleteStore (CleanBlockstore Close) stores dealID).1.lookup k = stores.lookup k) ∧
    DeleteStore (CleanBlockstore Close) (DeleteStore (CleanBlockstore Close) stores dealID).1
        dealID =
      ((DeleteStore (CleanBlockstore Close) stores dealID).1, none) := by
  have hst : (DeleteStore (CleanBlockstore Close) stores dealID).1 =
      stores.filter (fun e => e.1 != DealID.String dealID) := by
    rw [DeleteStore_state, CleanBlockstore_releases]
  rw [hst]
  refine ⟨CleanBlockstore_lookup_self _ _, fun k hk => CleanBlockstore_lookup_other _ k hk _, ?_⟩
  unfold DeleteStore
  rw [CleanBlockstore_unbound Close _ _ (CleanBlockstore_lookup_self _ _)]

/-- C27 on a registry with the blockstores of the deals 10 and 11: the first
`DeleteStore` of deal 10 succeeds and leaves the binding of deal 11 only, and
the second one returns no error and leaves the same registry. -/
theorem DeleteStore_idempotent_witness :
    DeleteStore (CleanBlockstore exampleClose) [("10", 12), ("11", 14)] 10 =
        ([("11", 14)], none) ∧
      (DeleteStore (CleanBlockstore exampleClose) [("10", 12), ("11", 14)] 10).1.lookup
          (DealID.String 10) = none ∧
      (DeleteStore (CleanBlockstore exampleClose) [("10", 12), ("11", 14)] 10).1.lookup "11" =
        some 14 ∧
      DeleteStore (CleanBlockstore exampleClose) [("11", 14)] 10 = ([("11", 14)], none) := by
  obtain ⟨h1, h2, h3⟩ :=
    DeleteStore_idempotent exampleClose [("10", 12), ("11", 14)] 10
  have hfirst : DeleteStore (CleanBlockstore exampleClose) [("10", 12), ("11", 14)] 10 =
      ([("11", 14)], none) := by decide
  refine ⟨hfirst, h1, (h2 "11" (by decide)).trans (by decide), ?_⟩
  rw [hfirst] at h3
  exact h3

end retrievalimpl

/-! ### Unsealed sectors and the reason of a failed lookup -/

namespace retrievalimpl

open piecestore retrievalmarket

theorem pieceInUnsealedSector.loop_iff (n : RetrievalProviderNode) (deals : List DealInfo) :
    pieceInUnsealedSector.loop n deals = true ↔
      ∃ di ∈ deals,
        n.IsUnsealed di.SectorID (abi.PaddedPieceSize.Unpadded di.Offset) di.Length =
          .ok true := by
  induction deals with
  | nil => simp [pieceInUnsealedSector.loop]
  | cons a t ih =>
    rw [pieceInUnsealedSector.loop]
    cases h : n.IsUnsealed a.SectorID (abi.PaddedPieceSize.Unpadded a.Offset) a.Length with
    | error e => simp [ih, h]
    | ok b =>
      cases b with
      | true => simp [h]
      | false => simp [ih, h]

/-- C28: `pieceInUnsealedSector` returns true if and only if, for some deal of
the piece, the oracle `IsUnsealed` asked with that deal's sector id, the
unpadded form of its offset and its length answers true without error. A
deal whose oracle call fails counts as not unsealed and does not stop the
scan: the answer is the one for the piece without that deal. A piece with no
deals is never unsealed. -/
theorem pieceInUnsealedSector_iff (n : RetrievalProviderNode) (pieceInfo : PieceInfo) :
    (pieceInUnsealedSector n pieceInfo = true ↔
      ∃ di ∈ pieceInfo.Deals,
        n.IsUnsealed di.SectorID (abi.PaddedPieceSize.Unpadded di.Offset) di.Length =
          .ok true) ∧
    (∀ pre di post err, pieceInfo.Deals = pre ++ di :: post →
      n.IsUnsealed di.SectorID (abi.PaddedPieceSize.Unpadded di.Offset) di.Length =
        .error err →
      pieceInUnsealedSector n pieceInfo =
        pieceInUnsealedSector n ⟨pieceInfo.PieceCID, pre ++ post⟩) ∧
    (pieceInfo.Deals = [] → pieceInUnsealedSector n pieceInfo = false) := by
  refine ⟨pieceInUnsealedSector.loop_iff n pieceInfo.Deals, ?_, ?_⟩
  · intro pre di post err hdeals herr
    rw [Bool.eq_iff_iff]
    unfold pieceInUnsealedSector
    rw [pieceInUnsealedSector.loop_iff, pieceInUnsealedSector.loop_iff, hdeals]
    constructor
    · rintro ⟨x, hx, hok⟩
      rcases List.mem_append.1 hx with hpre | hrest
      · exact ⟨x, List.mem_append_left _ hpre, hok⟩
      · rcases List.mem_cons.1 hrest with rfl | hpost
        · rw [herr] at hok
          cases hok
        · exact ⟨x, List.mem_append_right _ hpost, hok⟩
    · rintro ⟨x, hx, hok⟩
      rcases List.mem_append.1 hx with hpre | hpost
      · exact ⟨x, List.mem_append_left _ hpre, hok⟩
      · exact ⟨x, List.mem_append_right _ (List.mem_cons_of_mem _ hpost), hok⟩
  · intro hdeals
    unfold pieceInUnsealedSector
    rw [hdeals]
    rfl

/-- C28 on a piece with three deals, for which the oracle fails, answers
`false` and answers `true` in that order: the piece is in an unsealed sector,
with and without the deal for which the oracle fails, and the piece without
deals is not. -/
theorem pieceInUnsealedSector_iff_witness :
    (exampleNode.IsUnsealed 4 (abi.PaddedPieceSize.Unpadded 0) 100 =
        .error "sector lookup failed" ∧
      exampleNode.IsUnsealed 1 (abi.PaddedPieceSize.Unpadded 512) 100 = .ok true) ∧
    pieceInUnsealedSector exampleNode examplePieceD = true ∧
    pieceInUnsealedSector exampleNode examplePieceD =
      pieceInUnsealedSector exampleNode ⟨⟨[4]⟩, [⟨14, 2, 256, 100⟩, ⟨15, 1, 512, 100⟩]⟩ ∧
    pieceInUnsealedSector exampleNode ⟨⟨[4]⟩, []⟩ = false :=
  ⟨⟨rfl, rfl⟩,
    (pieceInUnsealedSector_iff exampleNode examplePieceD).1.2
      ⟨⟨15, 1, 512, 100⟩, by simp [examplePieceD], rfl⟩,
    (pieceInUnsealedSector_iff exampleNode examplePieceD).2.1 [] ⟨13, 4, 0, 100⟩
      [⟨14, 2, 256, 100⟩, ⟨15, 1, 512, 100⟩] "sector lookup failed" rfl rfl,
    (pieceInUnsealedSector_iff exampleNode ⟨⟨[4]⟩, []⟩).2.2 rfl⟩

/-- A failing scan in which no lookup fails reports the error it was entered
with, or the unknown piece. -/
theorem getPieceInfoFromCid.loop_reason_no_failure (cidStr : Cid → String)
    (n : RetrievalProviderNode) (pieceStore : PieceStore) (pieceCID : Cid)
    (rest : List PieceBlockLocation)
    (hrest : ∀ x ∈ rest, ∀ e, pieceStore.GetPieceInfo x.PieceCID ≠ .error e) :
    ∀ lastErr sealedPieceInfo,
      (getPieceInfoFromCid.loop cidStr n pieceStore pieceCID rest lastErr sealedPieceInfo).2.2
          ≠ none →
      getPieceInfoFromCid.loop cidStr n pieceStore pieceCID rest lastErr sealedPieceInfo =
        (PieceInfoUndefined, false, some ("could not locate piece: " ++
          (match lastErr with
           | some e => e
           | none => "unknown pieceCID " ++ cidStr pieceCID))) := by
  induction rest with
  | nil =>
    intro lastErr sealedPieceInfo h
    cases sealedPieceInfo with
    | some p => exact absurd rfl h
    | none => rfl
  | cons a t ih =>
    intro lastErr sealedPieceInfo
    have ht : ∀ x ∈ t, ∀ e, pieceStore.GetPieceInfo x.PieceCID ≠ .error e :=
      fun x hx => hrest x (List.mem_cons_of_mem a hx)
    rw [getPieceInfoFromCid.loop]
    cases hget : pieceStore.GetPieceInfo a.PieceCID with
    | error err => exact absurd hget (hrest a (List.mem_cons_self a t) err)
    | ok q =>
      simp only
      split_ifs
      · intro h; exact absurd rfl h
      · intro h; exact absurd rfl h
      · exact ih ht lastErr _
      · exact ih ht lastErr _

/-- A failing scan reports the error of the last lookup that failed. -/
theorem getPieceInfoFromCid.loop_reason_last_failure (cidStr : Cid → String)
    (n : RetrievalProviderNode) (pieceStore : PieceStore) (pieceCID : Cid)
    (pre : List PieceBlockLocation) (l : PieceBlockLocation) (post : List PieceBlockLocation)
    (err : String) (hl : pieceStore.GetPieceInfo l.PieceCID = .error err)
    (hpost : ∀ x ∈ post, ∀ e, pieceStore.GetPieceInfo x.PieceCID ≠ .error e) :
    ∀ lastErr sealedPieceInfo,
      (getPieceInfoFromCid.loop cidStr n pieceStore pieceCID (pre ++ l :: post) lastErr
          sealedPieceInfo).2.2 ≠ none →
      getPieceInfoFromCid.loop cidStr n pieceStore pieceCID (pre ++ l :: post) lastErr
          sealedPieceInfo =
        (PieceInfoUndefined, false, some ("could not locate piece: " ++ err)) := by
  induction pre with
  | nil =>
    intro lastErr sealedPieceInfo
    rw [List.nil_append, getPieceInfoFromCid.loop, hl]
    exact getPieceInfoFromCid.loop_reason_no_failure cidStr n pieceStore pieceCID post hpost
      (some err) sealedPieceInfo
  | cons a t ih =>
    intro lastErr sealedPieceInfo
    rw [List.cons_append, getPieceInfoFromCid.loop]
    cases hget : pieceStore.GetPieceInfo a.PieceCID with
    | error e => exact ih (some e) sealedPieceInfo
    | ok q =>
      simp only
      split_ifs
      · intro h; exact absurd rfl h
      · intro h; exact absurd rfl h
      · exact ih lastErr _
      · exact ih lastErr _

/-- C29: when `GetCIDInfo` succeeds and `getPieceInfoFromCid` fails, the error
is "could not locate piece: " followed by the error of the last
`GetPieceInfo` lookup that failed (the failed lookup after which, in the
order of the locations, none fails) if any lookup failed, and by "unknown
pieceCID " and the requested CID otherwise. When `GetCIDInfo` itself fails
the function returns `PieceInfoUndefined`, `false` and "get cid info: "
followed by that error, whatever the piece lookups and the unsealed oracle
would answer: neither is consulted. -/
theorem getPieceInfoFromCid_failure_reason (cidStr : Cid → String)
    (n : RetrievalProviderNode) (pieceStore : PieceStore) (payloadCID pieceCID : Cid) :
    (∀ cidInfo, pieceStore.GetCIDInfo payloadCID = .ok cidInfo →
      (getPieceInfoFromCid cidStr n pieceStore payloadCID pieceCID).2.2 ≠ none →
      (∀ pre l post err, cidInfo.PieceBlockLocations = pre ++ l :: post →
        pieceStore.GetPieceInfo l.PieceCID = .error err →
        (∀ x ∈ post, ∀ e, pieceStore.GetPieceInfo x.PieceCID ≠ .error e) →
        getPieceInfoFromCid cidStr n pieceStore payloadCID pieceCID =
          (PieceInfoUndefined, false, some ("could not locate piece: " ++ err))) ∧
      ((∀ x ∈ cidInfo.PieceBlockLocations, ∀ e,
          pieceStore.GetPieceInfo x.PieceCID ≠ .error e) →
        getPieceInfoFromCid cidStr n pieceStore payloadCID pieceCID =
          (PieceInfoUndefined, false,
            some ("could not locate piece: " ++ ("unknown pieceCID " ++ cidStr pieceCID))))) ∧
    (∀ err, pieceStore.GetCIDInfo payloadCID = .error err →
      ∀ (n2 : RetrievalProviderNode) (getPieceInfo : Cid → Except String PieceInfo),
        getPieceInfoFromCid cidStr n2 ⟨getPieceInfo, pieceStore.GetCIDInfo⟩ payloadCID pieceCID =
          (PieceInfoUndefined, false, some ("get cid info: " ++ err))) := by
  constructor
  · intro cidInfo hinfo
    unfold getPieceInfoFromCid
    rw [hinfo]
    simp only
    intro hfail
    constructor
    · intro pre l post err hlocs hl hpost
      rw [hlocs] at hfail ⊢
      exact getPieceInfoFromCid.loop_reason_last_failure cidStr n pieceStore pieceCID pre l post
        err hl hpost none none hfail
    · intro hnone
      exact getPieceInfoFromCid.loop_reason_no_failure cidStr n pieceStore pieceCID _ hnone
        none none hfail
  · intro err herr n2 getPieceInfo
    unfold getPieceInfoFromCid
    simp only [herr]

/-- C29 at concrete stores. The payload `[9]` of the failing store lies in the
pieces `[4]`, `[2]`, `[5]`: asked for the piece `[3]`, the lookup fails with
the error of the piece `[5]`, the last one that could not be fetched. In the
other store no lookup for the payload `[9]` fails and the piece `[3]` is
reported as unknown. A payload without CID info gives "get cid info". -/
theorem getPieceInfoFromCid_failure_reason_witness :
    getPieceInfoFromCid exampleCidStr exampleNode exampleFailingStore ⟨[9]⟩ ⟨[3]⟩ =
        (PieceInfoUndefined, false, some "could not locate piece: piece not found: [5]") ∧
      getPieceInfoFromCid exampleCidStr exampleNode exampleStore ⟨[9]⟩ ⟨[3]⟩ =
        (PieceInfoUndefined, false, some "could not locate piece: unknown pieceCID [3]") ∧
      getPieceInfoFromCid exampleCidStr exampleNode
          ⟨exampleStore.GetPieceInfo, exampleFailingStore.GetCIDInfo⟩ ⟨[6]⟩ ⟨[3]⟩ =
        (PieceInfoUndefined, false, some "get cid info: cid info not found") := by
  refine ⟨?_, ?_, ?_⟩
  · have h := ((getPieceInfoFromCid_failure_reason exampleCidStr exampleNode
      exampleFailingStore ⟨[9]⟩ ⟨[3]⟩).1 _ rfl (by decide)).1
      [exampleLocation ⟨[4]⟩, exampleLocation ⟨[2]⟩] (exampleLocation ⟨[5]⟩) []
      "piece not found: [5]" rfl rfl (by simp)
    rw [h]
    decide
  · have h := ((getPieceInfoFromCid_failure_reason exampleCidStr exampleNode
      exampleStore ⟨[9]⟩ ⟨[3]⟩).1 ⟨⟨[9]⟩, [exampleLocation ⟨[1]⟩, exampleLocation ⟨[2]⟩]⟩ rfl
      (by decide)).2 (by
        intro x hx e
        simp only [List.mem_cons, List.mem_singleton, List.not_mem_nil, or_false] at hx
        rcases hx with rfl | rfl
        · intro h; cases h
        · intro h; cases h)
    rw [h]
    decide
  · have h := (getPieceInfoFromCid_failure_reason exampleCidStr exampleNode
      exampleFailingStore ⟨[6]⟩ ⟨[3]⟩).2 "cid info not found" rfl exampleNode
      exampleStore.GetPieceInfo
    rw [h]
    decide

end retrievalimpl

/-! ### The lazy blockstore -/

namespace retrievalimpl

theorem lazyBlockstore.init_loads {σ : Type} (l : lazyBlockstore σ) (bs : bstore.Blockstore σ)
    (s s1 : σ) (hfresh : l.bs = none) (hload : l.load s = (s1, some bs, none)) :
    l.init s = ({ l with bs := some bs }, s1, some bs, none) := by
  simp only [lazyBlockstore.init, hfresh, hload]

theorem lazyBlockstore.init_loaded {σ : Type} (l : lazyBlockstore σ) (bs : bstore.Blockstore σ)
    (s : σ) (hbs : l.bs = some bs) :
    l.init s = (l, s, some bs, none) := by
  simp only [lazyBlockstore.init, hbs]

/-- C24: for every blockstore `bs` returned by a successful load and every CID
`c`, `Get(c)`, `Has(c)` and `GetSize(c)` of the lazy blockstore (and
`AllKeysChan`) return exactly the value and the error that the same method
of `bs` returns. This holds for the call that loads `bs` (the lazy
blockstore holds no blockstore yet, the load is run and the method of `bs`
is called on the world the load leaves), after which `bs` is held; and it
holds for every call on a lazy blockstore that holds `bs`, which runs no
load. -/
theorem lazyBlockstore_delegates {σ : Type} (l : lazyBlockstore σ)
    (bs : bstore.Blockstore σ) (c : Cid) :
    (∀ s s1, l.bs = none → l.load s = (s1, some bs, none) →
      l.Get s c = some ({ l with bs := some bs }, bs.Get s1 c) ∧
      l.Has s c = some ({ l with bs := some bs }, bs.Has s1 c) ∧
      l.GetSize s c = some ({ l with bs := some bs }, bs.GetSize s1 c) ∧
      l.AllKeysChan s = some ({ l with bs := some bs }, bs.AllKeysChan s1)) ∧
    (∀ s, l.bs = some bs →
      l.Get s c = some (l, bs.Get s c) ∧
      l.Has s c = some (l, bs.Has s c) ∧
      l.GetSize s c = some (l, bs.GetSize s c) ∧
      l.AllKeysChan s = some (l, bs.AllKeysChan s)) := by
  constructor
  · intro s s1 hfresh hload
    have hinit := lazyBlockstore.init_loads l bs s s1 hfresh hload
    refine ⟨?_, ?_, ?_, ?_⟩
    · simp only [lazyBlockstore.Get, hinit]
    · simp only [lazyBlockstore.Has, hinit]
    · simp only [lazyBlockstore.GetSize, hinit]
    · simp only [lazyBlockstore.AllKeysChan, hinit]
  · intro s hbs
    have hinit := lazyBlockstore.init_loaded l bs s hbs
    refine ⟨?_, ?_, ?_, ?_⟩
    · simp only [lazyBlockstore.Get, hinit]
    · simp only [lazyBlockstore.Has, hinit]
    · simp only [lazyBlockstore.GetSize, hinit]
    · simp only [lazyBlockstore.AllKeysChan, hinit]

/-- C24 on the blockstore of `lazyblockstore_test.go`, which holds one block:
through the lazy blockstore the block is found with its own bytes, `Has`
answers true, `GetSize` answers the length of its data and `AllKeysChan`
delivers its key, each after one load (the world counts 1). -/
theorem lazyBlockstore_delegates_witness :
    ((exampleLazyBlockstore [exampleBlock]).Get 0 exampleBlock.Cid).map (fun r => r.2) =
        some (1, some exampleBlock, none) ∧
      ((exampleLazyBlockstore [exampleBlock]).Has 0 exampleBlock.Cid).map (fun r => r.2) =
        some (1, true, none) ∧
      ((exampleLazyBlockstore [exampleBlock]).GetSize 0 exampleBlock.Cid).map (fun r => r.2) =
        some (1, 3, none) ∧
      ((exampleLazyBlockstore [exampleBlock]).AllKeysChan 0).map (fun r => r.2) =
        some (1, some [exampleBlock.Cid], none) := by
  obtain ⟨hget, hhas, hsize, hkeys⟩ :=
    (lazyBlockstore_delegates (exampleLazyBlockstore [exampleBlock])
      (exampleBlockstore [exampleBlock]) exampleBlock.Cid).1 0 1 rfl rfl
  rw [hget, hhas, hsize, hkeys]
  exact ⟨rfl, rfl, rfl, rfl⟩

end retrievalimpl

/-! ### Piece store: what a deal decoder refuses -/

namespace piecestore

open cbg gio

/-- The decoder of `DealInfo` succeeds exactly on five well-typed headers. -/
theorem DealInfo_UnmarshalCBOR_ok_iff (t d : DealInfo) (br rest : List Nat) :
    DealInfo.UnmarshalCBOR t br = .ok (d, rest) ↔
      ∃ r1 r2 r3 r4,
        CborReadHeader br = .ok (MajArray, 4, r1) ∧
        CborReadHeader r1 = .ok (MajUnsignedInt, d.DealID, r2) ∧
        CborReadHeader r2 = .ok (MajUnsignedInt, d.SectorID, r3) ∧
        CborReadHeader r3 = .ok (MajUnsignedInt, d.Offset, r4) ∧
        CborReadHeader r4 = .ok (MajUnsignedInt, d.Length, rest) := by
  constructor
  · intro h
    unfold DealInfo.UnmarshalCBOR at h
    rcases h0 : CborReadHeader br with e | ⟨m0, x0, r1⟩
    · simp [h0, bind, Except.bind] at h
    by_cases hm0 : m0 = MajArray
    swap
    · simp [h0, hm0, bind, Except.bind, pure, Except.pure, throw, throwThe,
        MonadExceptOf.throw] at h
    by_cases hx0 : x0 = 4
    swap
    · simp [h0, hm0, hx0, bind, Except.bind, pure, Except.pure, throw, throwThe,
        MonadExceptOf.throw] at h
    subst hm0 hx0
    rcases h1 : CborReadHeader r1 with e | ⟨m1, x1, r2⟩
    · simp [h0, h1, bind, Except.bind, pure, Except.pure] at h
    by_cases hm1 : m1 = MajUnsignedInt
    swap
    · simp [h0, h1, hm1, bind, Except.bind, pure, Except.pure, throw, throwThe,
        MonadExceptOf.throw] at h
    subst hm1
    rcases h2 : CborReadHeader r2 with e | ⟨m2, x2, r3⟩
    · simp [h0, h1, h2, bind, Except.bind, pure, Except.pure] at h
    by_cases hm2 : m2 = MajUnsignedInt
    swap
    · simp [h0, h1, h2, hm2, bind, Except.bind, pure, Except.pure, throw, throwThe,
        MonadExceptOf.throw] at h
    subst hm2
    rcases h3 : CborReadHeader r3 with e | ⟨m3, x3, r4⟩
    · simp [h0, h1, h2, h3, bind, Except.bind, pure, Except.pure] at h
    by_cases hm3 : m3 = MajUnsignedInt
    swap
    · simp [h0, h1, h2, h3, hm3, bind, Except.bind, pure, Except.pure, throw, throwThe,
        MonadExceptOf.throw] at h
    subst hm3
    rcases h4 : CborReadHeader r4 with e | ⟨m4, x4, r5⟩
    · simp [h0, h1, h2, h3, h4, bind, Except.bind, pure, Except.pure] at h
    by_cases hm4 : m4 = MajUnsignedInt
    swap
    · simp [h0, h1, h2, h3, h4, hm4, bind, Except.bind, pure, Except.pure, throw, throwThe,
        MonadExceptOf.throw] at h
    subst hm4
    simp [h0, h1, h2, h3, h4, bind, Except.bind, pure, Except.pure] at h
    obtain ⟨hd, hr⟩ := h
    subst hd hr
    exact ⟨r1, r2, r3, r4, rfl, h1, h2, h3, h4⟩
  · rintro ⟨r1, r2, r3, r4, h0, h1, h2, h3, h4⟩
    unfold DealInfo.UnmarshalCBOR
    simp [h0, h1, h2, h3, h4, bind, Except.bind, pure, Except.pure]

end piecestore

namespace piecestore

open cbg gio

theorem DealInfo_UnmarshalCBOR_error_of_not_ok (t : DealInfo) (br : List Nat)
    (h : ∀ d rest, DealInfo.UnmarshalCBOR t br ≠ .ok (d, rest)) :
    ∃ e, DealInfo.UnmarshalCBOR t br = .error e := by
  cases hres : DealInfo.UnmarshalCBOR t br with
  | error e => exact ⟨e, rfl⟩
  | ok r => exact absurd hres (h r.1 r.2)

/-- C30: `UnmarshalCBOR` for `DealInfo` returns an error for every input whose
first CBOR header is not an array header of length exactly 4 (an input
without a readable first header included), and for every input in which the
header read for any of the four items is not that of an unsigned integer
(major type 0); in particular it never accepts an array header of length 3
or 5. -/
theorem DealInfo_UnmarshalCBOR_rejects (t : DealInfo) (br : List Nat) :
    ((∀ r1, CborReadHeader br ≠ .ok (MajArray, 4, r1)) →
      ∃ e, DealInfo.UnmarshalCBOR t br = .error e) ∧
    (∀ n r1, CborReadHeader br = .ok (MajArray, n, r1) → n = 3 ∨ n = 5 →
      ∃ e, DealInfo.UnmarshalCBOR t br = .error e) ∧
    (∀ r1, CborReadHeader br = .ok (MajArray, 4, r1) →
      (∀ v1 r2, CborReadHeader r1 ≠ .ok (MajUnsignedInt, v1, r2)) →
      ∃ e, DealInfo.UnmarshalCBOR t br = .error e) ∧
    (∀ r1 v1 r2, CborReadHeader br = .ok (MajArray, 4, r1) →
      CborReadHeader r1 = .ok (MajUnsignedInt, v1, r2) →
      (∀ v2 r3, CborReadHeader r2 ≠ .ok (MajUnsignedInt, v2, r3)) →
      ∃ e, DealInfo.UnmarshalCBOR t br = .error e) ∧
    (∀ r1 v1 r2 v2 r3, CborReadHeader br = .ok (MajArray, 4, r1) →
      CborReadHeader r1 = .ok (MajUnsignedInt, v1, r2) →
      CborReadHeader r2 = .ok (MajUnsignedInt, v2, r3) →
      (∀ v3 r4, CborReadHeader r3 ≠ .ok (MajUnsignedInt, v3, r4)) →
      ∃ e, DealInfo.UnmarshalCBOR t br = .error e) ∧
    (∀ r1 v1 r2 v2 r3 v3 r4, CborReadHeader br = .ok (MajArray, 4, r1) →
      CborReadHeader r1 = .ok (MajUnsignedInt, v1, r2) →
      CborReadHeader r2 = .ok (MajUnsignedInt, v2, r3) →
      CborReadHeader r3 = .ok (MajUnsignedInt, v3, r4) →
      (∀ v4 rest, CborReadHeader r4 ≠ .ok (MajUnsignedInt, v4, rest)) →
      ∃ e, DealInfo.UnmarshalCBOR t br = .error e) := by
  refine ⟨fun h => ?_, fun n r1 h0 hn => ?_, fun r1 h0 h => ?_, fun r1 v1 r2 h0 h1 h => ?_,
    fun r1 v1 r2 v2 r3 h0 h1 h2 h => ?_, fun r1 v1 r2 v2 r3 v3 r4 h0 h1 h2 h3 h => ?_⟩ <;>
    refine DealInfo_UnmarshalCBOR_error_of_not_ok t br (fun d rest hok => ?_) <;>
    obtain ⟨q1, q2, q3, q4, g0, g1, g2, g3, g4⟩ :=
      (DealInfo_UnmarshalCBOR_ok_iff t d br rest).1 hok
  · exact h q1 g0
  · rw [g0] at h0
    injection h0 with h0
    injection h0 with _ h0
    injection h0 with h0 _
    rcases hn with rfl | rfl <;> cases h0
  · rw [g0] at h0
    injection h0 with h0
    injection h0 with _ h0
    injection h0 with _ h0
    subst h0
    exact h _ _ g1
  · rw [g0] at h0
    injection h0 with h0
    injection h0 with _ h0
    injection h0 with _ h0
    subst h0
    rw [g1] at h1
    injection h1 with h1
    injection h1 with _ h1
    injection h1 with _ h1
    subst h1
    exact h _ _ g2
  · rw [g0] at h0
    injection h0 with h0
    injection h0 with _ h0
    injection h0 with _ h0
    subst h0
    rw [g1] at h1
    injection h1 with h1
    injection h1 with _ h1
    injection h1 with _ h1
    subst h1
    rw [g2] at h2
    injection h2 with h2
    injection h2 with _ h2
    injection h2 with _ h2
    subst h2
    exact h _ _ g3
  · rw [g0] at h0
    injection h0 with h0
    injection h0 with _ h0
    injection h0 with _ h0
    subst h0
    rw [g1] at h1
    injection h1 with h1
    injection h1 with _ h1
    injection h1 with _ h1
    subst h1
    rw [g2] at h2
    injection h2 with h2
    injection h2 with _ h2
    injection h2 with _ h2
    subst h2
    rw [g3] at h3
    injection h3 with h3
    injection h3 with _ h3
    injection h3 with _ h3
    subst h3
    exact h _ _ g4

/-- C30 on concrete inputs: a map header, an array header of length 3, one of
length 5, and an array of length 4 whose second item is a text string are all
refused, each with the error of the check that fails. -/
theorem DealInfo_UnmarshalCBOR_rejects_witness :
    ((∃ e, DealInfo.UnmarshalCBOR ⟨0, 0, 0, 0⟩ [164, 1, 2, 3, 4] = .error e) ∧
      DealInfo.UnmarshalCBOR ⟨0, 0, 0, 0⟩ [164, 1, 2, 3, 4] =
        .error "cbor input should be of type array") ∧
    ((∃ e, DealInfo.UnmarshalCBOR ⟨0, 0, 0, 0⟩ [131, 1, 2, 3] = .error e) ∧
      DealInfo.UnmarshalCBOR ⟨0, 0, 0, 0⟩ [131, 1, 2, 3] =
        .error "cbor input had wrong number of fields") ∧
    ((∃ e, DealInfo.UnmarshalCBOR ⟨0, 0, 0, 0⟩ [133, 1, 2, 3, 4, 5] = .error e) ∧
      DealInfo.UnmarshalCBOR ⟨0, 0, 0, 0⟩ [133, 1, 2, 3, 4, 5] =
        .error "cbor input had wrong number of fields") ∧
    ((∃ e, DealInfo.UnmarshalCBOR ⟨0, 0, 0, 0⟩ [132, 1, 97, 3, 4] = .error e) ∧
      DealInfo.UnmarshalCBOR ⟨0, 0, 0, 0⟩ [132, 1, 97, 3, 4] =
        .error "wrong type for uint64 field") :=
  ⟨⟨(DealInfo_UnmarshalCBOR_rejects ⟨0, 0, 0, 0⟩ [164, 1, 2, 3, 4]).1
        (fun r1 h => by
          have h5 : CborReadHeader [164, 1, 2, 3, 4] = .ok (5, 4, [1, 2, 3, 4]) := rfl
          rw [h5] at h
          injection h with h
          injection h with h _
          revert h
          decide), rfl⟩,
    ⟨(DealInfo_UnmarshalCBOR_rejects ⟨0, 0, 0, 0⟩ [131, 1, 2, 3]).2.1 3 [1, 2, 3] rfl
        (Or.inl rfl), rfl⟩,
    ⟨(DealInfo_UnmarshalCBOR_rejects ⟨0, 0, 0, 0⟩ [133, 1, 2, 3, 4, 5]).2.1 5 [1, 2, 3, 4, 5]
        rfl (Or.inr rfl), rfl⟩,
    ⟨(DealInfo_UnmarshalCBOR_rejects ⟨0, 0, 0, 0⟩ [132, 1, 97, 3, 4]).2.2.2.1 [1, 97, 3, 4] 1
        [97, 3, 4] rfl rfl
        (fun v2 r3 h => by
          have h3 : CborReadHeader [97, 3, 4] = .ok (3, 1, [3, 4]) := rfl
          rw [h3] at h
          injection h with h
          injection h with h _
          revert h
          decide), rfl⟩⟩

end piecestore

/-! ### Order of the deal-parameter checks -/

namespace retrievalimpl

open piecestore retrievalmarket

/-- C32: `CheckDealParams` reports the first violated check in the fixed order
price per byte, payment interval, payment interval increase, unseal price:
a price per byte below the ask gives "Price per byte too low" whatever the
other parameters are; otherwise a payment interval above the ask gives
"Payment interval too large" whatever the remaining two are; otherwise a
payment interval increase above the ask gives "Payment interval increase too
large" whatever the unseal price is; and with the first three acceptable, an
unseal price below the one the ask defines gives "Unseal price too small". -/
theorem CheckDealParams_first_violation (ask : Ask) (pricePerByte : Int)
    (paymentInterval paymentIntervalIncrease : Nat) (unsealPrice : Int) :
    (pricePerByte < ask.PricePerByte →
      CheckDealParams ask pricePerByte paymentInterval paymentIntervalIncrease unsealPrice =
        some "Price per byte too low") ∧
    (ask.PricePerByte ≤ pricePerByte → ask.PaymentInterval < paymentInterval →
      CheckDealParams ask pricePerByte paymentInterval paymentIntervalIncrease unsealPrice =
        some "Payment interval too large") ∧
    (ask.PricePerByte ≤ pricePerByte → paymentInterval ≤ ask.PaymentInterval →
      ask.PaymentIntervalIncrease < paymentIntervalIncrease →
      CheckDealParams ask pricePerByte paymentInterval paymentIntervalIncrease unsealPrice =
        some "Payment interval increase too large") ∧
    (ask.PricePerByte ≤ pricePerByte → paymentInterval ≤ ask.PaymentInterval →
      paymentIntervalIncrease ≤ ask.PaymentIntervalIncrease →
      ∀ askUnseal, ask.UnsealPrice = some askUnseal → unsealPrice < askUnseal →
      CheckDealParams ask pricePerByte paymentInterval paymentIntervalIncrease unsealPrice =
        some "Unseal price too small") := by
  refine ⟨fun h1 => ?_, fun h1 h2 => ?_, fun h1 h2 h3 => ?_, fun h1 h2 h3 a ha h4 => ?_⟩
  · unfold CheckDealParams
    rw [if_pos h1]
  · unfold CheckDealParams
    rw [if_neg (not_lt.2 h1), if_pos h2]
  · unfold CheckDealParams
    rw [if_neg (not_lt.2 h1), if_neg (not_lt.2 h2), if_pos h3]
  · unfold CheckDealParams
    rw [if_neg (not_lt.2 h1), if_neg (not_lt.2 h2), if_neg (not_lt.2 h3), ha]
    simp only
    rw [if_pos h4]

/-- C32 against an ask of price 10, interval 100, increase 50 and unseal price
5: a proposal that violates all four checks is refused for its price; with
the price acceptable, for its interval; with these two acceptable, for its
interval increase; and with these three acceptable, for its unseal price. -/
theorem CheckDealParams_first_violation_witness :
    CheckDealParams ⟨10, some 5, 100, 50⟩ 9 101 51 4 = some "Price per byte too low" ∧
      CheckDealParams ⟨10, some 5, 100, 50⟩ 10 101 51 4 = some "Payment interval too large" ∧
      CheckDealParams ⟨10, some 5, 100, 50⟩ 10 100 51 4 =
        some "Payment interval increase too large" ∧
      CheckDealParams ⟨10, some 5, 100, 50⟩ 10 100 50 4 = some "Unseal price too small" :=
  ⟨(CheckDealParams_first_violation ⟨10, some 5, 100, 50⟩ 9 101 51 4).1 (by decide),
    (CheckDealParams_first_violation ⟨10, some 5, 100, 50⟩ 10 101 51 4).2.1 (by decide)
      (by decide),
    (CheckDealParams_first_violation ⟨10, some 5, 100, 50⟩ 10 100 51 4).2.2.1 (by decide)
      (by decide) (by decide),
    (CheckDealParams_first_violation ⟨10, some 5, 100, 50⟩ 10 100 50 4).2.2.2 (by decide)
      (by decide) (by decide) 5 rfl (by decide)⟩

end retrievalimpl

/-! ### Storage deals of a payload -/

theorem List.exists_last_split {α : Type} (P : α → Prop) (l : List α)
    (h : ∃ x ∈ l, P x) :
    ∃ pre x post, l = pre ++ x :: post ∧ P x ∧ ∀ y ∈ post, ¬ P y := by
  induction l with
  | nil =>
    obtain ⟨x, hx, _⟩ := h
    cases hx
  | cons a t ih =>
    by_cases ht : ∃ x ∈ t, P x
    · obtain ⟨pre, x, post, hsplit, hpx, hpost⟩ := ih ht
      exact ⟨a :: pre, x, post, by simp [hsplit], hpx, hpost⟩
    · have ha : P a := by
        obtain ⟨x, hx, hpx⟩ := h
        rcases List.mem_cons.1 hx with rfl | hx
        · exact hpx
        · exact absurd ⟨x, hx, hpx⟩ ht
      exact ⟨[], a, t, rfl, ha, fun y hy hpy => ht ⟨y, hy, hpy⟩⟩

namespace retrievalimpl

open piecestore retrievalmarket

/-- With the piece named by the client the result is read off the piece. -/
theorem storageDealsForPiece_specific (cidStr : Cid → String) (payloadCID : Cid)
    (pieceInfo : PieceInfo) (pieceStore : PieceStore) :
    storageDealsForPiece cidStr true payloadCID pieceInfo pieceStore =
      if pieceInfo.Deals.length = 0 then .error "no storage deals found"
      else .ok (pieceInfo.Deals.map (fun d => d.DealID)) := by
  unfold storageDealsForPiece
  by_cases h : pieceInfo.Deals.length = 0
  · simp [h, bind, Except.bind, pure, Except.pure, throw, throwThe, MonadExceptOf.throw]
  · simp [h, bind, Except.bind, pure, Except.pure, throw, throwThe, MonadExceptOf.throw]

/-- C33: when the client named a specific piece, `storageDealsForPiece` returns
exactly the deal ids of `pieceInfo.Deals` in list order, whatever the piece
store is (it is not consulted), and fails with "no storage deals found" if
and only if the piece has no deals; and in both modes a successful result is
never an empty list. -/
theorem storageDealsForPiece_specific_piece (cidStr : Cid → String) (payloadCID : Cid)
    (pieceInfo : PieceInfo) (pieceStore : PieceStore) :
    (pieceInfo.Deals ≠ [] →
      ∀ anyStore : PieceStore,
        storageDealsForPiece cidStr true payloadCID pieceInfo anyStore =
          .ok (pieceInfo.Deals.map (fun d => d.DealID))) ∧
    (pieceInfo.Deals = [] →
      ∀ anyStore : PieceStore,
        storageDealsForPiece cidStr true payloadCID pieceInfo anyStore =
          .error "no storage deals found") ∧
    (storageDealsForPiece cidStr true payloadCID pieceInfo pieceStore =
        .error "no storage deals found" ↔ pieceInfo.Deals = []) ∧
    (∀ clientSpecificPiece storageDeals,
      storageDealsForPiece cidStr clientSpecificPiece payloadCID pieceInfo pieceStore =
        .ok storageDeals → storageDeals ≠ []) := by
  refine ⟨fun h anyStore => ?_, fun h anyStore => ?_, ?_, ?_⟩
  · rw [storageDealsForPiece_specific, if_neg (by simpa using h)]
  · rw [storageDealsForPiece_specific, if_pos (by simp [h])]
  · rw [storageDealsForPiece_specific]
    by_cases h : pieceInfo.Deals = []
    · simp [h]
    · rw [if_neg (by simpa using h)]
      simp [h]
  · intro clientSpecificPiece storageDeals hok hnil
    subst hnil
    unfold storageDealsForPiece at hok
    cases clientSpecificPiece with
    | true =>
      by_cases h : pieceInfo.Deals.length = 0
      · simp [h, bind, Except.bind, pure, Except.pure, throw, throwThe,
          MonadExceptOf.throw] at hok
      · simp [h, bind, Except.bind, pure, Except.pure, throw, throwThe,
          MonadExceptOf.throw] at hok
        exact h (by simp [hok])
    | false =>
      cases hall : getAllDealsContainingPayload cidStr pieceStore payloadCID with
      | error e =>
        simp [hall, bind, Except.bind, pure, Except.pure, throw, throwThe,
          MonadExceptOf.throw] at hok
      | ok ds =>
        by_cases h : ds.length = 0
        · simp [hall, h, bind, Except.bind, pure, Except.pure, throw, throwThe,
            MonadExceptOf.throw] at hok
        · simp [hall, h, bind, Except.bind, pure, Except.pure, throw, throwThe,
            MonadExceptOf.throw] at hok
          exact h (by simp [hok])

/-- C33 on the example pieces: the piece with the deals 13, 14, 15 gives these
ids in this order from a store that knows nothing, the piece without deals
gives "no storage deals found", and without a named piece the payload `[7]`,
whose only piece has no deals, is refused instead of giving an empty list. -/
theorem storageDealsForPiece_specific_piece_witness :
    storageDealsForPiece exampleCidStr true ⟨[9]⟩ examplePieceD
        ⟨fun _ => .error "unused", fun _ => .error "unused"⟩ = .ok [13, 14, 15] ∧
      storageDealsForPiece exampleCidStr true ⟨[9]⟩ examplePieceE
        ⟨fun _ => .error "unused", fun _ => .error "unused"⟩ =
          .error "no storage deals found" ∧
      storageDealsForPiece exampleCidStr false ⟨[7]⟩ examplePieceD exampleDealStore =
          .error "failed to fetch deals for payload: no deals found" ∧
      ∀ storageDeals,
        storageDealsForPiece exampleCidStr false ⟨[9]⟩ examplePieceD exampleDealStore =
          .ok storageDeals → storageDeals ≠ [] :=
  ⟨(storageDealsForPiece_specific_piece exampleCidStr ⟨[9]⟩ examplePieceD exampleDealStore).1
      (by decide) ⟨fun _ => .error "unused", fun _ => .error "unused"⟩,
    (storageDealsForPiece_specific_piece exampleCidStr ⟨[9]⟩ examplePieceE exampleDealStore).2.1
      rfl ⟨fun _ => .error "unused", fun _ => .error "unused"⟩,
    rfl,
    (storageDealsForPiece_specific_piece exampleCidStr ⟨[9]⟩ examplePieceD
      exampleDealStore).2.2.2 false⟩

/-- The scan collects the deal ids of the fetched pieces and remembers the
error it was entered with when no lookup fails. -/
theorem getAllDealsContainingPayload.loop_no_failure (cidStr : Cid → String)
    (pieceStore : PieceStore) (payloadCID : Cid) (locs : List PieceBlockLocation)
    (hlocs : ∀ x ∈ locs, ∀ e, pieceStore.GetPieceInfo x.PieceCID ≠ .error e) :
    ∀ dealsIds lastErr,
      getAllDealsContainingPayload.loop cidStr pieceStore payloadCID locs dealsIds lastErr =
        getAllDealsContainingPayload.loop cidStr pieceStore payloadCID []
          (dealsIds ++ dealsOfFetchedPieces pieceStore locs) lastErr := by
  induction locs with
  | nil =>
    intro dealsIds lastErr
    simp [dealsOfFetchedPieces]
  | cons a t ih =>
    intro dealsIds lastErr
    have ht : ∀ x ∈ t, ∀ e, pieceStore.GetPieceInfo x.PieceCID ≠ .error e :=
      fun x hx => hlocs x (List.mem_cons_of_mem a hx)
    conv_lhs => rw [getAllDealsContainingPayload.loop]
    cases hget : pieceStore.GetPieceInfo a.PieceCID with
    | error err => exact absurd hget (hlocs a (List.mem_cons_self a t) err)
    | ok q =>
      simp only
      rw [ih ht]
      have e : dealsOfFetchedPieces pieceStore (a :: t) =
          q.Deals.map (fun d => d.DealID) ++ dealsOfFetchedPieces pieceStore t := by
        simp [dealsOfFetchedPieces, hget]
      rw [e, List.append_assoc]

/-- The scan collects the deal ids of the fetched pieces and remembers the
error of the last lookup that failed. -/
theorem getAllDealsContainingPayload.loop_last_failure (cidStr : Cid → String)
    (pieceStore : PieceStore) (payloadCID : Cid)
    (pre : List PieceBlockLocation) (l : PieceBlockLocation) (post : List PieceBlockLocation)
    (err : String) (hl : pieceStore.GetPieceInfo l.PieceCID = .error err)
    (hpost : ∀ x ∈ post, ∀ e, pieceStore.GetPieceInfo x.PieceCID ≠ .error e) :
    ∀ dealsIds lastErr,
      getAllDealsContainingPayload.loop cidStr pieceStore payloadCID (pre ++ l :: post)
          dealsIds lastErr =
        getAllDealsContainingPayload.loop cidStr pieceStore payloadCID []
          (dealsIds ++ dealsOfFetchedPieces pieceStore (pre ++ l :: post)) (some err) := by
  induction pre with
  | nil =>
    intro dealsIds lastErr
    rw [List.nil_append]
    conv_lhs => rw [getAllDealsContainingPayload.loop, hl]
    simp only
    rw [getAllDealsContainingPayload.loop_no_failure cidStr pieceStore payloadCID post hpost]
    have e : dealsOfFetchedPieces pieceStore (l :: post) =
        dealsOfFetchedPieces pieceStore post := by
      simp [dealsOfFetchedPieces, hl]
    rw [e]
  | cons a t ih =>
    intro dealsIds lastErr
    rw [List.cons_append]
    conv_lhs => rw [getAllDealsContainingPayload.loop]
    cases hget : pieceStore.GetPieceInfo a.PieceCID with
    | error e0 =>
      simp only
      rw [ih]
      have e : dealsOfFetchedPieces pieceStore (a :: (t ++ l :: post)) =
          dealsOfFetchedPieces pieceStore (t ++ l :: post) := by
        simp [dealsOfFetchedPieces, hget]
      rw [e]
    | ok q =>
      simp only
      rw [ih]
      have e : dealsOfFetchedPieces pieceStore (a :: (t ++ l :: post)) =
          q.Deals.map (fun d => d.DealID) ++
            dealsOfFetchedPieces pieceStore (t ++ l :: post) := by
        simp [dealsOfFetchedPieces, hget]
      rw [e, List.append_assoc]

/-- C34: given that `GetCIDInfo` succeeds, `getAllDealsContainingPayload`
returns the concatenation, in the order of the locations and with duplicates
kept, of the deal ids of every piece whose info is fetched successfully, and
it does so whenever that concatenation is not empty, failed lookups or not.
It fails if and only if the concatenation is empty: with "no deals found"
when no lookup failed, and otherwise with "failed to fetch deals containing
payload", the payload CID and the error of the last lookup that failed. -/
theorem getAllDealsContainingPayload_collects (cidStr : Cid → String)
    (pieceStore : PieceStore) (payloadCID : Cid) (cidInfo : CIDInfo)
    (hinfo : pieceStore.GetCIDInfo payloadCID = .ok cidInfo) :
    (dealsOfFetchedPieces pieceStore cidInfo.PieceBlockLocations ≠ [] →
      getAllDealsContainingPayload cidStr pieceStore payloadCID =
        .ok (dealsOfFetchedPieces pieceStore cidInfo.PieceBlockLocations)) ∧
    ((∃ e, getAllDealsContainingPayload cidStr pieceStore payloadCID = .error e) ↔
      dealsOfFetchedPieces pieceStore cidInfo.PieceBlockLocations = []) ∧
    (dealsOfFetchedPieces pieceStore cidInfo.PieceBlockLocations = [] →
      (∀ x ∈ cidInfo.PieceBlockLocations, ∀ e,
        pieceStore.GetPieceInfo x.PieceCID ≠ .error e) →
      getAllDealsContainingPayload cidStr pieceStore payloadCID = .error "no deals found") ∧
    (dealsOfFetchedPieces pieceStore cidInfo.PieceBlockLocations = [] →
      ∀ pre l post err, cidInfo.PieceBlockLocations = pre ++ l :: post →
        pieceStore.GetPieceInfo l.PieceCID = .error err →
        (∀ x ∈ post, ∀ e, pieceStore.GetPieceInfo x.PieceCID ≠ .error e) →
        getAllDealsContainingPayload cidStr pieceStore payloadCID =
          .error ("failed to fetch deals containing payload " ++ cidStr payloadCID ++ ": " ++
            err)) := by
  have hrun : getAllDealsContainingPayload cidStr pieceStore payloadCID =
      getAllDealsContainingPayload.loop cidStr pieceStore payloadCID
        cidInfo.PieceBlockLocations [] none := by
    simp only [getAllDealsContainingPayload, hinfo]
  have hfinal : ∃ lastErr,
      getAllDealsContainingPayload cidStr pieceStore payloadCID =
        getAllDealsContainingPayload.loop cidStr pieceStore payloadCID []
          (dealsOfFetchedPieces pieceStore cidInfo.PieceBlockLocations) lastErr := by
    rw [hrun]
    by_cases hfail : ∀ x ∈ cidInfo.PieceBlockLocations, ∀ e,
        pieceStore.GetPieceInfo x.PieceCID ≠ .error e
    · exact ⟨none, by
        rw [getAllDealsContainingPayload.loop_no_failure cidStr pieceStore payloadCID _ hfail,
          List.nil_append]⟩
    · have hex : ∃ x ∈ cidInfo.PieceBlockLocations,
          ¬ ∀ e, pieceStore.GetPieceInfo x.PieceCID ≠ .error e := by
        by_contra hno
        exact hfail (fun x hx => by
          by_contra hx2
          exact hno ⟨x, hx, hx2⟩)
      obtain ⟨pre, l, post, hsplit, hl, hpost⟩ :=
        List.exists_last_split
          (fun x => ¬ ∀ e, pieceStore.GetPieceInfo x.PieceCID ≠ .error e)
          cidInfo.PieceBlockLocations hex
      have hl2 : ∃ err, pieceStore.GetPieceInfo l.PieceCID = .error err := by
        by_contra hno
        exact hl (fun e he => hno ⟨e, he⟩)
      obtain ⟨err, herr⟩ := hl2
      have hpost2 : ∀ x ∈ post, ∀ e, pieceStore.GetPieceInfo x.PieceCID ≠ .error e :=
        fun x hx => not_not.1 (hpost x hx)
      exact ⟨some err, by
        rw [hsplit, getAllDealsContainingPayload.loop_last_failure cidStr pieceStore payloadCID
          pre l post err herr hpost2, List.nil_append]⟩
  refine ⟨fun hne => ?_, ?_, fun hnil hfail => ?_, fun hnil pre l post err hsplit hl hpost => ?_⟩
  · obtain ⟨lastErr, h⟩ := hfinal
    rw [h]
    unfold getAllDealsContainingPayload.loop
    have hlen : (dealsOfFetchedPieces pieceStore cidInfo.PieceBlockLocations).length ≠ 0 := by
      simpa using hne
    cases lastErr with
    | none => simp only [hlen, if_false]
    | some e => simp only [hlen, if_false]
  · obtain ⟨lastErr, h⟩ := hfinal
    rw [h]
    unfold getAllDealsContainingPayload.loop
    by_cases hnil : dealsOfFetchedPieces pieceStore cidInfo.PieceBlockLocations = []
    · cases lastErr with
      | none => simp [hnil]
      | some e => simp [hnil]
    · have hlen : (dealsOfFetchedPieces pieceStore cidInfo.PieceBlockLocations).length ≠ 0 := by
        simpa using hnil
      cases lastErr with
      | none => simp [hnil, hlen]
      | some e => simp [hnil, hlen]
  · rw [hrun, getAllDealsContainingPayload.loop_no_failure cidStr pieceStore payloadCID _ hfail,
      List.nil_append, hnil]
    rfl
  · rw [hrun, hsplit, getAllDealsContainingPayload.loop_last_failure cidStr pieceStore
      payloadCID pre l post err hl hpost, List.nil_append, ← hsplit, hnil]
    rfl

/-- C34 on the example store: for the payload `[9]` the piece `[4]` cannot be
fetched and the deals 11, 10 and again 11 of the other pieces are returned;
for the payload `[8]` no piece can be fetched and the error of the last
lookup is wrapped; for the payload `[7]` the only piece has no deals. -/
theorem getAllDealsContainingPayload_collects_witness :
    getAllDealsContainingPayload exampleCidStr exampleDealStore ⟨[9]⟩ = .ok [11, 10, 11] ∧
      getAllDealsContainingPayload exampleCidStr exampleDealStore ⟨[8]⟩ =
        .error "failed to fetch deals containing payload [8]: piece not found: [5]" ∧
      getAllDealsContainingPayload exampleCidStr exampleDealStore ⟨[7]⟩ =
        .error "no deals found" := by
  refine ⟨?_, ?_, ?_⟩
  · have h := (getAllDealsContainingPayload_collects exampleCidStr exampleDealStore ⟨[9]⟩
      _ rfl).1 (by decide)
    rw [h]
    rfl
  · have h := (getAllDealsContainingPayload_collects exampleCidStr exampleDealStore ⟨[8]⟩
      _ rfl).2.2.2 (by decide) [exampleLocation ⟨[4]⟩] (exampleLocation ⟨[5]⟩) []
      "piece not found: [5]" rfl rfl (by simp)
    rw [h]
    rfl
  · exact (getAllDealsContainingPayload_collects exampleCidStr exampleDealStore ⟨[7]⟩
      _ rfl).2.2.1 (by decide) (by
        intro x hx e
        simp only [List.mem_singleton] at hx
        subst hx
        intro h
        cases h)

end retrievalimpl

/-! ### What a successful piece lookup returns -/

namespace retrievalimpl

open piecestore retrievalmarket

/-- A successful scan returns a piece fetched for one of the locations it
visits, with the answer of `pieceInUnsealedSector` for it, or the sealed
piece it was entered with. -/
theorem getPieceInfoFromCid.loop_ok_origin (cidStr : Cid → String)
    (n : RetrievalProviderNode) (pieceStore : PieceStore) (pieceCID : Cid)
    (locs : List PieceBlockLocation) :
    ∀ lastErr sealedPieceInfo piece isUnsealed,
      getPieceInfoFromCid.loop cidStr n pieceStore pieceCID locs lastErr sealedPieceInfo =
        (piece, isUnsealed, none) →
      (∃ l ∈ locs, pieceStore.GetPieceInfo l.PieceCID = .ok piece ∧
        isUnsealed = pieceInUnsealedSector n piece) ∨
      (sealedPieceInfo = some piece ∧ isUnsealed = false) := by
  induction locs with
  | nil =>
    intro lastErr sealedPieceInfo piece isUnsealed h
    cases sealedPieceInfo with
    | some p =>
      simp only [getPieceInfoFromCid.loop, Prod.mk.injEq, and_true] at h
      exact Or.inr ⟨by rw [h.1], h.2.symm⟩
    | none =>
      simp [getPieceInfoFromCid.loop] at h
  | cons a t ih =>
    intro lastErr sealedPieceInfo piece isUnsealed h
    rw [getPieceInfoFromCid.loop] at h
    cases hget : pieceStore.GetPieceInfo a.PieceCID with
    | error err =>
      rw [hget] at h
      rcases ih (some err) sealedPieceInfo piece isUnsealed h with ⟨l, hl, hok⟩ | hs
      · exact Or.inl ⟨l, List.mem_cons_of_mem a hl, hok⟩
      · exact Or.inr hs
    | ok q =>
      rw [hget] at h
      simp only at h
      split_ifs at h with h1 h2 h3
      · simp only [Prod.mk.injEq, and_true] at h
        obtain ⟨hq, hb⟩ := h
        subst hq
        exact Or.inl ⟨a, List.mem_cons_self a t, hget, hb.symm⟩
      · simp only [Prod.mk.injEq, and_true] at h
        obtain ⟨hq, hb⟩ := h
        subst hq
        exact Or.inl ⟨a, List.mem_cons_self a t, hget, by rw [h3, ← hb]⟩
      · have h4 : pieceInUnsealedSector n q = false := by simpa using h3
        rcases ih lastErr _ piece isUnsealed h with ⟨l, hl, hok⟩ | ⟨hs, hb⟩
        · exact Or.inl ⟨l, List.mem_cons_of_mem a hl, hok⟩
        · cases sealedPieceInfo with
          | some p => exact Or.inr ⟨hs, hb⟩
          | none =>
            simp only [Option.some.injEq] at hs
            subst hs
            exact Or.inl ⟨a, List.mem_cons_self a t, hget, by rw [hb, h4]⟩
      · rcases ih lastErr sealedPieceInfo piece isUnsealed h with ⟨l, hl, hok⟩ | hs
        · exact Or.inl ⟨l, List.mem_cons_of_mem a hl, hok⟩
        · exact Or.inr hs

/-- C39: whenever `getPieceInfoFromCid` succeeds with `(piece, isUnsealed)`
(the unsealed oracle being a function, so deterministic), the CID info of the
payload was found, `piece` is the piece info fetched for one of its
`PieceBlockLocations`, and `isUnsealed` equals `pieceInUnsealedSector` of
that piece; so a piece is reported unsealed only if the oracle confirms one
of its deals, and no piece outside the payload's locations is returned. -/
theorem getPieceInfoFromCid_result_invariant (cidStr : Cid → String)
    (n : RetrievalProviderNode) (pieceStore : PieceStore) (payloadCID pieceCID : Cid)
    (piece : PieceInfo) (isUnsealed : Bool)
    (hok : getPieceInfoFromCid cidStr n pieceStore payloadCID pieceCID =
      (piece, isUnsealed, none)) :
    isUnsealed = pieceInUnsealedSector n piece ∧
    (∃ cidInfo, pieceStore.GetCIDInfo payloadCID = .ok cidInfo ∧
      ∃ l ∈ cidInfo.PieceBlockLocations, pieceStore.GetPieceInfo l.PieceCID = .ok piece) ∧
    (isUnsealed = true →
      ∃ di ∈ piece.Deals,
        n.IsUnsealed di.SectorID (abi.PaddedPieceSize.Unpadded di.Offset) di.Length =
          .ok true) := by
  unfold getPieceInfoFromCid at hok
  cases hinfo : pieceStore.GetCIDInfo payloadCID with
  | error err =>
    rw [hinfo] at hok
    simp at hok
  | ok cidInfo =>
    rw [hinfo] at hok
    simp only at hok
    rcases getPieceInfoFromCid.loop_ok_origin cidStr n pieceStore pieceCID _ none none piece
      isUnsealed hok with ⟨l, hl, hget, hb⟩ | ⟨hs, _⟩
    · refine ⟨hb, ⟨cidInfo, rfl, l, hl, hget⟩, fun ht => ?_⟩
      rw [hb] at ht
      exact (pieceInUnsealedSector.loop_iff n piece.Deals).1 ht
    · cases hs

/-- C39 on the example store: without a named piece the payload `[9]` is
served from the piece `[1]`, the piece of its first location, which is
reported unsealed because the oracle confirms its deal in sector 1; and the
payload `[7]` is served from the sealed piece `[2]`, fetched for its second
location. -/
theorem getPieceInfoFromCid_result_invariant_witness :
    (getPieceInfoFromCid exampleCidStr exampleNode exampleStore ⟨[9]⟩ Cid.Undef =
        (examplePieceA, true, none) ∧
      true = pieceInUnsealedSector exampleNode examplePieceA ∧
      (∃ cidInfo, exampleStore.GetCIDInfo ⟨[9]⟩ = .ok cidInfo ∧
        ∃ l ∈ cidInfo.PieceBlockLocations,
          exampleStore.GetPieceInfo l.PieceCID = .ok examplePieceA)) ∧
    (getPieceInfoFromCid exampleCidStr exampleNode exampleStore ⟨[7]⟩ Cid.Undef =
        (examplePieceB, false, none) ∧
      false = pieceInUnsealedSector exampleNode examplePieceB ∧
      (∃ cidInfo, exampleStore.GetCIDInfo ⟨[7]⟩ = .ok cidInfo ∧
        ∃ l ∈ cidInfo.PieceBlockLocations,
          exampleStore.GetPieceInfo l.PieceCID = .ok examplePieceB)) :=
  ⟨⟨rfl,
      (getPieceInfoFromCid_result_invariant exampleCidStr exampleNode exampleStore ⟨[9]⟩
        Cid.Undef examplePieceA true rfl).1,
      (getPieceInfoFromCid_result_invariant exampleCidStr exampleNode exampleStore ⟨[9]⟩
        Cid.Undef examplePieceA true rfl).2.1⟩,
    ⟨rfl,
      (getPieceInfoFromCid_result_invariant exampleCidStr exampleNode exampleStore ⟨[7]⟩
        Cid.Undef examplePieceB false rfl).1,
      (getPieceInfoFromCid_result_invariant exampleCidStr exampleNode exampleStore ⟨[7]⟩
        Cid.Undef examplePieceB false rfl).2.1⟩⟩

end retrievalimpl

/-! ### Piece store: streams, limits and the receiver -/

namespace piecestore

open cbg gio

/-- C40: for every `DealInfo` `d` (four `uint64` values) and every byte
sequence `rest`, decoding a `DealInfo` from the bytes that `MarshalCBOR`
writes for `d` followed by `rest` yields `d`, whatever the receiver held,
and leaves exactly `rest` unread. Hence the deals that the loop of
`PieceInfo.MarshalCBOR` writes one after the other are decoded by the loop of
`PieceInfo.UnmarshalCBOR` one after the other, each from its own bytes, and
what follows the last one is left unread. -/
theorem DealInfo_decode_leaves_rest (d t : DealInfo) (rest : List Nat) (hd : d.isUint64) :
    (∃ enc, DealInfo.MarshalCBOR (some d) bufferWriter [] = .ok enc ∧
      DealInfo.UnmarshalCBOR t (enc ++ rest) = .ok (d, rest)) ∧
    (∀ deals : List DealInfo, (∀ x ∈ deals, x.isUint64) →
      ∃ stream, cbor.PieceInfo.MarshalCBOR.loop bufferWriter deals [] = .ok stream ∧
        cbor.PieceInfo.UnmarshalCBOR.loop deals.length (stream ++ rest) = .ok (deals, rest)) := by
  constructor
  · refine ⟨d.wire, ?_, DealInfo_UnmarshalCBOR_wire d t rest hd⟩
    rw [DealInfo_MarshalCBOR_buffer, List.nil_append]
  · intro deals hds
    refine ⟨(deals.map DealInfo.wire).flatten, ?_,
      PieceInfo_UnmarshalCBOR_loop_wire deals hds rest⟩
    rw [PieceInfo_MarshalCBOR_loop_buffer, List.nil_append]

/-- C40 on two deals: the first is decoded from its nine bytes and the three
bytes that follow are left; the two deals written one after the other are
decoded in order and the byte that follows them is left. -/
theorem DealInfo_decode_leaves_rest_witness :
    (DealInfo.MarshalCBOR (some ⟨10, 1, 0, 100⟩) bufferWriter [] =
        .ok [132, 10, 1, 0, 24, 100] ∧
      DealInfo.UnmarshalCBOR ⟨7, 7, 7, 7⟩ ([132, 10, 1, 0, 24, 100] ++ [1, 2, 3]) =
        .ok (⟨10, 1, 0, 100⟩, [1, 2, 3])) ∧
    (cbor.PieceInfo.MarshalCBOR.loop bufferWriter [⟨10, 1, 0, 100⟩, ⟨11, 2, 0, 300⟩] [] =
        .ok [132, 10, 1, 0, 24, 100, 132, 11, 2, 0, 25, 1, 44] ∧
      cbor.PieceInfo.UnmarshalCBOR.loop 2
          ([132, 10, 1, 0, 24, 100, 132, 11, 2, 0, 25, 1, 44] ++ [255]) =
        .ok ([⟨10, 1, 0, 100⟩, ⟨11, 2, 0, 300⟩], [255])) := by
  have hu : ∀ x ∈ [(⟨10, 1, 0, 100⟩ : DealInfo), ⟨11, 2, 0, 300⟩], x.isUint64 := by
    intro x hx
    simp only [List.mem_cons, List.mem_singleton, List.not_mem_nil, or_false] at hx
    rcases hx with rfl | rfl <;> exact ⟨by decide, by decide, by decide, by decide⟩
  obtain ⟨⟨enc, henc, hdec⟩, hloop⟩ :=
    DealInfo_decode_leaves_rest ⟨10, 1, 0, 100⟩ ⟨7, 7, 7, 7⟩ [1, 2, 3]
      ⟨by decide, by decide, by decide, by decide⟩
  obtain ⟨⟨_, _, _⟩, hloop2⟩ :=
    DealInfo_decode_leaves_rest ⟨10, 1, 0, 100⟩ ⟨7, 7, 7, 7⟩ [255]
      ⟨by decide, by decide, by decide, by decide⟩
  obtain ⟨stream, hstream, hdecs⟩ := hloop2 [⟨10, 1, 0, 100⟩, ⟨11, 2, 0, 300⟩] hu
  have henc2 : DealInfo.MarshalCBOR (some ⟨10, 1, 0, 100⟩) bufferWriter [] =
      .ok [132, 10, 1, 0, 24, 100] := rfl
  have hstream2 : cbor.PieceInfo.MarshalCBOR.loop bufferWriter
      [⟨10, 1, 0, 100⟩, ⟨11, 2, 0, 300⟩] [] =
      .ok [132, 10, 1, 0, 24, 100, 132, 11, 2, 0, 25, 1, 44] := rfl
  rw [henc2] at henc
  rw [hstream2] at hstream
  injection henc with henc
  injection hstream with hstream
  subst henc hstream
  exact ⟨⟨henc2, hdec⟩, hstream2, hdecs⟩

end piecestore

namespace piecestore

open cbg gio

theorem PieceInfo_MarshalCBOR_loop_ok_of_writer {σ : Type} (w : Writer σ)
    (hw : ∀ s p, ∃ s1, w.Write s p = .ok s1) (deals : List DealInfo) :
    ∀ s, ∃ s1, cbor.PieceInfo.MarshalCBOR.loop w deals s = .ok s1 := by
  induction deals with
  | nil => intro s; exact ⟨s, rfl⟩
  | cons d t ih =>
    intro s
    obtain ⟨s1, h1⟩ := DealInfo_MarshalCBOR_ok_of_writer d w s hw
    obtain ⟨s2, h2⟩ := ih s1
    exact ⟨s2, by simp [cbor.PieceInfo.MarshalCBOR.loop, h1, h2, bind, Except.bind]⟩

/-- C35: on a writer that never fails, `MarshalCBOR` of a non-nil `PieceInfo`
returns an error if and only if the length of `PieceCID` exceeds
`cbg.ByteArrayMaxLen` or the number of deals exceeds `cbg.MaxLength`.
`UnmarshalCBOR` refuses every input whose second header declares more than
`ByteArrayMaxLen` bytes, and every input whose header after the `PieceCID`
bytes declares more than `MaxLength` deals; nothing is asked of the bytes
after that header, which are not read. -/
theorem PieceInfo_length_limits {σ : Type} (w : Writer σ)
    (hw : ∀ s p, ∃ s1, w.Write s p = .ok s1) (p t : cbor.PieceInfo) (s : σ) :
    ((∃ e, cbor.PieceInfo.MarshalCBOR (some p) w s = .error e) ↔
      p.PieceCID.length > ByteArrayMaxLen ∨ p.Deals.length > MaxLength) ∧
    (∀ br r0 maj extra r1, CborReadHeader br = .ok (MajArray, 2, r0) →
      CborReadHeader r0 = .ok (maj, extra, r1) → extra > ByteArrayMaxLen →
      cbor.PieceInfo.UnmarshalCBOR t br =
        .error ("t.PieceCID: byte array too large (" ++ toString extra ++ ")")) ∧
    (∀ br r0 extra r1 pieceCID r2 maj n r3, CborReadHeader br = .ok (MajArray, 2, r0) →
      CborReadHeader r0 = .ok (MajByteString, extra, r1) → extra ≤ ByteArrayMaxLen →
      ReadFull r1 extra = .ok (pieceCID, r2) →
      CborReadHeader r2 = .ok (maj, n, r3) → n > MaxLength →
      cbor.PieceInfo.UnmarshalCBOR t br =
        .error ("t.Deals: array too large (" ++ toString n ++ ")")) := by
  refine ⟨?_, ?_, ?_⟩
  · obtain ⟨s1, h1⟩ := hw s [130]
    obtain ⟨s2, h2⟩ := hw s1 (CborEncodeMajorType MajByteString p.PieceCID.length)
    obtain ⟨s3, h3⟩ := hw s2 p.PieceCID
    obtain ⟨s4, h4⟩ := hw s3 (CborEncodeMajorType MajArray p.Deals.length)
    obtain ⟨s5, h5⟩ := PieceInfo_MarshalCBOR_loop_ok_of_writer w hw p.Deals s4
    by_cases hc : p.PieceCID.length > ByteArrayMaxLen
    · simp [cbor.PieceInfo.MarshalCBOR, bind, Except.bind, pure, Except.pure, throw, throwThe,
        MonadExceptOf.throw, h1, hc]
    · by_cases hdl : p.Deals.length > MaxLength
      · simp [cbor.PieceInfo.MarshalCBOR, bind, Except.bind, pure, Except.pure, throw,
          throwThe, MonadExceptOf.throw, h1, h2, h3, hc, hdl]
      · simp [cbor.PieceInfo.MarshalCBOR, bind, Except.bind, pure, Except.pure, throw,
          throwThe, MonadExceptOf.throw, h1, h2, h3, h4, h5, hc, hdl]
  · intro br r0 maj extra r1 h0 h1 hx
    simp [cbor.PieceInfo.UnmarshalCBOR, bind, Except.bind, pure, Except.pure, throw, throwThe,
      MonadExceptOf.throw, h0, h1, hx]
  · intro br r0 extra r1 pieceCID r2 maj n r3 h0 h1 hx hfull h2 hn
    simp [cbor.PieceInfo.UnmarshalCBOR, bind, Except.bind, pure, Except.pure, throw, throwThe,
      MonadExceptOf.throw, h0, h1, not_lt.2 hx, hfull, h2, hn]

/-- C35 on a byte buffer: a piece within both limits is written and a piece
with 8193 deals is refused; an input whose second header declares 2097153
bytes is refused although no byte follows the header, and so is an input that
declares 8193 deals. -/
theorem PieceInfo_length_limits_witness :
    ((∃ e, cbor.PieceInfo.MarshalCBOR (some ⟨[1, 2], [⟨10, 1, 0, 100⟩]⟩) bufferWriter [] =
          .error e) ↔
      (2 > ByteArrayMaxLen ∨ 1 > MaxLength)) ∧
    (∃ e, cbor.PieceInfo.MarshalCBOR (some ⟨[], List.replicate 8193 ⟨0, 0, 0, 0⟩⟩)
        bufferWriter [] = .error e) ∧
    cbor.PieceInfo.UnmarshalCBOR ⟨[], []⟩ [130, 90, 0, 32, 0, 1] =
      .error "t.PieceCID: byte array too large (2097153)" ∧
    cbor.PieceInfo.UnmarshalCBOR ⟨[], []⟩ [130, 66, 1, 2, 153, 32, 1] =
      .error "t.Deals: array too large (8193)" := by
  have h := PieceInfo_length_limits bufferWriter (fun s p => ⟨s ++ p, rfl⟩)
    ⟨[1, 2], [⟨10, 1, 0, 100⟩]⟩ ⟨[], []⟩ []
  refine ⟨h.1,
    (PieceInfo_length_limits bufferWriter (fun s p => ⟨s ++ p, rfl⟩)
      ⟨[], List.replicate 8193 ⟨0, 0, 0, 0⟩⟩ ⟨[], []⟩ []).1.2
      (Or.inr (by
        show (List.replicate 8193 (⟨0, 0, 0, 0⟩ : DealInfo)).length > MaxLength
        rw [List.length_replicate]
        decide)), ?_, ?_⟩
  · have h2 := h.2.1 [130, 90, 0, 32, 0, 1] [90, 0, 32, 0, 1] 2 2097153 [] rfl rfl
      (by decide)
    rw [h2]
    exact congrArg Except.error (by decide)
  · have h3 := h.2.2 [130, 66, 1, 2, 153, 32, 1] [66, 1, 2, 153, 32, 1] 2 [1, 2, 153, 32, 1]
      [1, 2] [153, 32, 1] 4 8193 [] rfl rfl (by decide) rfl rfl (by decide)
    rw [h3]
    exact congrArg Except.error (by decide)

end piecestore

namespace piecestore

open cbg gio

/-- C38, as the code behaves: the `PieceInfo` left by a successful
`UnmarshalCBOR` depends on what the receiver held. Decoding the encoding of a
piece without deals leaves the receiver with the decoded `PieceCID` and with
the deals it held before the call, because `t.Deals` is assigned only when
the array is not empty; only when the encoding has at least one deal is the
result the encoded piece, whatever the receiver held. -/
theorem PieceInfo_UnmarshalCBOR_keeps_deals (t : cbor.PieceInfo) (pieceCID : List Nat)
    (rest : List Nat) (hlen : pieceCID.length ≤ ByteArrayMaxLen) :
    cbor.PieceInfo.UnmarshalCBOR t ((⟨pieceCID, []⟩ : cbor.PieceInfo).wire ++ rest) =
        .ok (⟨pieceCID, t.Deals⟩, rest) ∧
    (∀ deals : List DealInfo, deals ≠ [] → deals.length ≤ MaxLength →
      (∀ d ∈ deals, d.isUint64) →
      cbor.PieceInfo.UnmarshalCBOR t ((⟨pieceCID, deals⟩ : cbor.PieceInfo).wire ++ rest) =
        .ok (⟨pieceCID, deals⟩, rest)) := by
  have hb1 : pieceCID.length < 18446744073709551616 := by
    have : ByteArrayMaxLen = 2097152 := rfl
    omega
  constructor
  · unfold cbor.PieceInfo.wire cbor.PieceInfo.UnmarshalCBOR
    simp only [cborspec.arrayHead, cborspec.byteString, List.append_assoc]
    simp [bind, Except.bind, pure, Except.pure, MajArray, MajByteString,
      CborReadHeader_head _ _ _ (by decide : 4 < 8) (by decide : 2 < 18446744073709551616),
      CborReadHeader_head _ _ _ (by decide : 2 < 8) hb1,
      CborReadHeader_head _ _ _ (by decide : 4 < 8) (by decide : 0 < 18446744073709551616),
      not_lt.2 hlen, ReadFull_append, cbor.PieceInfo.UnmarshalCBOR.loop, MaxLength]
  · intro deals hne h2 hd
    have hb2 : deals.length < 18446744073709551616 := by
      have : MaxLength = 8192 := rfl
      omega
    have hpos : 0 < deals.length := List.length_pos.2 hne
    unfold cbor.PieceInfo.wire cbor.PieceInfo.UnmarshalCBOR
    simp only [cborspec.arrayHead, cborspec.byteString, List.append_assoc]
    simp [bind, Except.bind, pure, Except.pure, MajArray, MajByteString,
      CborReadHeader_head _ _ _ (by decide : 4 < 8) (by decide : 2 < 18446744073709551616),
      CborReadHeader_head _ _ _ (by decide : 2 < 8) hb1,
      CborReadHeader_head _ _ _ (by decide : 4 < 8) hb2,
      not_lt.2 hlen, not_lt.2 h2, ReadFull_append,
      PieceInfo_UnmarshalCBOR_loop_wire _ hd, hne]

/-- C38 on the three bytes that encode a piece with an empty `PieceCID` and no
deals: decoded into a fresh `PieceInfo` they give no deals, decoded into a
`PieceInfo` that holds the deal `(1, 2, 3, 4)` they leave that deal in
place. -/
theorem PieceInfo_UnmarshalCBOR_keeps_deals_witness :
    (⟨[], []⟩ : cbor.PieceInfo).wire = [130, 64, 128] ∧
      cbor.PieceInfo.UnmarshalCBOR ⟨[], []⟩ [130, 64, 128] = .ok (⟨[], []⟩, []) ∧
      cbor.PieceInfo.UnmarshalCBOR ⟨[9], [⟨1, 2, 3, 4⟩]⟩ [130, 64, 128] =
        .ok (⟨[], [⟨1, 2, 3, 4⟩]⟩, []) := by
  have hw : (⟨[], []⟩ : cbor.PieceInfo).wire = [130, 64, 128] := by decide
  have h1 := (PieceInfo_UnmarshalCBOR_keeps_deals ⟨[], []⟩ [] [] (by decide)).1
  have h2 := (PieceInfo_UnmarshalCBOR_keeps_deals ⟨[9], [⟨1, 2, 3, 4⟩]⟩ [] [] (by decide)).1
  rw [hw] at h1 h2
  exact ⟨hw, h1, h2⟩

end piecestore

/-! ### The lazy blockstore: failed loads and repeated loads -/

namespace retrievalimpl

theorem lazyBlockstore.init_load_fails {σ : Type} (l : lazyBlockstore σ) (s s1 : σ)
    (err : String) (hfresh : l.bs = none) (hload : l.load s = (s1, none, some err)) :
    l.init s = (l, s1, none, some err) := by
  rcases l with ⟨b, ld⟩
  simp only at hfresh hload
  subst hfresh
  simp only [lazyBlockstore.init, hload]

theorem lazyBlockstore.init_load_fails_with_store {σ : Type} (l : lazyBlockstore σ)
    (bs : bstore.Blockstore σ) (s s1 : σ) (err : String) (hfresh : l.bs = none)
    (hload : l.load s = (s1, some bs, some err)) :
    l.init s = ({ l with bs := some bs }, s1, none, some err) := by
  simp only [lazyBlockstore.init, hfresh, hload]

/-- The claim of C36 fails where the load returns a blockstore together with
its error. The load of the example fails at its first call (world 0),
returning the unusable blockstore with the error, and would succeed at its
second call (world 1). The first `Has` returns `false` and the load error.
The next `Has` does not call the load again, the world still counting one
call, and returns the error of the unusable blockstore, because `init` has
stored the blockstore that came with the error. -/
theorem lazyBlockstore_load_failure_counterexample :
    ((exampleStickyLazyBlockstore [exampleBlock]).load 0).1 = 1 ∧
      ((exampleStickyLazyBlockstore [exampleBlock]).load 0).2.2 = some "load failed" ∧
      ((exampleStickyLazyBlockstore [exampleBlock]).load 1).1 = 2 ∧
      ((exampleStickyLazyBlockstore [exampleBlock]).load 1).2.2 = none ∧
      ((exampleStickyLazyBlockstore [exampleBlock]).Has 0 exampleBlock.Cid).map
          (fun r => r.2) = some (1, false, some "load failed") ∧
      (((exampleStickyLazyBlockstore [exampleBlock]).Has 0 exampleBlock.Cid).bind
          (fun r => r.1.Has r.2.1 exampleBlock.Cid)).map (fun r => r.2) =
        some (1, false, some "store not ready") ∧
      (((exampleStickyLazyBlockstore [exampleBlock]).Has 0 exampleBlock.Cid).bind
          (fun r => r.1.Has r.2.1 exampleBlock.Cid)).map (fun r => r.2) ≠
        some (2, true, none) := by
  refine ⟨rfl, rfl, rfl, rfl, rfl, rfl, ?_⟩
  have h : (((exampleStickyLazyBlockstore [exampleBlock]).Has 0 exampleBlock.Cid).bind
      (fun r => r.1.Has r.2.1 exampleBlock.Cid)).map (fun r => r.2) =
      some (1, false, some "store not ready") := rfl
  rw [h]
  decide

/-- C36, amended, for a lazy blockstore that holds no blockstore. If its load
fails returning no blockstore with its error, every operation returns that
load error together with its zero result (`Has` false, `GetSize` 0, `Get`
and `AllKeysChan` nil; `HashOnRead` returns nothing), the world being left as
the load left it, so no underlying store is touched; and the failure is not
kept: the struct is as it was before the call, so that the next operation
calls the load again and, if the load then returns a blockstore without
error, returns what that blockstore returns. If the load fails returning a
blockstore together with its error, every operation likewise returns the
load error with its zero result and the world as the load left it, but each
operation other than `HashOnRead` leaves that blockstore in the struct, and
on the struct that holds it every later operation returns what that
blockstore returns, at the world it is called in, so without calling the
load again. -/
theorem lazyBlockstore_load_failure {σ : Type} (l : lazyBlockstore σ)
    (c : Cid) (block : blocks.Block) (blks : List blocks.Block) (enabled : Bool)
    (hfresh : l.bs = none) :
    (∀ s s1 err, l.load s = (s1, none, some err) →
      l.Has s c = some (l, s1, false, some err) ∧
      l.GetSize s c = some (l, s1, 0, some err) ∧
      l.Get s c = some (l, s1, none, some err) ∧
      l.AllKeysChan s = some (l, s1, none, some err) ∧
      l.DeleteBlock s c = some (l, s1, some err) ∧
      l.Put s block = some (l, s1, some err) ∧
      l.PutMany s blks = some (l, s1, some err) ∧
      l.HashOnRead s enabled = some (l, s1)) ∧
    (∀ s2 s3 bs, l.load s2 = (s3, some bs, none) →
      l.Has s2 c = some ({ l with bs := some bs }, bs.Has s3 c) ∧
      l.GetSize s2 c = some ({ l with bs := some bs }, bs.GetSize s3 c) ∧
      l.Get s2 c = some ({ l with bs := some bs }, bs.Get s3 c) ∧
      l.AllKeysChan s2 = some ({ l with bs := some bs }, bs.AllKeysChan s3) ∧
      l.DeleteBlock s2 c = some ({ l with bs := some bs }, bs.DeleteBlock s3 c) ∧
      l.Put s2 block = some ({ l with bs := some bs }, bs.Put s3 block) ∧
      l.PutMany s2 blks = some ({ l with bs := some bs }, bs.PutMany s3 blks)) ∧
    (∀ s s1 bs err, l.load s = (s1, some bs, some err) →
      (l.Has s c = some ({ l with bs := some bs }, s1, false, some err) ∧
        l.GetSize s c = some ({ l with bs := some bs }, s1, 0, some err) ∧
        l.Get s c = some ({ l with bs := some bs }, s1, none, some err) ∧
        l.AllKeysChan s = some ({ l with bs := some bs }, s1, none, some err) ∧
        l.DeleteBlock s c = some ({ l with bs := some bs }, s1, some err) ∧
        l.Put s block = some ({ l with bs := some bs }, s1, some err) ∧
        l.PutMany s blks = some ({ l with bs := some bs }, s1, some err) ∧
        l.HashOnRead s enabled = some (l, s1)) ∧
      ∀ s2,
        ({ l with bs := some bs } : lazyBlockstore σ).Has s2 c =
            some ({ l with bs := some bs }, bs.Has s2 c) ∧
          ({ l with bs := some bs } : lazyBlockstore σ).GetSize s2 c =
            some ({ l with bs := some bs }, bs.GetSize s2 c) ∧
          ({ l with bs := some bs } : lazyBlockstore σ).Get s2 c =
            some ({ l with bs := some bs }, bs.Get s2 c) ∧
          ({ l with bs := some bs } : lazyBlockstore σ).AllKeysChan s2 =
            some ({ l with bs := some bs }, bs.AllKeysChan s2) ∧
          ({ l with bs := some bs } : lazyBlockstore σ).DeleteBlock s2 c =
            some ({ l with bs := some bs }, bs.DeleteBlock s2 c) ∧
          ({ l with bs := some bs } : lazyBlockstore σ).Put s2 block =
            some ({ l with bs := some bs }, bs.Put s2 block) ∧
          ({ l with bs := some bs } : lazyBlockstore σ).PutMany s2 blks =
            some ({ l with bs := some bs }, bs.PutMany s2 blks) ∧
          ({ l with bs := some bs } : lazyBlockstore σ).HashOnRead s2 enabled =
            some ({ l with bs := some bs }, bs.HashOnRead s2 enabled)) := by
  refine ⟨fun s s1 err hload => ?_, fun s2 s3 bs hload2 => ?_,
    fun s s1 bs err hload3 => ⟨?_, fun s2 => ?_⟩⟩
  · have hinit := lazyBlockstore.init_load_fails l s s1 err hfresh hload
    refine ⟨?_, ?_, ?_, ?_, ?_, ?_, ?_, ?_⟩
    · simp only [lazyBlockstore.Has, hinit]
    · simp only [lazyBlockstore.GetSize, hinit]
    · simp only [lazyBlockstore.Get, hinit]
    · simp only [lazyBlockstore.AllKeysChan, hinit]
    · simp only [lazyBlockstore.DeleteBlock, hinit]
    · simp only [lazyBlockstore.Put, hinit]
    · simp only [lazyBlockstore.PutMany, hinit]
    · simp only [lazyBlockstore.HashOnRead, hinit]
  · have hinit2 := lazyBlockstore.init_loads l bs s2 s3 hfresh hload2
    refine ⟨?_, ?_, ?_, ?_, ?_, ?_, ?_⟩
    · simp only [lazyBlockstore.Has, hinit2]
    · simp only [lazyBlockstore.GetSize, hinit2]
    · simp only [lazyBlockstore.Get, hinit2]
    · simp only [lazyBlockstore.AllKeysChan, hinit2]
    · simp only [lazyBlockstore.DeleteBlock, hinit2]
    · simp only [lazyBlockstore.Put, hinit2]
    · simp only [lazyBlockstore.PutMany, hinit2]
  · have hinit3 := lazyBlockstore.init_load_fails_with_store l bs s s1 err hfresh hload3
    refine ⟨?_, ?_, ?_, ?_, ?_, ?_, ?_, ?_⟩
    · simp only [lazyBlockstore.Has, hinit3]
    · simp only [lazyBlockstore.GetSize, hinit3]
    · simp only [lazyBlockstore.Get, hinit3]
    · simp only [lazyBlockstore.AllKeysChan, hinit3]
    · simp only [lazyBlockstore.DeleteBlock, hinit3]
    · simp only [lazyBlockstore.Put, hinit3]
    · simp only [lazyBlockstore.PutMany, hinit3]
    · simp only [lazyBlockstore.HashOnRead, hinit3]
  · have hinit4 := lazyBlockstore.init_loaded ({ l with bs := some bs }) bs s2 rfl
    refine ⟨?_, ?_, ?_, ?_, ?_, ?_, ?_, ?_⟩
    · simp only [lazyBlockstore.Has, hinit4]
    · simp only [lazyBlockstore.GetSize, hinit4]
    · simp only [lazyBlockstore.Get, hinit4]
    · simp only [lazyBlockstore.AllKeysChan, hinit4]
    · simp only [lazyBlockstore.DeleteBlock, hinit4]
    · simp only [lazyBlockstore.Put, hinit4]
    · simp only [lazyBlockstore.PutMany, hinit4]
    · simp only [lazyBlockstore.HashOnRead, hinit4]

/-- C36, amended, on two loads that count their calls in the world. The
first load fails at its first call without returning a blockstore and
succeeds afterwards: the first `Has` and `GetSize` return the load error with
`false` and `0`, and the `Has` after the failed one calls the load again (the
world counts two calls) and finds the block. The second load fails at its
first call returning the unusable blockstore with its error: the first `Has`
returns the load error with `false`, and the `Has` after it runs no load (the
world still counts one call) and returns what the unusable blockstore
returns. -/
theorem lazyBlockstore_load_failure_witness :
    (((exampleFlakyLazyBlockstore [exampleBlock]).Has 0 exampleBlock.Cid).map (fun r => r.2) =
        some (1, false, some "load failed") ∧
      ((exampleFlakyLazyBlockstore [exampleBlock]).GetSize 0 exampleBlock.Cid).map
          (fun r => r.2) = some (1, 0, some "load failed") ∧
      (((exampleFlakyLazyBlockstore [exampleBlock]).Has 0 exampleBlock.Cid).bind
          (fun r => r.1.Has r.2.1 exampleBlock.Cid)).map (fun r => r.2) =
        some (2, true, none)) ∧
    (((exampleStickyLazyBlockstore [exampleBlock]).Has 0 exampleBlock.Cid).map
          (fun r => r.2) = some (1, false, some "load failed") ∧
      (((exampleStickyLazyBlockstore [exampleBlock]).Has 0 exampleBlock.Cid).bind
          (fun r => r.1.Has r.2.1 exampleBlock.Cid)).map (fun r => r.2) =
        some (exampleBrokenBlockstore.Has 1 exampleBlock.Cid)) := by
  obtain ⟨hfail, hnext, -⟩ :=
    lazyBlockstore_load_failure (exampleFlakyLazyBlockstore [exampleBlock])
      exampleBlock.Cid exampleBlock [] true rfl
  obtain ⟨hhas, hsize, -⟩ := hfail 0 1 "load failed" rfl
  obtain ⟨hhas2, -⟩ := hnext 1 2 (exampleBlockstore [exampleBlock]) rfl
  obtain ⟨-, -, hsticky⟩ :=
    lazyBlockstore_load_failure (exampleStickyLazyBlockstore [exampleBlock])
      exampleBlock.Cid exampleBlock [] true rfl
  obtain ⟨⟨khas, -⟩, klater⟩ := hsticky 0 1 exampleBrokenBlockstore "load failed" rfl
  obtain ⟨khas2, -⟩ := klater 1
  refine ⟨⟨?_, ?_, ?_⟩, ?_, ?_⟩
  · rw [hhas]
    rfl
  · rw [hsize]
    rfl
  · rw [hhas]
    simp only [Option.bind]
    rw [hhas2]
    rfl
  · rw [khas]
    rfl
  · rw [khas]
    simp only [Option.bind]
    rw [khas2]
    rfl

/-- C37, as the code behaves: `HashOnRead` is declared on a value receiver, so
a call of it on a lazy blockstore that holds no blockstore runs the load on
a copy and leaves the struct of the caller without a blockstore; the next
operation runs the load again. So in the sequence `HashOnRead`, `Has` the
load is called twice, although it succeeds both times. What does hold: on a
lazy blockstore that holds a blockstore, each of the eight operations leaves
the struct as it is and acts on that blockstore, without a load. -/
theorem lazyBlockstore_HashOnRead_loads_again {σ : Type} (l : lazyBlockstore σ)
    (bs bs2 : bstore.Blockstore σ) (s s1 s3 : σ) (enabled : Bool) (c : Cid)
    (hfresh : l.bs = none) (hload : l.load s = (s1, some bs, none))
    (hload2 : l.load (bs.HashOnRead s1 enabled) = (s3, some bs2, none)) :
    l.HashOnRead s enabled = some (l, bs.HashOnRead s1 enabled) ∧
    l.run s [.HashOnRead enabled, .Has c] =
      some ({ l with bs := some bs2 }, (bs2.Has s3 c).1) ∧
    (∀ (held : lazyBlockstore σ) (s4 : σ), held.bs = some bs →
      ∀ op, held.step s4 op = some (held,
        match op with
        | .DeleteBlock c => (bs.DeleteBlock s4 c).1
        | .Has c => (bs.Has s4 c).1
        | .Get c => (bs.Get s4 c).1
        | .GetSize c => (bs.GetSize s4 c).1
        | .Put block => (bs.Put s4 block).1
        | .PutMany blks => (bs.PutMany s4 blks).1
        | .AllKeysChan => (bs.AllKeysChan s4).1
        | .HashOnRead enabled => bs.HashOnRead s4 enabled)) := by
  have hinit := lazyBlockstore.init_loads l bs s s1 hfresh hload
  have hhash : l.HashOnRead s enabled = some (l, bs.HashOnRead s1 enabled) := by
    simp only [lazyBlockstore.HashOnRead, hinit]
  refine ⟨hhash, ?_, ?_⟩
  · have hinit2 := lazyBlockstore.init_loads l bs2 _ s3 hfresh hload2
    simp only [lazyBlockstore.run, lazyBlockstore.step, hhash, lazyBlockstore.Has, hinit2,
      Option.map]
  · intro held s4 hheld op
    have hinit3 := lazyBlockstore.init_loaded held bs s4 hheld
    cases op <;>
      simp only [lazyBlockstore.step, lazyBlockstore.DeleteBlock, lazyBlockstore.Has,
        lazyBlockstore.Get, lazyBlockstore.GetSize, lazyBlockstore.Put, lazyBlockstore.PutMany,
        lazyBlockstore.AllKeysChan, lazyBlockstore.HashOnRead, hinit3, Option.map]

/-- C37 on a load that always succeeds and counts its calls in the world:
after `HashOnRead` and `Has` the world counts two loads, and after
`HashOnRead`, `HashOnRead` and `Has` three, whereas after `Has`,
`HashOnRead` and `Has` it counts one. -/
theorem lazyBlockstore_HashOnRead_loads_again_witness :
    ((exampleLazyBlockstore [exampleBlock]).run 0
        [.HashOnRead true, .Has exampleBlock.Cid]).map (fun r => r.2) = some 2 ∧
      ((exampleLazyBlockstore [exampleBlock]).run 0
        [.HashOnRead true, .HashOnRead true, .Has exampleBlock.Cid]).map (fun r => r.2) =
          some 3 ∧
      ((exampleLazyBlockstore [exampleBlock]).run 0
        [.Has exampleBlock.Cid, .HashOnRead true, .Has exampleBlock.Cid]).map
          (fun r => r.2) = some 1 := by
  obtain ⟨-, hrun, -⟩ :=
    lazyBlockstore_HashOnRead_loads_again (exampleLazyBlockstore [exampleBlock])
      (exampleBlockstore [exampleBlock]) (exampleBlockstore [exampleBlock]) 0 1 2 true
      exampleBlock.Cid rfl rfl rfl
  refine ⟨?_, rfl, rfl⟩
  rw [hrun]
  rfl

end retrievalimpl

/-! ### Discovery: entries with unknown keys -/

namespace discovery

open cbg gio

theorem ReadStringBuf_wire (k r : List Nat) (hk : k.length ≤ MaxLength) :
    ReadStringBuf (cborspec.head 3 k.length ++ k ++ r) = .ok (k, r) := by
  have hb : k.length < 18446744073709551616 := by
    have : MaxLength = 8192 := rfl
    omega
  unfold ReadStringBuf
  rw [List.append_assoc]
  simp [bind, Except.bind, pure, Except.pure, MajTextString,
    CborReadHeader_head _ _ _ (by decide : 3 < 8) hb, not_lt.2 hk, ReadFull_append]

theorem RetrievalPeers_UnmarshalCBOR_peers_wire {Peer : Type}
    (UnmarshalPeer : List Nat → Except String (Peer × List Nat)) (enc : Peer → List Nat)
    (peers : List Peer)
    (hpeer : ∀ p ∈ peers, ∀ r, UnmarshalPeer (enc p ++ r) = .ok (p, r)) (r : List Nat) :
    RetrievalPeers.UnmarshalCBOR.peers UnmarshalPeer peers.length
        ((peers.map enc).flatten ++ r) = .ok (peers, r) := by
  induction peers with
  | nil => simp [RetrievalPeers.UnmarshalCBOR.peers]
  | cons p t ih =>
    have h1 := hpeer p (List.mem_cons_self p t)
    have h2 : ∀ x ∈ t, ∀ r, UnmarshalPeer (enc x ++ r) = .ok (x, r) :=
      fun x hx => hpeer x (List.mem_cons_of_mem p hx)
    have e : ((p :: t).map enc).flatten ++ r = enc p ++ ((t.map enc).flatten ++ r) := by
      simp
    rw [e]
    simp [RetrievalPeers.UnmarshalCBOR.peers, h1, bind, Except.bind, pure, Except.pure, ih h2]

/-- Entries with unknown keys are passed over. -/
theorem RetrievalPeers_UnmarshalCBOR_loop_skip {Peer : Type}
    (UnmarshalPeer : List Nat → Except String (Peer × List Nat))
    (ScanForLinks : List Nat → Option String × List Nat)
    (es : List (List Nat × List Nat))
    (hkeys : ∀ e ∈ es, e.1 ≠ "Peers".toList.map Char.toNat ∧ e.1.length ≤ MaxLength)
    (hscan : ∀ e ∈ es, ∀ r, (ScanForLinks (e.2 ++ r)).2 = r) :
    ∀ (m : Nat) (t : RetrievalPeers Peer) (r : List Nat),
      RetrievalPeers.UnmarshalCBOR.loop UnmarshalPeer ScanForLinks (es.length + m) t
          (cborspec.entries es ++ r) =
        RetrievalPeers.UnmarshalCBOR.loop UnmarshalPeer ScanForLinks m t r := by
  induction es with
  | nil =>
    intro m t r
    simp [cborspec.entries]
  | cons a rest ih =>
    intro m t r
    have ha := hkeys a (List.mem_cons_self a rest)
    have hs := hscan a (List.mem_cons_self a rest)
    have hk2 : ∀ e ∈ rest, e.1 ≠ "Peers".toList.map Char.toNat ∧ e.1.length ≤ MaxLength :=
      fun e he => hkeys e (List.mem_cons_of_mem a he)
    have hs2 : ∀ e ∈ rest, ∀ r, (ScanForLinks (e.2 ++ r)).2 = r :=
      fun e he => hscan e (List.mem_cons_of_mem a he)
    have hn : (a :: rest).length + m = (rest.length + m) + 1 := by
      simp only [List.length_cons]
      omega
    have e : cborspec.entries (a :: rest) ++ r =
        cborspec.head 3 a.1.length ++ a.1 ++ (a.2 ++ (cborspec.entries rest ++ r)) := by
      simp [cborspec.entries]
    rw [hn, e, RetrievalPeers.UnmarshalCBOR.loop]
    simp only [ReadStringBuf_wire _ _ ha.2, bind, Except.bind, if_neg ha.1, hs]
    exact ih hk2 hs2 m t r

/-- The entry "Peers" is decoded into the receiver. -/
theorem RetrievalPeers_UnmarshalCBOR_loop_peers {Peer : Type}
    (UnmarshalPeer : List Nat → Except String (Peer × List Nat))
    (ScanForLinks : List Nat → Option String × List Nat) (enc : Peer → List Nat)
    (peers : List Peer) (hlen : peers.length ≤ MaxLength)
    (hpeer : ∀ p ∈ peers, ∀ r, UnmarshalPeer (enc p ++ r) = .ok (p, r))
    (m : Nat) (t : RetrievalPeers Peer) (r : List Nat) :
    RetrievalPeers.UnmarshalCBOR.loop UnmarshalPeer ScanForLinks (m + 1) t
        (cborspec.textString "Peers" ++ cborspec.arrayHead peers.length ++
          (peers.map enc).flatten ++ r) =
      RetrievalPeers.UnmarshalCBOR.loop UnmarshalPeer ScanForLinks m
        (if peers.length > 0 then { t with Peers := peers } else t) r := by
  have hb : peers.length < 18446744073709551616 := by
    have : MaxLength = 8192 := rfl
    omega
  have e : cborspec.textString "Peers" ++ cborspec.arrayHead peers.length ++
        (peers.map enc).flatten ++ r =
      cborspec.head 3 ("Peers".toList.map Char.toNat).length ++
        "Peers".toList.map Char.toNat ++
        (cborspec.head 4 peers.length ++ ((peers.map enc).flatten ++ r)) := by
    have h5 : "Peers".length = 5 := by decide
    simp [cborspec.textString, cborspec.arrayHead, h5]
  rw [e, RetrievalPeers.UnmarshalCBOR.loop]
  simp only [ReadStringBuf_wire _ _ (by decide :
      ("Peers".toList.map Char.toNat).length ≤ MaxLength), bind, Except.bind, if_true,
    CborReadHeader_head _ _ _ (by decide : 4 < 8) hb]
  simp [not_lt.2 hlen, MajArray, pure, Except.pure, bind, Except.bind,
    RetrievalPeers_UnmarshalCBOR_peers_wire UnmarshalPeer enc peers hpeer]

end discovery

namespace discovery

open cbg gio

/-- A map header that declares more than `MaxLength` entries is refused,
whatever follows it. -/
theorem RetrievalPeers_UnmarshalCBOR_too_many_entries {Peer : Type}
    (UnmarshalPeer : List Nat → Except String (Peer × List Nat))
    (ScanForLinks : List Nat → Option String × List Nat) (t : RetrievalPeers Peer)
    (n : Nat) (hn : MaxLength < n) (hb : n < 18446744073709551616) (tail : List Nat) :
    RetrievalPeers.UnmarshalCBOR UnmarshalPeer ScanForLinks t (cborspec.mapHead n ++ tail) =
      .error ("RetrievalPeers: map struct too large (" ++ toString n ++ ")") := by
  unfold RetrievalPeers.UnmarshalCBOR
  simp only [cborspec.mapHead]
  rw [CborReadHeader_head _ _ _ (by decide : 5 < 8) hb]
  simp only [bind, Except.bind, pure, Except.pure, throw, throwThe, MonadExceptOf.throw]
  rw [if_neg (by decide), if_pos hn]

/-- The claim of C31 fails at a map with more entries than `cbg.MaxLength`:
the map with the entry "Peers" alone decodes to its one peer, and the map of
8193 entries made of the same entry "Peers" followed by 8192 entries with
the unknown key "x" and the value 0, which the skipping routine passes over,
is refused as too large. -/
theorem RetrievalPeers_UnmarshalCBOR_counterexample :
    RetrievalPeers.UnmarshalCBOR exampleUnmarshalPeer exampleScanForLinks ⟨[]⟩
        (cborspec.mapHead 1 ++ (cborspec.textString "Peers" ++ (cborspec.arrayHead 1 ++ [7]))) =
      .ok (⟨[7]⟩, []) ∧
    (∀ r, exampleScanForLinks ([0] ++ r) = (none, r)) ∧
    RetrievalPeers.UnmarshalCBOR exampleUnmarshalPeer exampleScanForLinks ⟨[]⟩
        (cborspec.mapHead 8193 ++ (cborspec.textString "Peers" ++ (cborspec.arrayHead 1 ++
          ([7] ++ cborspec.entries (List.replicate 8192 ([120], [0])))))) =
      .error "RetrievalPeers: map struct too large (8193)" :=
  ⟨rfl, fun _ => rfl,
    (RetrievalPeers_UnmarshalCBOR_too_many_entries exampleUnmarshalPeer exampleScanForLinks
      ⟨[]⟩ 8193 (by decide) (by decide) _).trans (congrArg Except.error (by decide))⟩

/-- C31, amended: `UnmarshalCBOR` for `RetrievalPeers` passes over entries with
unknown keys within its limits. For a map of at most `MaxLength` entries that
holds the entry "Peers" with at most `MaxLength` peers, each of which the
peer decoder reads back from its encoding, and before and after it entries
whose keys are text strings of at most `MaxLength` bytes other than "Peers"
and whose values `ScanForLinks` passes over, decoding succeeds and yields the
same `Peers` list as decoding the map with the entry "Peers" alone, whatever
the receiver held. A map with zero entries decodes to an empty `Peers` list,
and an input whose first header is not a map header is refused. -/
theorem RetrievalPeers_UnmarshalCBOR_skips_unknown {Peer : Type}
    (UnmarshalPeer : List Nat → Except String (Peer × List Nat))
    (ScanForLinks : List Nat → Option String × List Nat) (enc : Peer → List Nat)
    (t : RetrievalPeers Peer) (before after : List (List Nat × List Nat))
    (peers : List Peer) (rest : List Nat)
    (hcount : before.length + (1 + after.length) ≤ MaxLength)
    (hkeys : ∀ e ∈ before ++ after,
      e.1 ≠ "Peers".toList.map Char.toNat ∧ e.1.length ≤ MaxLength)
    (hscan : ∀ e ∈ before ++ after, ∀ r, (ScanForLinks (e.2 ++ r)).2 = r)
    (hlen : peers.length ≤ MaxLength)
    (hpeer : ∀ p ∈ peers, ∀ r, UnmarshalPeer (enc p ++ r) = .ok (p, r)) :
    RetrievalPeers.UnmarshalCBOR UnmarshalPeer ScanForLinks t
        (cborspec.mapHead (before.length + (1 + after.length)) ++
          (cborspec.entries before ++
            (cborspec.textString "Peers" ++ cborspec.arrayHead peers.length ++
              (peers.map enc).flatten ++
              (cborspec.entries after ++ rest)))) = .ok (⟨peers⟩, rest) ∧
    RetrievalPeers.UnmarshalCBOR UnmarshalPeer ScanForLinks t
        (cborspec.mapHead 1 ++
          (cborspec.textString "Peers" ++ cborspec.arrayHead peers.length ++
            (peers.map enc).flatten ++ rest)) = .ok (⟨peers⟩, rest) ∧
    RetrievalPeers.UnmarshalCBOR UnmarshalPeer ScanForLinks t (cborspec.mapHead 0 ++ rest) =
      .ok (⟨[]⟩, rest) ∧
    (∀ br, (∀ n r, CborReadHeader br ≠ .ok (MajMap, n, r)) →
      ∃ e, RetrievalPeers.UnmarshalCBOR UnmarshalPeer ScanForLinks t br = .error e) := by
  have hM : MaxLength = 8192 := rfl
  have hreset : (if peers.length > 0 then
      ({ ({ t with Peers := [] } : RetrievalPeers Peer) with Peers := peers } :
        RetrievalPeers Peer)
      else { t with Peers := [] }) = ⟨peers⟩ := by
    by_cases hp : peers.length > 0
    · rw [if_pos hp]
    · rw [if_neg hp]
      have : peers = [] := List.length_eq_zero.1 (by omega)
      rw [this]
  refine ⟨?_, ?_, ?_, ?_⟩
  · unfold RetrievalPeers.UnmarshalCBOR
    simp only [cborspec.mapHead]
    rw [CborReadHeader_head _ _ _ (by decide : 5 < 8) (by omega)]
    simp only [bind, Except.bind, pure, Except.pure, MajMap, ne_eq, not_true_eq_false,
      if_false, not_lt.2 hcount]
    rw [RetrievalPeers_UnmarshalCBOR_loop_skip UnmarshalPeer ScanForLinks before
        (fun e he => hkeys e (List.mem_append_left _ he))
        (fun e he => hscan e (List.mem_append_left _ he)),
      Nat.add_comm 1 after.length,
      RetrievalPeers_UnmarshalCBOR_loop_peers UnmarshalPeer ScanForLinks enc peers hlen hpeer,
      hreset]
    have h0 := RetrievalPeers_UnmarshalCBOR_loop_skip UnmarshalPeer ScanForLinks after
      (fun e he => hkeys e (List.mem_append_right _ he))
      (fun e he => hscan e (List.mem_append_right _ he)) 0 ⟨peers⟩ rest
    rw [Nat.add_zero] at h0
    rw [h0]
    rfl
  · unfold RetrievalPeers.UnmarshalCBOR
    simp only [cborspec.mapHead]
    rw [CborReadHeader_head _ _ _ (by decide : 5 < 8) (by decide)]
    simp only [bind, Except.bind, pure, Except.pure, MajMap, ne_eq, not_true_eq_false,
      if_false, not_lt.2 (by rw [hM]; decide : 1 ≤ MaxLength)]
    rw [show (1 : Nat) = 0 + 1 from rfl,
      RetrievalPeers_UnmarshalCBOR_loop_peers UnmarshalPeer ScanForLinks enc peers hlen hpeer,
      hreset]
    rfl
  · unfold RetrievalPeers.UnmarshalCBOR
    simp only [cborspec.mapHead]
    rw [CborReadHeader_head _ _ _ (by decide : 5 < 8) (by decide)]
    simp only [bind, Except.bind, pure, Except.pure, MajMap, ne_eq, not_true_eq_false,
      if_false, not_lt.2 (by rw [hM]; decide : 0 ≤ MaxLength)]
    rfl
  · intro br hbr
    unfold RetrievalPeers.UnmarshalCBOR
    rcases h0 : CborReadHeader br with e | ⟨maj, n, r⟩
    · exact ⟨e, by simp [bind, Except.bind]⟩
    · have hmaj : maj ≠ MajMap := by
        intro hm
        subst hm
        exact hbr n r h0
      refine ⟨"cbor input should be of type map", ?_⟩
      simp only [bind, Except.bind, pure, Except.pure, throw, throwThe, MonadExceptOf.throw,
        ne_eq, hmaj, not_false_eq_true, if_true]

/-- C31, amended, on a map of three entries: the unknown entry "x" with the
value 0, the entry "Peers" with the peers 7 and 9, and the unknown entry "yz"
with a byte string as value. It decodes to the two peers, as does the map
with the entry "Peers" alone; the empty map decodes to no peers into a
receiver that held one. -/
theorem RetrievalPeers_UnmarshalCBOR_skips_unknown_witness :
    RetrievalPeers.UnmarshalCBOR exampleUnmarshalPeer exampleScanForLinks ⟨[3]⟩
        [163, 97, 120, 0, 101, 80, 101, 101, 114, 115, 130, 7, 9, 98, 121, 122, 66, 1, 2] =
      .ok (⟨[7, 9]⟩, []) ∧
    RetrievalPeers.UnmarshalCBOR exampleUnmarshalPeer exampleScanForLinks ⟨[3]⟩
        [161, 101, 80, 101, 101, 114, 115, 130, 7, 9] = .ok (⟨[7, 9]⟩, []) ∧
    RetrievalPeers.UnmarshalCBOR exampleUnmarshalPeer exampleScanForLinks ⟨[3]⟩ [160] =
      .ok (⟨[]⟩, []) := by
  have h := RetrievalPeers_UnmarshalCBOR_skips_unknown exampleUnmarshalPeer
    exampleScanForLinks (fun v => [v]) ⟨[3]⟩ [([120], [0])] [([121, 122], [66, 1, 2])] [7, 9] []
    (by decide)
    (by
      intro e he
      simp only [List.singleton_append, List.mem_cons, List.mem_singleton, List.not_mem_nil,
        or_false] at he
      rcases he with rfl | rfl <;> exact ⟨by decide, by decide⟩)
    (by
      intro e he r
      simp only [List.singleton_append, List.mem_cons, List.mem_singleton, List.not_mem_nil,
        or_false] at he
      rcases he with rfl | rfl
      · rfl
      · rfl)
    (by decide)
    (by
      intro p hp r
      simp only [List.mem_cons, List.mem_singleton, List.not_mem_nil, or_false] at hp
      rcases hp with rfl | rfl <;> rfl)
  exact ⟨h.1, h.2.1, h.2.2.1⟩

end discovery
